import Mathlib

/-!
# QRCodeStateEstimation: the dimension parser and the pose pipeline

A shallow embedding of `src/library/QRCodeStateEstimator.cpp` and of
`exceptionClassToString` and `SOMException::toString` of `src/library/SOMException.cpp`.

Conventions of the embedding

* A `std::string` is the list of its characters (`CppString`).  A `size_t` is a natural
  number below `2^64` and an `int` an integer in `[-2^31, 2^31)`; the conversions between
  the two that the parser performs implicitly are explicit here (`toInt`, `toSizeT`), so
  that payloads of `2^31` characters and more behave as in the source.  The text of a
  symbol that the scanner reports is shorter than `2^31` characters.
* A C++ exception is an `Except` error.  `extractQRCodeDimensionFromString` returns
  `pure none` for `return false` and `pure (some (dimension, identifier))` for
  `return true` with the two output buffers written.
* A `double` is the rational value it stands for, or an infinity, or NaN (`Double`).
  Conversion from text, multiplication and division round to the nearest binary64 value,
  ties to even, and overflow to an infinity (`roundBinary64`).  The sign of zero is not
  represented.
* `std::stod`, `std::string::find`, `std::string::substr` and `std::map::at` are the
  library functions the parser calls; they are modelled after the C and C++ standards
  (C locale).
* The primitives of OpenCV (`solvePnP`, `Rodrigues`, `invert`) are the fields of a
  parameter `OpenCV`, and what the zbar scanner makes of an image is a field of the
  frame: the pipeline is verified for every choice of them.  The scanner object, with a
  state of its own, and the image that the outlines are drawn into are the subject of
  `estimateOneOrMoreStatesFromGrayscaleFrameCall`.
-/

namespace QRCodeStateEstimation

/-! ## Strings and the standard library -/

/-- A `std::string`, as the list of its characters. -/
abbrev CppString := List Char

/-- The exceptions of the standard library that the parser can meet. -/
inductive StdException where
  | invalid_argument
  | out_of_range
deriving DecidableEq

/-- `std::string::find(token)`: the index of the first occurrence of `token`,
`none` standing for `std::string::npos`. -/
def find : CppString → CppString → Option Nat
  | [], token => if token.isPrefixOf [] then some 0 else none
  | c :: rest, token =>
    if token.isPrefixOf (c :: rest) then some 0 else (find rest token).map (· + 1)

/-- The constant `std::string::npos`, the largest `size_t`. -/
def npos : Nat := 2 ^ 64 - 1

/-- Conversion of a `size_t` to `int`: the value modulo `2^32`, in `[-2^31, 2^31)` (the
rule of C++20, and what gcc, clang and msvc did before it). -/
def toInt (n : Nat) : Int :=
  if n % 2 ^ 32 < 2 ^ 31 then ((n % 2 ^ 32 : Nat) : Int) else ((n % 2 ^ 32 : Nat) : Int) - 2 ^ 32

/-- Conversion of an `int` to `size_t`: the value modulo `2^64`. -/
def toSizeT (i : Int) : Nat := (i % 2 ^ 64).toNat

/-- `std::string::substr(pos, len)`; `len = none` stands for `std::string::npos`.
Throws `std::out_of_range` when `pos` is beyond the end. -/
def substr (s : CppString) (pos : Nat) (len : Option Nat) : Except StdException CppString :=
  if s.length < pos then throw StdException.out_of_range
  else match len with
    | none => pure (s.drop pos)
    | some n => pure ((s.drop pos).take n)

/-- `std::transform(buffer.begin(), buffer.end(), buffer.begin(), ::tolower)`. -/
def toLowerCase (s : CppString) : CppString := s.map Char.toLower

/-! ## Doubles -/

/-- A `double`: a finite value, an infinity with its sign, or NaN. -/
inductive Double where
  | finite (value : ℚ)
  | infinite (negative : Bool)
  | nan
deriving DecidableEq

/-- The number of binary digits of `n`, counted in at most `fuel` halvings. -/
def bitLength : Nat → Nat → Nat
  | 0, _ => 0
  | fuel + 1, n => if n = 0 then 0 else bitLength fuel (n / 2) + 1

/-- The binade of `q ≠ 0`: the exponent `e` with `2^e ≤ |q| < 2^(e+1)`.  The difference
of the digit counts of numerator and denominator is `e + 1` or `e` . -/
def floorLog2 (q : ℚ) : Int :=
  if (2 : ℚ) ^ ((bitLength q.num.natAbs q.num.natAbs : Int) - (bitLength q.den q.den : Int)) ≤ |q|
  then (bitLength q.num.natAbs q.num.natAbs : Int) - (bitLength q.den q.den : Int)
  else (bitLength q.num.natAbs q.num.natAbs : Int) - (bitLength q.den q.den : Int) - 1

/-- The integer nearest to `x`; of two that are equally near, the even one. -/
def roundHalfEven (x : ℚ) : Int :=
  if x - ⌊x⌋ < 1 / 2 then ⌊x⌋
  else if 1 / 2 < x - ⌊x⌋ then ⌊x⌋ + 1
  else if ⌊x⌋ % 2 = 0 then ⌊x⌋ else ⌊x⌋ + 1

/-- The spacing of the binary64 values at `q`: `2^(e-52)` in the binade `e` of a normal
value, and `2^-1074` below `DBL_MIN = 2^-1022`. -/
def ulp (q : ℚ) : ℚ := 2 ^ (max (floorLog2 q) (-1022) - 52)

/-- Rounding of an exact value to binary64 in the default mode: to the nearest multiple
of the spacing, ties to even, and to an infinity when that multiple is `2^1024`. -/
def roundBinary64 (q : ℚ) : Double :=
  if 2 ^ 1024 ≤ |(roundHalfEven (q / ulp q) : ℚ) * ulp q| then Double.infinite (decide (q < 0))
  else Double.finite (roundHalfEven (q / ulp q) * ulp q)

/-- Multiplication of doubles: the exact product, rounded. -/
def Double.mul : Double → Double → Double
  | .finite a, .finite b => roundBinary64 (a * b)
  | .nan, _ => .nan
  | _, .nan => .nan
  | .infinite s, .finite b => if b = 0 then .nan else .infinite (xor s (decide (b < 0)))
  | .finite a, .infinite s => if a = 0 then .nan else .infinite (xor s (decide (a < 0)))
  | .infinite s, .infinite t => .infinite (xor s t)

instance : Mul Double := ⟨Double.mul⟩

/-- Magnitudes from here on round to infinity in binary64 (`DBL_MAX` plus half an ulp). -/
def overflowThreshold : ℚ := 2 ^ 1024 - 2 ^ 970

/-- `DBL_MIN`, the smallest positive normal binary64 value. -/
def DBL_MIN : ℚ := 1 / 2 ^ 1022

/-- Magnitudes below this round, with an unbounded exponent, to less than `DBL_MIN`
(`DBL_MIN` minus a quarter of the spacing of the subnormal values). -/
def tinyThreshold : ℚ := DBL_MIN - 1 / 2 ^ 1076

/-- Whether `strtod` sets `errno` to `ERANGE` for the exact value `q`: on overflow, and
(as implementation-defined behaviour, here that of glibc on x86-64, which detects
tininess after rounding) on underflow, when the value rounds to less than `DBL_MIN` and
is not an exact multiple of the smallest subnormal `2^-1074`. -/
def strtodRangeError (q : ℚ) : Bool :=
  decide (overflowThreshold ≤ |q|) ||
    (decide (|q| < tinyThreshold) && decide ((q * 2 ^ 1074).den ≠ 1))

/-! ## `std::stod` -/

/-- `isspace` in the C locale. -/
def isspace (c : Char) : Bool :=
  c == ' ' || c == '\t' || c == '\n' || c.toNat == 11 || c.toNat == 12 || c == '\r'

/-- `isxdigit`. -/
def isxdigit (c : Char) : Bool :=
  c.isDigit || (decide ('a' ≤ c) && decide (c ≤ 'f')) || (decide ('A' ≤ c) && decide (c ≤ 'F'))

/-- The value of a decimal or hexadecimal digit. -/
def digitValue (c : Char) : Nat :=
  if c.isDigit then c.toNat - 48
  else if decide ('a' ≤ c) && decide (c ≤ 'f') then c.toNat - 87
  else c.toNat - 55

/-- The value of a digit sequence in the given base, most significant digit first. -/
def digitsValue (base : Nat) (ds : CppString) : Nat :=
  ds.foldl (fun acc c => base * acc + digitValue c) 0

/-- An optional sign: whether it is a minus, and the text after it. -/
def parseSign : CppString → Bool × CppString
  | [] => (false, [])
  | c :: rest =>
    if c = '-' then (true, rest)
    else if c = '+' then (false, rest)
    else (false, c :: rest)

/-- The exponent part of a number: the marker (`e` or `p`, either case), an optional
sign and at least one decimal digit.  An absent or incomplete exponent part is not
consumed and counts as exponent `0`. -/
def parseExponent (marker : Char) : CppString → Int
  | [] => 0
  | c :: rest =>
    if c.toLower == marker then
      let ds := (parseSign rest).2.takeWhile Char.isDigit
      if ds.isEmpty then 0
      else if (parseSign rest).1 then -(digitsValue 10 ds : Int) else (digitsValue 10 ds : Int)
    else 0

/-- The text after an optional radix character `.`. -/
def afterPoint : CppString → Option CppString
  | [] => none
  | c :: rest => if c = '.' then some rest else none

/-- A mantissa in the given digit class: digits, optionally containing one `.`, at least
one digit in all.  Returns the integer digits, the fraction digits and the rest. -/
def parseMantissa (isDig : Char → Bool) (s : CppString) :
    Option (CppString × CppString × CppString) :=
  let ip := s.takeWhile isDig
  let r1 := s.dropWhile isDig
  let fp := match afterPoint r1 with
    | some r => r.takeWhile isDig
    | none => []
  let r2 := match afterPoint r1 with
    | some r => r.dropWhile isDig
    | none => r1
  if ip.isEmpty && fp.isEmpty then none else some (ip, fp, r2)

/-- A decimal floating constant: the longest prefix `digits [. digits] [e [sign] digits]`. -/
def parseDecimal (s : CppString) : Option ℚ :=
  match parseMantissa Char.isDigit s with
  | none => none
  | some (ip, fp, r2) =>
    some ((digitsValue 10 (ip ++ fp) : ℚ) * 10 ^ (parseExponent 'e' r2 - (fp.length : Int)))

/-- A hexadecimal floating constant: `0x hexdigits [. hexdigits] [p [sign] digits]`. -/
def parseHex : CppString → Option ℚ
  | c :: x :: t =>
    if c = '0' ∧ x.toLower = 'x' then
      match parseMantissa isxdigit t with
      | none => none
      | some (ip, fp, r2) =>
        some ((digitsValue 16 (ip ++ fp) : ℚ) *
          2 ^ (parseExponent 'p' r2 - 4 * (fp.length : Int)))
    else none
  | _ => none

/-- Whether `s` starts with the lower-case word `word`, letter case ignored. -/
def startsWithNoCase (word : String) (s : CppString) : Bool :=
  word.toList.isPrefixOf (toLowerCase s)

/-- `std::stod(str)` (called without a position argument): skips leading white space,
takes an optional sign and converts the longest prefix that is a decimal or hexadecimal
floating constant, `inf`/`infinity` or `nan`/`nan(...)`, rounding its value to binary64.
Text after that prefix is ignored.  Throws `std::invalid_argument` when no conversion can
be performed and `std::out_of_range` when `strtod` reports `ERANGE`. -/
def stod (str : CppString) : Except StdException Double :=
  let body := parseSign (str.dropWhile isspace)
  match (parseHex body.2 <|> parseDecimal body.2) with
  | some q =>
    if strtodRangeError q then throw StdException.out_of_range
    else pure (roundBinary64 (if body.1 then -q else q))
  | none =>
    if startsWithNoCase "inf" body.2 then pure (Double.infinite body.1)
    else if startsWithNoCase "nan" body.2 then pure Double.nan
    else throw StdException.invalid_argument

/-! ## The dimension parser -/

/-- The unit table `unitIdentifierToMetricMeterConversionFactor`, a `std::map`, as the
list of its entries in iteration order (keys ascending).  A factor is the binary64 value
of its literal (`.01`, `.3048`, `.0254`, `1.0`, `.001`). -/
def unitIdentifierToMetricMeterConversionFactor : List (CppString × Double) :=
  [("cm-".toList, roundBinary64 (1 / 100)),
   ("ft-".toList, roundBinary64 (3048 / 10000)),
   ("in-".toList, roundBinary64 (254 / 10000)),
   ("m-".toList, roundBinary64 1),
   ("mm-".toList, roundBinary64 (1 / 1000))]

/-- `std::map::at(key)`: the mapped value, or `std::out_of_range`. -/
def mapAt (m : List (CppString × Double)) (key : CppString) : Except StdException Double :=
  match m.lookup key with
  | some v => pure v
  | none => throw StdException.out_of_range

/-- The two locals the token loop updates: an `int` and a `std::string`. -/
structure UnitSearch where
  minimumUnitIdentifierStartingIndex : Int
  minimumUnitIDType : CppString
deriving DecidableEq

/-- The local `int currentIndex = buffer.find(token)`: the `size_t` that `find` returns,
`npos` when there is no occurrence, converted to `int`. -/
def currentIndex (buffer token : CppString) : Int := toInt ((find buffer token).getD npos)

/-- One iteration of the loop over the unit table.  In `currentIndex == std::string::npos`
the `int` is converted to `size_t`; `currentIndex < minimumUnitIdentifierStartingIndex`
compares two `int`s. -/
def unitSearchStep (buffer : CppString) (st : UnitSearch) (entry : CppString × Double) :
    UnitSearch :=
  if toSizeT (currentIndex buffer entry.1) = npos then st
  else if currentIndex buffer entry.1 < st.minimumUnitIdentifierStartingIndex then
    { minimumUnitIdentifierStartingIndex := currentIndex buffer entry.1
      minimumUnitIDType := entry.1 }
  else st

/-- The loop over the unit table, from its initial state
`int minimumUnitIdentifierStartingIndex = buffer.size()`. -/
def unitSearch (buffer : CppString) : UnitSearch :=
  unitIdentifierToMetricMeterConversionFactor.foldl (unitSearchStep buffer)
    { minimumUnitIdentifierStartingIndex := toInt buffer.length, minimumUnitIDType := [] }

/-- The function `extractQRCodeDimensionFromString`.  `pure none` is `return false`;
`pure (some (d, id))` is `return true` with `d` in the dimension buffer and `id` in the
identifier buffer; an error is an exception leaving the function.  The two calls of
`substr` convert the `int` index to `size_t`, the second after adding the size of the
token in `size_t` arithmetic. -/
def extractQRCodeDimensionFromString (inputQRCodeString : CppString) :
    Except StdException (Option (Double × CppString)) :=
  let buffer := toLowerCase inputQRCodeString
  let st := unitSearch buffer
  if st.minimumUnitIDType.length = 0 then pure none
  else
    match substr buffer 0 (some (toSizeT st.minimumUnitIdentifierStartingIndex)) with
    | .error e => throw e
    | .ok numberPortion =>
      match stod numberPortion with
      | .error _ => pure none
      | .ok dimensionInOriginalUnits =>
        match mapAt unitIdentifierToMetricMeterConversionFactor st.minimumUnitIDType with
        | .error e => throw e
        | .ok factor =>
          match substr inputQRCodeString
              ((toSizeT st.minimumUnitIdentifierStartingIndex + st.minimumUnitIDType.length) %
                2 ^ 64) none with
          | .error e => throw e
          | .ok identifier => pure (some (dimensionInOriginalUnits * factor, identifier))

/-! ## The pose pipeline -/

/-- The enumeration `exceptionClass` of `SOMException.hpp`. -/
inductive exceptionClass where
  | ZMQ_ERROR
  | SQLITE3_ERROR
  | ZBAR_ERROR
  | FILE_SYSTEM_ERROR
  | AN_ASSUMPTION_WAS_VIOLATED_ERROR
  | SINGLETON_ALREADY_EXISTS
  | SINGLETON_CREATION_FAILED
  | FORK_ERROR
  | SYSTEM_ERROR
  | INVALID_FUNCTION_INPUT
  | INCORRECT_SERVER_RESPONSE
  | SERVER_REQUEST_FAILED
  | UNKNOWN
deriving DecidableEq

/-- A `SOMException`: its message and its class (file name and line number left out). -/
structure SOMException where
  errorMessage : String
  exceptionType : exceptionClass
deriving DecidableEq

/-- What can leave the pipeline as an exception. -/
inductive Thrown where
  | som (e : SOMException)
  | std (e : StdException)
deriving DecidableEq

/-- The value of `zbar::ZBAR_QRCODE` in `zbar_symbol_type_t`. -/
def ZBAR_QRCODE : Nat := 64

/-- A symbol reported by the zbar scanner: `get_type()`, the polygon behind
`get_location_size()`, `get_location_x(i)`, `get_location_y(i)`, and `get_data()`.  The
text of a symbol is shorter than `2^31` characters (zbar keeps its length in an
`unsigned int`, and a QR symbol holds at most 7089 characters). -/
structure Symbol where
  type : Nat
  location : List (Int × Int)
  data : CppString
  dataLength : data.length < 2 ^ 31 := by decide
deriving DecidableEq

/-- A grayscale frame as the pipeline sees it: `channels()` and what
`zbarScanner.scan` makes of the image, `none` for a scan that returns `-1`, otherwise
the symbols in iteration order. -/
structure Frame where
  channels : Nat
  scan : Option (List Symbol)

/-- A `cv::Mat_<double>` of fixed shape. -/
abbrev Mat (rows cols : Nat) := Fin rows → Fin cols → Double

/-- A `cv::Point2d`. -/
structure Point2d where
  x : Double
  y : Double
deriving DecidableEq

/-- A `cv::Point3d`. -/
structure Point3d where
  x : Double
  y : Double
  z : Double
deriving DecidableEq

/-- The OpenCV primitives the pipeline calls, taken as given: `cv::solvePnP` (returning
the rotation and the translation vector), `cv::Rodrigues`, and `cv::invert` (returning
its `double` result together with the destination matrix). -/
structure OpenCV where
  solvePnP : List Point3d → List Point2d → Mat 3 3 → Mat 1 5 → Mat 3 1 × Mat 3 1
  Rodrigues : Mat 3 1 → Mat 3 3
  invert : Mat 4 4 → Double × Mat 4 4

/-- The members of `QRCodeStateEstimator` that the frame functions read. -/
structure QRCodeStateEstimator where
  expectedCameraImageWidth : Int
  expectedCameraImageHeight : Int
  cameraMatrix : Mat 3 3
  distortionParameters : Mat 1 5
  showResultsInWindow : Bool

/-- The three output buffers of the multi-marker functions. -/
structure OutputBuffers where
  inputCameraPosesBuffer : List (Mat 4 4)
  inputQRCodeIdentifiersBuffer : List CppString
  inputQRCodeDimensionsBuffer : List Double

/-- Negation of a double. -/
def Double.neg : Double → Double
  | .finite a => .finite (-a)
  | .infinite s => .infinite (!s)
  | .nan => .nan

/-- Division of a double by the constant `2.0`: the exact quotient, rounded. -/
def Double.half : Double → Double
  | .finite a => roundBinary64 (a / 2)
  | .infinite s => .infinite s
  | .nan => .nan

/-- Conversion of an `int` to `double`. -/
def Double.ofInt (n : Int) : Double := .finite n

/-- The four marker corners in marker coordinates, `objectVerticesInObjectCoordinates`. -/
def objectVerticesInObjectCoordinates (QRCodeDimensionInMeters : Double) : List Point3d :=
  let buf := QRCodeDimensionInMeters.half
  [⟨buf.neg, buf.neg, .finite 0⟩,
   ⟨buf, buf.neg, .finite 0⟩,
   ⟨buf, buf, .finite 0⟩,
   ⟨buf.neg, buf, .finite 0⟩]

/-- The 4x4 `viewMatrix` after it is zeroed, filled from the rotation matrix and the
translation vector, and given `1.0` at `(3, 3)`. -/
def viewMatrix (rotationMatrix : Mat 3 3) (translationVector : Mat 3 1) : Mat 4 4 :=
  fun row col =>
    if hr : row.val < 3 then
      if hc : col.val < 3 then rotationMatrix ⟨row.val, hr⟩ ⟨col.val, hc⟩
      else translationVector ⟨row.val, hr⟩ 0
    else if col.val = 3 then .finite 1 else .finite 0

/-- The camera pose computed for one symbol whose size is known: the pixel corners as
`cv::Point2d`, `cv::solvePnP` on the marker corners, `cv::Rodrigues`, the assembled
`viewMatrix`, and the destination matrix of `invert`, whose return value is not read. -/
def cameraPoseBuffer (cv : OpenCV) (est : QRCodeStateEstimator) (symbol : Symbol)
    (QRCodeDimensionInMeters : Double) : Mat 4 4 :=
  let openCVPoints : List Point2d :=
    symbol.location.map (fun p => ⟨Double.ofInt p.1, Double.ofInt p.2⟩)
  let solved := cv.solvePnP (objectVerticesInObjectCoordinates QRCodeDimensionInMeters)
    openCVPoints est.cameraMatrix est.distortionParameters
  let rotationMatrix := cv.Rodrigues solved.1
  (cv.invert (viewMatrix rotationMatrix solved.2)).2

/-- The body of the loop over the symbols of the frame: the buffers after one symbol. -/
def processSymbol (cv : OpenCV) (est : QRCodeStateEstimator) (out : OutputBuffers)
    (symbol : Symbol) : Except Thrown OutputBuffers :=
  if symbol.type ≠ ZBAR_QRCODE ∨ symbol.location.length ≠ 4 then pure out
  else
    match extractQRCodeDimensionFromString symbol.data with
    | .error e => throw (Thrown.std e)
    | .ok none => pure out
    | .ok (some (QRCodeDimensionInMeters, QRCodeIdentifierString)) =>
      pure
        { inputCameraPosesBuffer := out.inputCameraPosesBuffer ++
            [cameraPoseBuffer cv est symbol QRCodeDimensionInMeters]
          inputQRCodeIdentifiersBuffer :=
            out.inputQRCodeIdentifiersBuffer ++ [QRCodeIdentifierString]
          inputQRCodeDimensionsBuffer :=
            out.inputQRCodeDimensionsBuffer ++ [QRCodeDimensionInMeters] }

/-- The method `QRCodeStateEstimator::estimateOneOrMoreStatesFromGrayscaleFrame`, as a
function of what the scan reports: from the frame and the buffers as the caller passes
them, the return value and the buffers as the call leaves them, or the exception thrown.
Drawing the outlines when `showResultsInWindow` is set writes to none of the three
buffers; it is part of `estimateOneOrMoreStatesFromGrayscaleFrameCall`. -/
def estimateOneOrMoreStatesFromGrayscaleFrame (cv : OpenCV) (est : QRCodeStateEstimator)
    (inputGrayscaleFrame : Frame) (_buffers : OutputBuffers) :
    Except Thrown (Bool × OutputBuffers) :=
  if inputGrayscaleFrame.channels ≠ 1 then
    throw (Thrown.som ⟨"Given frame is not grayscale\n", exceptionClass.INVALID_FUNCTION_INPUT⟩)
  else
    match inputGrayscaleFrame.scan with
    | none =>
      throw (Thrown.som ⟨"QR code scanner returned with error\n", exceptionClass.ZBAR_ERROR⟩)
    | some symbols =>
      let cleared : OutputBuffers :=
        { inputCameraPosesBuffer := []
          inputQRCodeIdentifiersBuffer := []
          inputQRCodeDimensionsBuffer := [] }
      match symbols.foldlM (processSymbol cv est) cleared with
      | .error e => throw e
      | .ok out => pure (decide (0 < out.inputCameraPosesBuffer.length), out)

/-! ## Vocabulary of the specification -/

/-- The recognised unit tokens: the keys of the unit table. -/
def unitTokens : List CppString := unitIdentifierToMetricMeterConversionFactor.map Prod.fst

/-- The text `token` stands in `buffer` at index `i`. -/
def OccursAt (token buffer : CppString) (i : Nat) : Prop := token <+: buffer.drop i

/-- The unit token `token` stands in `buffer` at index `i`, and no unit token stands at a
smaller index: `(token, i)` is the leftmost match. -/
def IsLeftmostToken (buffer token : CppString) (i : Nat) : Prop :=
  token ∈ unitTokens ∧ OccursAt token buffer i ∧
    ∀ other ∈ unitTokens, ∀ j, OccursAt other buffer j → i ≤ j

/-- Two characters are equal, or are ASCII letters that differ in case only. -/
def sameCharUpToCase (a b : Char) : Bool :=
  a == b || (a.isAlpha && b.isAlpha && a.toLower == b.toLower)

/-- Two payloads differ at most in the letter case of ASCII letters. -/
def SameUpToCase : CppString → CppString → Bool
  | [], [] => true
  | a :: p, b :: q => sameCharUpToCase a b && SameUpToCase p q
  | _, _ => false

/-- The five units of length of the payload convention. -/
inductive LengthUnit where
  | m
  | cm
  | mm
  | ft
  | inch
deriving DecidableEq

/-- How a unit is written in a payload. -/
def LengthUnit.text : LengthUnit → CppString
  | .m => "m".toList
  | .cm => "cm".toList
  | .mm => "mm".toList
  | .ft => "ft".toList
  | .inch => "in".toList

/-- Meters per unit. -/
def LengthUnit.factor : LengthUnit → ℚ
  | .m => 1
  | .cm => 1 / 100
  | .mm => 1 / 1000
  | .ft => 3048 / 10000
  | .inch => 254 / 10000

/-- An unsigned decimal numeral: the digits `ds`, and when `frac` is `some fs` a point
followed by the digits `fs`. -/
def numeralText (ds : CppString) (frac : Option CppString) : CppString :=
  match frac with
  | none => ds
  | some fs => ds ++ '.' :: fs

/-- The number that a decimal numeral denotes. -/
def numeralValue (ds : CppString) (frac : Option CppString) : ℚ :=
  match frac with
  | none => (digitsValue 10 ds : ℚ)
  | some fs => (digitsValue 10 ds : ℚ) + (digitsValue 10 fs : ℚ) / 10 ^ fs.length

/-- The text is an exponent part in full: `e`, an optional sign, one or more digits. -/
def isExponentPart : CppString → Bool
  | [] => false
  | c :: rest =>
    c.toLower == 'e' && !(parseSign rest).2.isEmpty && (parseSign rest).2.all Char.isDigit

/-- The text is, in its entirety, a well-formed decimal number: an optional sign, digits
with at most one point among them (at least one digit), and optionally an exponent part,
with nothing left over. -/
def isDecimalNumber (s : CppString) : Bool :=
  match parseMantissa Char.isDigit (parseSign s).2 with
  | none => false
  | some (_, _, rest) => rest.isEmpty || isExponentPart rest

/-- The text starts with a digit, or with a point followed by a digit. -/
def startsMantissa : CppString → Bool
  | [] => false
  | c :: rest =>
    c.isDigit || (c == '.' && match rest with
      | [] => false
      | d :: _ => d.isDigit)

/-- The text has a number at its start: after optional white space and an optional
sign comes a digit, a point followed by a digit, `inf` or `nan`. -/
def startsNumber (s : CppString) : Bool :=
  startsMantissa (parseSign (s.dropWhile isspace)).2 ||
    startsWithNoCase "inf" (parseSign (s.dropWhile isspace)).2 ||
    startsWithNoCase "nan" (parseSign (s.dropWhile isspace)).2

/-- A character that lower-casing leaves alone, that is not the `x` of a hexadecimal
prefix, and with which no unit token starts; the digits and the point are such. -/
def NumeralChar (c : Char) : Prop :=
  c.toLower = c ∧ c.toLower ≠ 'x' ∧ ∀ u ∈ unitTokens, u.head? ≠ some c

/-- What a detection contributes to the result: for a QR symbol with four corners whose
payload the parser accepts, the pose, the identifier and the dimension; otherwise
nothing. -/
def resolvedEntry (cv : OpenCV) (est : QRCodeStateEstimator) (symbol : Symbol) :
    Option (Mat 4 4 × CppString × Double) :=
  if symbol.type = ZBAR_QRCODE ∧ symbol.location.length = 4 then
    match extractQRCodeDimensionFromString symbol.data with
    | .ok (some (dimension, identifier)) =>
      some (cameraPoseBuffer cv est symbol dimension, identifier, dimension)
    | _ => none
  else none

/-- The buffers with the entries of the given detections appended, in order. -/
def appendResolved (cv : OpenCV) (est : QRCodeStateEstimator) (out : OutputBuffers)
    (symbols : List Symbol) : OutputBuffers :=
  { inputCameraPosesBuffer := out.inputCameraPosesBuffer ++
      (symbols.filterMap (resolvedEntry cv est)).map (fun e => e.1)
    inputQRCodeIdentifiersBuffer := out.inputQRCodeIdentifiersBuffer ++
      (symbols.filterMap (resolvedEntry cv est)).map (fun e => e.2.1)
    inputQRCodeDimensionsBuffer := out.inputQRCodeDimensionsBuffer ++
      (symbols.filterMap (resolvedEntry cv est)).map (fun e => e.2.2) }

/-- The three buffers, empty. -/
def emptyBuffers : OutputBuffers :=
  { inputCameraPosesBuffer := []
    inputQRCodeIdentifiersBuffer := []
    inputQRCodeDimensionsBuffer := [] }

/-- A stand-in for the OpenCV primitives, for the examples: the solver reports no
rotation and a translation of one unit along the optical axis, and `invert` hands its
argument back. -/
def exampleOpenCV : OpenCV :=
  { solvePnP := fun _ _ _ _ =>
      (fun _ _ => Double.finite 0, fun i _ => if i.val = 2 then Double.finite 1 else Double.finite 0)
    Rodrigues := fun _ i j => if i = j then Double.finite 1 else Double.finite 0
    invert := fun m => (Double.finite 1, m) }

/-- An estimator for the examples. -/
def exampleEstimator : QRCodeStateEstimator :=
  { expectedCameraImageWidth := 1280
    expectedCameraImageHeight := 720
    cameraMatrix := fun i j => if i = j then Double.finite 1 else Double.finite 0
    distortionParameters := fun _ _ => Double.finite 0
    showResultsInWindow := false }

/-- A QR symbol with four corners and the payload `2m-x`. -/
def exampleMarker : Symbol :=
  { type := ZBAR_QRCODE, location := [(0, 0), (10, 0), (10, 10), (0, 10)],
    data := "2m-x".toList }

/-- A QR symbol with the same payload and three corners only. -/
def exampleTriangle : Symbol :=
  { type := ZBAR_QRCODE, location := [(0, 0), (10, 0), (10, 10)], data := "2m-x".toList }

/-- A QR symbol with four corners and a payload without a size. -/
def exampleForeign : Symbol :=
  { type := ZBAR_QRCODE, location := [(0, 0), (10, 0), (10, 10), (0, 10)],
    data := "https://example.org".toList }

/-! ## The constructor and the single-marker function -/

/-- A `cv::Mat` of doubles as its interface shows it: the extents `size[0]`, ...,
`size[dims - 1]` and the elements `at<double>(row, col)`. -/
structure CvMat where
  size : List Int
  elem : Nat → Nat → Double

/-- The member `dims` of a `cv::Mat`: the number of extents. -/
def CvMat.dims (m : CvMat) : Int := m.size.length

/-- A matrix of fixed shape as a `cv::Mat`.  Outside the extents, where `at` has no
defined result, the model puts NaN. -/
def CvMat.ofMat {rows cols : Nat} (M : Mat rows cols) : CvMat :=
  { size := [(rows : Int), (cols : Int)]
    elem := fun i j => if h : i < rows ∧ j < cols then M ⟨i, h.1⟩ ⟨j, h.2⟩ else Double.nan }

/-- The constructor `QRCodeStateEstimator::QRCodeStateEstimator`: the checks of its
arguments and the members it sets.  The loop over `size[i]` for `i < dims` is a test of
every extent.  Configuring the scanner and opening the window are left out. -/
def newQRCodeStateEstimator (inputCameraImageWidth inputCameraImageHeight : Int)
    (inputCameraCalibrationMatrix inputCameraDistortionParameters : CvMat)
    (inputShowResultsInWindow : Bool) : Except SOMException QRCodeStateEstimator :=
  if inputCameraImageWidth ≤ 0 ∨ inputCameraImageHeight ≤ 0 then
    throw ⟨"Camera image dimensions invalid\n", exceptionClass.INVALID_FUNCTION_INPUT⟩
  else if inputCameraCalibrationMatrix.dims ≠ 2 then
    throw ⟨"Camera calibration matrix is not 3x3\n", exceptionClass.INVALID_FUNCTION_INPUT⟩
  else if inputCameraCalibrationMatrix.size.any (fun extent => decide (extent ≠ 3)) then
    throw ⟨"Camera calibration matrix is not 3x3\n", exceptionClass.INVALID_FUNCTION_INPUT⟩
  else if inputCameraDistortionParameters.dims ≠ 2 then
    throw ⟨"Distortion coefficents vector is not 1x5\n",
      exceptionClass.INVALID_FUNCTION_INPUT⟩
  else if inputCameraDistortionParameters.size[1]? ≠ some 5 ∨
      inputCameraDistortionParameters.size[0]? ≠ some 1 then
    throw ⟨"Distortion coefficents vector is not 1x5\n",
      exceptionClass.INVALID_FUNCTION_INPUT⟩
  else
    pure
      { expectedCameraImageWidth := inputCameraImageWidth
        expectedCameraImageHeight := inputCameraImageHeight
        cameraMatrix := fun i j => inputCameraCalibrationMatrix.elem i.val j.val
        distortionParameters := fun i j => inputCameraDistortionParameters.elem i.val j.val
        showResultsInWindow := inputShowResultsInWindow }

/-- The method `QRCodeStateEstimator::estimateStateFromGrayscaleFrame`: from the frame
and the caller's three buffers, the return value and the buffers as the call leaves
them, or the exception thrown.  The element `[0]` of the identifier and the dimension
vector is read only when the pose vector is non-empty; the three vectors have one
length, so it exists then. -/
def estimateStateFromGrayscaleFrame (cv : OpenCV) (est : QRCodeStateEstimator)
    (inputGrayscaleFrame : Frame) (inputCameraPoseBuffer : CvMat)
    (inputQRCodeIdentifierBuffer : CppString) (inputQRCodeDimensionBuffer : Double) :
    Except Thrown (Bool × CvMat × CppString × Double) :=
  match estimateOneOrMoreStatesFromGrayscaleFrame cv est inputGrayscaleFrame emptyBuffers with
  | .error e => throw e
  | .ok (returnValue, out) =>
    match out.inputCameraPosesBuffer with
    | [] =>
      pure (returnValue, inputCameraPoseBuffer, inputQRCodeIdentifierBuffer,
        inputQRCodeDimensionBuffer)
    | pose :: _ =>
      pure (returnValue, CvMat.ofMat pose,
        out.inputQRCodeIdentifiersBuffer.headD inputQRCodeIdentifierBuffer,
        out.inputQRCodeDimensionsBuffer.headD inputQRCodeDimensionBuffer)

/-- A `cv::Mat` of the given extents whose elements are all zero. -/
def exampleCvMat (size : List Int) : CvMat :=
  { size := size, elem := fun _ _ => Double.finite 0 }

/-- The comparison `0 < d` on doubles. -/
def Double.isPositive : Double → Bool
  | .finite a => decide (0 < a)
  | .infinite negative => !negative
  | .nan => false

/-- A QR symbol with four corners and the payload `0in-foo`. -/
def exampleZeroMarker : Symbol :=
  { type := ZBAR_QRCODE, location := [(0, 0), (10, 0), (10, 10), (0, 10)],
    data := "0in-foo".toList }

/-- A QR symbol with four corners and the payload `0x1p-1074mm-x`: the smallest positive
`double`, in millimeters. -/
def exampleTinyMarker : Symbol :=
  { type := ZBAR_QRCODE, location := [(0, 0), (10, 0), (10, 10), (0, 10)],
    data := "0x1p-1074mm-x".toList }

/-! ## Exact matrices and the geometry of the marker -/

/-- The exact values of the entries of a matrix of doubles; an entry that is not finite
counts as 0 and is told apart by `Mat.IsInvertible`. -/
def Mat.exact {rows cols : Nat} (M : Mat rows cols) : Matrix (Fin rows) (Fin cols) ℚ :=
  fun i j => match M i j with
    | .finite q => q
    | _ => 0

/-- A matrix of exact values as a matrix of doubles. -/
def Mat.ofExact {rows cols : Nat} (M : Matrix (Fin rows) (Fin cols) ℚ) : Mat rows cols :=
  fun i j => Double.finite (M i j)

/-- A 4x4 matrix of doubles is invertible: its entries are finite and its determinant is
not zero. -/
def Mat.IsInvertible (M : Mat 4 4) : Prop :=
  M = Mat.ofExact (Mat.exact M) ∧ (Mat.exact M).det ≠ 0

/-- The primitive `invert` is exact: on a matrix with finite entries and a determinant
other than zero it leaves the inverse in its destination. -/
def InvertsExactly (cv : OpenCV) : Prop :=
  ∀ M : Matrix (Fin 4) (Fin 4) ℚ, M.det ≠ 0 →
    ∃ W : Matrix (Fin 4) (Fin 4) ℚ, (cv.invert (Mat.ofExact M)).2 = Mat.ofExact W ∧ W * M = 1

/-- A stand-in for the OpenCV primitives with an exact `invert` (by the adjugate; on a
singular matrix it returns 0 and leaves zeros, as `cv::invert` does): the solver
reports a quarter turn about the optical axis and the translation `(1, 2, 3)`. -/
def exactOpenCV : OpenCV :=
  { solvePnP := fun _ _ _ _ =>
      (Mat.ofExact !![0; 0; 1], Mat.ofExact !![1; 2; 3])
    Rodrigues := fun _ => Mat.ofExact !![0, -1, 0; 1, 0, 0; 0, 0, 1]
    invert := fun m =>
      if (Mat.exact m).det = 0 then (Double.finite 0, Mat.ofExact 0)
      else (Double.finite (Mat.exact m).det,
        Mat.ofExact ((Mat.exact m).det⁻¹ • (Mat.exact m).adjugate)) }

/-- A stand-in for the OpenCV primitives on a degenerate solution: `Rodrigues` yields
the zero matrix, and `invert` returns 0 and leaves zeros, as `cv::invert` does on a
singular matrix. -/
def degenerateOpenCV : OpenCV :=
  { solvePnP := fun _ _ _ _ => (Mat.ofExact 0, Mat.ofExact 0)
    Rodrigues := fun _ => Mat.ofExact 0
    invert := fun _ => (Double.finite 0, Mat.ofExact 0) }

/-- The value of a double that is finite. -/
def Double.value? : Double → Option ℚ
  | .finite a => some a
  | _ => none

/-- The point of space that a `cv::Point3d` with finite coordinates stands for. -/
def Point3d.position? (p : Point3d) : Option (ℚ × ℚ × ℚ) :=
  match p.x.value?, p.y.value?, p.z.value? with
  | some x, some y, some z => some (x, y, z)
  | _, _, _ => none

/-- The centroid of a list of points of space: the sum of each coordinate divided by the
number of points. -/
def centroid (points : List (ℚ × ℚ × ℚ)) : ℚ × ℚ × ℚ :=
  ((points.map (fun p => p.1)).sum / points.length,
   (points.map (fun p => p.2.1)).sum / points.length,
   (points.map (fun p => p.2.2)).sum / points.length)

/-- The square of the distance of two points of space. -/
def squaredDistance (a b : ℚ × ℚ × ℚ) : ℚ :=
  (a.1 - b.1) ^ 2 + (a.2.1 - b.2.1) ^ 2 + (a.2.2 - b.2.2) ^ 2

/-- Each element of a list with the next one, the last with the first. -/
def cyclicPairs {α : Type} (points : List α) : List (α × α) :=
  points.zip (points.rotate 1)

/-- The homogeneous transform with the rotation block `R`, the translation column `t`
and the bottom row `[0, 0, 0, 1]`. -/
def homogeneousTransform (R : Matrix (Fin 3) (Fin 3) ℚ) (t : Matrix (Fin 3) (Fin 1) ℚ) :
    Matrix (Fin 4) (Fin 4) ℚ :=
  !![R 0 0, R 0 1, R 0 2, t 0 0;
     R 1 0, R 1 1, R 1 2, t 1 0;
     R 2 0, R 2 1, R 2 2, t 2 0;
     0, 0, 0, 1]

/-- Whether a double is finite and within `tolerance` of `center`. -/
def Double.isWithin (d : Double) (center tolerance : ℚ) : Bool :=
  match d with
  | .finite a => decide (|a - center| ≤ tolerance)
  | _ => false

/-! ## The text of an exception -/

/-- The function `exceptionClassToString` of `SOMException.cpp`: the `switch` over the
enumeration, case by case, with its `default` branch last. -/
def exceptionClassToString : exceptionClass → String
  | .ZMQ_ERROR => "ZMQ_ERROR"
  | .SQLITE3_ERROR => "ZMQ_ERROR"
  | .FILE_SYSTEM_ERROR => "FILE_SYSTEM_ERROR"
  | .AN_ASSUMPTION_WAS_VIOLATED_ERROR => "AN_ASSUMPTION_WAS_VIOLATED_ERROR"
  | .SINGLETON_ALREADY_EXISTS => "SINGLETON_ALREADY_EXISTS"
  | .SINGLETON_CREATION_FAILED => "SINGLETON_CREATION_FAILED"
  | .FORK_ERROR => "FORK_ERROR"
  | .SYSTEM_ERROR => "SYSTEM_ERROR"
  | .INVALID_FUNCTION_INPUT => "INVALID_FUNCTION_INPUT"
  | .INCORRECT_SERVER_RESPONSE => "INCORRECT_SERVER_RESPONSE"
  | .SERVER_REQUEST_FAILED => "SERVER_REQUEST_FAILED"
  | .UNKNOWN => "UNKNOWN"
  | _ => ""

/-- The method `SOMException::toString`; the members `sourceFileName` and
`sourceLineNumber`, which the structure `SOMException` leaves out, are arguments. -/
def SOMException.toString (e : SOMException) (sourceFileName sourceLineNumber : String) :
    String :=
  "Error of type " ++ exceptionClassToString e.exceptionType ++ " occurred in file " ++
    sourceFileName ++ " at line " ++ sourceLineNumber ++ ": " ++ e.errorMessage

/-- The spelling of each enumerator of `exceptionClass` in `SOMException.hpp`. -/
def exceptionClass.spelling : exceptionClass → String
  | .ZMQ_ERROR => "ZMQ_ERROR"
  | .SQLITE3_ERROR => "SQLITE3_ERROR"
  | .ZBAR_ERROR => "ZBAR_ERROR"
  | .FILE_SYSTEM_ERROR => "FILE_SYSTEM_ERROR"
  | .AN_ASSUMPTION_WAS_VIOLATED_ERROR => "AN_ASSUMPTION_WAS_VIOLATED_ERROR"
  | .SINGLETON_ALREADY_EXISTS => "SINGLETON_ALREADY_EXISTS"
  | .SINGLETON_CREATION_FAILED => "SINGLETON_CREATION_FAILED"
  | .FORK_ERROR => "FORK_ERROR"
  | .SYSTEM_ERROR => "SYSTEM_ERROR"
  | .INVALID_FUNCTION_INPUT => "INVALID_FUNCTION_INPUT"
  | .INCORRECT_SERVER_RESPONSE => "INCORRECT_SERVER_RESPONSE"
  | .SERVER_REQUEST_FAILED => "SERVER_REQUEST_FAILED"
  | .UNKNOWN => "UNKNOWN"

/-! ## The parser over a unit table in any iteration order -/

/-- The loop of the parser over the entries of `table` in the order of the list. -/
def unitSearchIn (table : List (CppString × Double)) (buffer : CppString) : UnitSearch :=
  table.foldl (unitSearchStep buffer)
    { minimumUnitIdentifierStartingIndex := toInt buffer.length, minimumUnitIDType := [] }

/-- The function `extractQRCodeDimensionFromString` with the unit table iterated, and
looked up, as the list `table`; with the table in its own order it is the function
itself. -/
def extractWithTable (table : List (CppString × Double)) (inputQRCodeString : CppString) :
    Except StdException (Option (Double × CppString)) :=
  let buffer := toLowerCase inputQRCodeString
  let st := unitSearchIn table buffer
  if st.minimumUnitIDType.length = 0 then pure none
  else
    match substr buffer 0 (some (toSizeT st.minimumUnitIdentifierStartingIndex)) with
    | .error e => throw e
    | .ok numberPortion =>
      match stod numberPortion with
      | .error _ => pure none
      | .ok dimensionInOriginalUnits =>
        match mapAt table st.minimumUnitIDType with
        | .error e => throw e
        | .ok factor =>
          match substr inputQRCodeString
              ((toSizeT st.minimumUnitIdentifierStartingIndex + st.minimumUnitIDType.length) %
                2 ^ 64) none with
          | .error e => throw e
          | .ok identifier => pure (some (dimensionInOriginalUnits * factor, identifier))

/-- The entries of the unit table in the order in which the header writes them. -/
def unitTableAsDeclared : List (CppString × Double) :=
  [("m-".toList, roundBinary64 1),
   ("cm-".toList, roundBinary64 (1 / 100)),
   ("mm-".toList, roundBinary64 (1 / 1000)),
   ("ft-".toList, roundBinary64 (3048 / 10000)),
   ("in-".toList, roundBinary64 (254 / 10000))]

/-! ## Payloads of `2^31` characters and more -/

/-- The text `pre`, then `n` letters `x`, then the text `suf`. -/
def padded (pre : CppString) (n : Nat) (suf : CppString) : CppString :=
  pre ++ List.replicate n 'x' ++ suf

/-- The payload `5m-` followed by `2^31 - 3` letters `x`: `2^31` characters. -/
def payloadOfIntMinLength : CppString := padded "5m-".toList (2 ^ 31 - 3) []

/-- The payload `-5m-` followed by `2^31 - 4` letters `x`: `2^31` characters. -/
def negativePayloadOfIntMinLength : CppString := padded "-5m-".toList (2 ^ 31 - 4) []

/-- The payload `inft-`, then `2^31 - 5` letters `x`, then `m-`: the token `m-` stands at
index `2^31`. -/
def payloadWithLateMeter : CppString := padded "inft-".toList (2 ^ 31 - 5) "m-".toList

/-- The payload `5xx`, then `2^32` letters `x`, then `m-`: the only token stands at index
`2^32 + 3`. -/
def payloadWithWrappedIndex : CppString := padded "5xx".toList (2 ^ 32) "m-".toList

/-- The payload `1ft-`, then `2^32 - 3` letters `x`, then `m-`: the token `ft-` stands at
index 1 and the token `m-` at index `2^32 + 1`. -/
def payloadWithCollidingTokens : CppString := padded "1ft-".toList (2 ^ 32 - 3) "m-".toList

/-! ## The call as the caller sees it: the scanner object and the image -/

/-- What the method reaches outside the estimator and OpenCV's solver: `channels()` of
an image, the scanner of zbar with a state of its own (`scan` returns the new state and,
unless it reports `-1`, the symbols; `recycle_image`), and `cv::line`, which draws into
an image.  `Scanner` is the state of a `zbar::ImageScanner`, `Image` the content of a
`cv::Mat`. -/
structure Periphery (Scanner Image : Type) where
  channels : Image → Nat
  scan : Scanner → Image → Scanner × Option (List Symbol)
  recycle_image : Scanner → Image → Scanner
  line : Image → Int × Int → Int × Int → Nat → Image

/-- The object `QRCodeStateEstimator` with all its members: those that the frame
functions read, the scanner `zbarScanner` and the image `frameBuffer`. -/
structure QRCodeStateEstimatorObject (Scanner Image : Type) extends QRCodeStateEstimator where
  zbarScanner : Scanner
  frameBuffer : Image

/-- The body of the second loop over the symbols, entered when `showResultsInWindow` is
set: the four lines of the outline of a symbol that the first loop resolved, drawn into
`bufferFrame`. -/
def drawOutline {Scanner Image : Type} (io : Periphery Scanner Image) (bufferFrame : Image)
    (symbol : Symbol) : Image :=
  if symbol.type ≠ ZBAR_QRCODE ∨ symbol.location.length ≠ 4 then bufferFrame
  else
    match extractQRCodeDimensionFromString symbol.data with
    | .ok (some _) =>
      io.line
        (io.line
          (io.line
            (io.line bufferFrame (symbol.location.getD 0 (0, 0)) (symbol.location.getD 1 (0, 0)) 0)
            (symbol.location.getD 1 (0, 0)) (symbol.location.getD 2 (0, 0)) 85)
          (symbol.location.getD 2 (0, 0)) (symbol.location.getD 3 (0, 0)) 150)
        (symbol.location.getD 3 (0, 0)) (symbol.location.getD 0 (0, 0)) 255
    | _ => bufferFrame

/-- A call of `estimateOneOrMoreStatesFromGrayscaleFrame` on an estimator object: the
result (or the exception), the object after the call and the caller's image after the
call.  The scanner is run on the image when it has one channel; `bufferFrame`, into which
the outlines are drawn, is a `cv::Mat` header over the data of `inputGrayscaleFrame`, so
that the lines end up in the caller's image; `recycle_image` is reached when no
exception is thrown.  `imshow` and `waitKey` act on the window alone. -/
def estimateOneOrMoreStatesFromGrayscaleFrameCall {Scanner Image : Type}
    (io : Periphery Scanner Image) (cv : OpenCV) (self : QRCodeStateEstimatorObject Scanner Image)
    (inputGrayscaleFrame : Image) (buffers : OutputBuffers) :
    Except Thrown (Bool × OutputBuffers) × QRCodeStateEstimatorObject Scanner Image × Image :=
  if io.channels inputGrayscaleFrame ≠ 1 then
    (estimateOneOrMoreStatesFromGrayscaleFrame cv self.toQRCodeStateEstimator
      { channels := io.channels inputGrayscaleFrame, scan := none } buffers,
      self, inputGrayscaleFrame)
  else
    match estimateOneOrMoreStatesFromGrayscaleFrame cv self.toQRCodeStateEstimator
        { channels := io.channels inputGrayscaleFrame
          scan := (io.scan self.zbarScanner inputGrayscaleFrame).2 } buffers with
    | .error e =>
      (.error e, { self with zbarScanner := (io.scan self.zbarScanner inputGrayscaleFrame).1 },
        inputGrayscaleFrame)
    | .ok result =>
      (.ok result,
        { self with
          zbarScanner := io.recycle_image (io.scan self.zbarScanner inputGrayscaleFrame).1
            inputGrayscaleFrame },
        if self.showResultsInWindow then
          ((io.scan self.zbarScanner inputGrayscaleFrame).2.getD []).foldl (drawOutline io)
            inputGrayscaleFrame
        else inputGrayscaleFrame)

/-- A stand-in for the periphery, for the examples: an image is the list of the symbols
visible in it, every image has one channel, the scanner has no state and reports what is
visible, and a line that is drawn hides every symbol. -/
def examplePeriphery : Periphery Unit (List Symbol) :=
  { channels := fun _ => 1
    scan := fun _ image => ((), some image)
    recycle_image := fun _ _ => ()
    line := fun _ _ _ _ => [] }

/-- An estimator object for the examples, with or without the window. -/
def exampleObject (showResultsInWindow : Bool) : QRCodeStateEstimatorObject Unit (List Symbol) :=
  { exampleEstimator with
    showResultsInWindow := showResultsInWindow, zbarScanner := (), frameBuffer := [] }

deriving instance DecidableEq for Except

instance (token buffer : CppString) (i : Nat) : Decidable (OccursAt token buffer i) :=
  inferInstanceAs (Decidable (token <+: buffer.drop i))

/-! ## `std::string::find` finds the first occurrence -/

theorem find_nil (t : CppString) : find [] t = if t = [] then some 0 else none := by
  cases t <;> simp [find, List.isPrefixOf]

theorem find_cons (c : Char) (rest t : CppString) :
    find (c :: rest) t = if t <+: c :: rest then some 0 else (find rest t).map (· + 1) := by
  simp only [find, List.isPrefixOf_iff_prefix]

theorem find_eq_some_iff (b t : CppString) (i : Nat) :
    find b t = some i ↔ t <+: b.drop i ∧ ∀ j, j < i → ¬ t <+: b.drop j := by
  induction b generalizing i with
  | nil =>
    rw [find_nil]
    by_cases ht : t = []
    · subst ht
      simp only [if_true, Option.some.injEq, List.drop_nil, List.nil_prefix, true_and,
        not_true_eq_false, imp_false, not_lt]
      constructor
      · intro h j; omega
      · intro h; have := h 0; omega
    · simp [ht]
  | cons c rest ih =>
    rw [find_cons]
    by_cases hp : t <+: c :: rest
    · simp only [hp, if_true, Option.some.injEq]
      constructor
      · intro h; subst h; exact ⟨by simpa using hp, by intro j hj; omega⟩
      · intro ⟨_, h2⟩
        by_contra hne
        exact h2 0 (by omega) (by simpa using hp)
    · simp only [hp, if_false, Option.map_eq_some']
      constructor
      · rintro ⟨k, hk, rfl⟩
        obtain ⟨h1, h2⟩ := (ih k).1 hk
        refine ⟨by simpa using h1, ?_⟩
        intro j hj
        cases j with
        | zero => simpa using hp
        | succ j => simpa using h2 j (by omega)
      · rintro ⟨h1, h2⟩
        cases i with
        | zero => exact absurd (by simpa using h1) hp
        | succ k =>
          refine ⟨k, (ih k).2 ⟨by simpa using h1, ?_⟩, rfl⟩
          intro j hj
          simpa using h2 (j + 1) (by omega)

theorem find_eq_none_iff (b t : CppString) : find b t = none ↔ ¬ t <:+: b := by
  induction b with
  | nil =>
    rw [find_nil]
    by_cases ht : t = [] <;> simp [ht]
  | cons c rest ih =>
    rw [find_cons]
    by_cases hp : t <+: c :: rest
    · simp only [hp, if_true]
      simp
      exact hp.isInfix
    · simp only [hp, if_false, Option.map_eq_none', ih]
      rw [List.infix_cons_iff]
      simp [hp]

theorem find_le_length {b t : CppString} {k : Nat} (h : find b t = some k) : k ≤ b.length := by
  obtain ⟨h1, h2⟩ := (find_eq_some_iff b t k).1 h
  by_contra hlt
  have hk : b.length < k := by omega
  have hnil : t = [] := by
    rw [List.drop_eq_nil_of_le (le_of_lt hk)] at h1
    exact List.prefix_nil.1 h1
  subst hnil
  exact h2 b.length hk ( List.nil_prefix)

/-- If the first character of a non-empty token does not occur in `pre`, the token is
found in `pre ++ suf` where it is found in `suf`, `pre.length` further on. -/
theorem find_append_of_head_not_mem (pre suf : CppString) (c : Char) (t : CppString)
    (hc : c ∉ pre) : find (pre ++ suf) (c :: t) = (find suf (c :: t)).map (· + pre.length) := by
  induction pre with
  | nil => simp
  | cons a pre ih =>
    have hne : ¬ (c :: t) <+: a :: (pre ++ suf) := by
      intro hp
      have := (List.cons_prefix_cons.1 hp).1
      exact hc (this ▸ List.mem_cons_self _ _)
    rw [List.cons_append, find_cons, if_neg hne, ih (fun h => hc (List.mem_cons_of_mem _ h))]
    cases find suf (c :: t) with
    | none => rfl
    | some k => simp only [Option.map_some', List.length_cons, Option.some.injEq]; omega

/-! ## The conversions between `size_t` and `int` -/

theorem toInt_of_lt {n : Nat} (h : n < 2 ^ 31) : toInt n = n := by
  unfold toInt
  have h1 : n % 2 ^ 32 = n := Nat.mod_eq_of_lt (by omega)
  rw [h1, if_pos h]

theorem toInt_of_ge {n : Nat} (h1 : 2 ^ 31 ≤ n) (h2 : n < 2 ^ 32) :
    toInt n = (n : Int) - 2 ^ 32 := by
  unfold toInt
  have h : n % 2 ^ 32 = n := Nat.mod_eq_of_lt h2
  rw [h, if_neg (by omega)]

theorem toInt_range (n : Nat) : -2 ^ 31 ≤ toInt n ∧ toInt n < 2 ^ 31 := by
  unfold toInt
  have := Nat.mod_lt n (show 0 < 2 ^ 32 by norm_num)
  split_ifs with h <;> constructor <;> omega

theorem toInt_injOn {m n : Nat} (hm : m < 2 ^ 32) (hn : n < 2 ^ 32) (h : toInt m = toInt n) :
    m = n := by
  unfold toInt at h
  rw [Nat.mod_eq_of_lt hm, Nat.mod_eq_of_lt hn] at h
  split_ifs at h <;> omega

theorem toSizeT_eq_npos_iff {i : Int} (h1 : -2 ^ 31 ≤ i) (h2 : i < 2 ^ 31) :
    toSizeT i = npos ↔ i = -1 := by
  unfold toSizeT npos
  constructor
  · intro h
    omega
  · rintro rfl
    decide

theorem toSizeT_natCast {n : Nat} (h : n < 2 ^ 64) : toSizeT (n : Int) = n := by
  unfold toSizeT
  omega

theorem toInt_npos : toInt npos = -1 := by decide

theorem currentIndex_range (buffer token : CppString) :
    -2 ^ 31 ≤ currentIndex buffer token ∧ currentIndex buffer token < 2 ^ 31 :=
  toInt_range _

theorem currentIndex_of_none {buffer token : CppString} (h : find buffer token = none) :
    currentIndex buffer token = -1 := by
  unfold currentIndex
  rw [h]
  exact toInt_npos

theorem currentIndex_of_some {buffer token : CppString} {k : Nat}
    (h : find buffer token = some k) (hk : k < 2 ^ 31) : currentIndex buffer token = k := by
  unfold currentIndex
  rw [h]
  exact toInt_of_lt hk

theorem find_of_currentIndex_ne {buffer token : CppString}
    (h : currentIndex buffer token ≠ -1) : ∃ k, find buffer token = some k := by
  cases hf : find buffer token with
  | none => exact absurd (currentIndex_of_none hf) h
  | some k => exact ⟨k, rfl⟩

/-! ## The loop over the unit table -/

theorem unitSearchStep_eq (buffer : CppString) (st : UnitSearch) (e : CppString × Double) :
    unitSearchStep buffer st e =
      if currentIndex buffer e.1 = -1 then st
      else if currentIndex buffer e.1 < st.minimumUnitIdentifierStartingIndex then
        { minimumUnitIdentifierStartingIndex := currentIndex buffer e.1
          minimumUnitIDType := e.1 }
      else st := by
  unfold unitSearchStep
  obtain ⟨h1, h2⟩ := currentIndex_range buffer e.1
  by_cases h : currentIndex buffer e.1 = -1
  · rw [if_pos ((toSizeT_eq_npos_iff h1 h2).2 h), if_pos h]
  · rw [if_neg (fun hn => h ((toSizeT_eq_npos_iff h1 h2).1 hn)), if_neg h]

theorem unitSearchStep_spec (buffer : CppString) (st : UnitSearch) (e : CppString × Double) :
    (unitSearchStep buffer st e).minimumUnitIdentifierStartingIndex
        ≤ st.minimumUnitIdentifierStartingIndex ∧
      (currentIndex buffer e.1 ≠ -1 →
        (unitSearchStep buffer st e).minimumUnitIdentifierStartingIndex
          ≤ currentIndex buffer e.1) ∧
      (unitSearchStep buffer st e = st ∨
        ((unitSearchStep buffer st e).minimumUnitIdentifierStartingIndex
            < st.minimumUnitIdentifierStartingIndex ∧
          (unitSearchStep buffer st e).minimumUnitIDType = e.1 ∧
          currentIndex buffer e.1 ≠ -1 ∧
          (unitSearchStep buffer st e).minimumUnitIdentifierStartingIndex =
            currentIndex buffer e.1)) := by
  rw [unitSearchStep_eq]
  by_cases h : currentIndex buffer e.1 = -1
  · simp [h]
  · by_cases hlt : currentIndex buffer e.1 < st.minimumUnitIdentifierStartingIndex
    · simp only [h, if_false, hlt, if_true, ne_eq, not_false_eq_true, le_refl, true_and,
        and_self, and_true, imp_self]
      exact ⟨le_of_lt hlt, Or.inr trivial⟩
    · simp only [h, if_false, hlt, ne_eq, not_false_eq_true, le_refl, true_or, and_true,
        true_implies, true_and]
      exact not_lt.1 hlt

theorem foldl_unitSearchStep_spec (buffer : CppString) (tbl : List (CppString × Double))
    (st0 : UnitSearch) :
    (tbl.foldl (unitSearchStep buffer) st0).minimumUnitIdentifierStartingIndex
        ≤ st0.minimumUnitIdentifierStartingIndex ∧
      (∀ e ∈ tbl, currentIndex buffer e.1 ≠ -1 →
        (tbl.foldl (unitSearchStep buffer) st0).minimumUnitIdentifierStartingIndex
          ≤ currentIndex buffer e.1) ∧
      (tbl.foldl (unitSearchStep buffer) st0 = st0 ∨
        ((tbl.foldl (unitSearchStep buffer) st0).minimumUnitIdentifierStartingIndex
            < st0.minimumUnitIdentifierStartingIndex ∧
          ∃ e ∈ tbl, (tbl.foldl (unitSearchStep buffer) st0).minimumUnitIDType = e.1 ∧
            currentIndex buffer e.1 ≠ -1 ∧
            (tbl.foldl (unitSearchStep buffer) st0).minimumUnitIdentifierStartingIndex =
              currentIndex buffer e.1)) := by
  induction tbl generalizing st0 with
  | nil => exact ⟨le_refl _, fun e he => absurd he (List.not_mem_nil e), Or.inl rfl⟩
  | cons e tbl ih =>
    simp only [List.foldl_cons]
    obtain ⟨s1, s2, s3⟩ := unitSearchStep_spec buffer st0 e
    obtain ⟨h1, h2, h3⟩ := ih (unitSearchStep buffer st0 e)
    refine ⟨le_trans h1 s1, ?_, ?_⟩
    · intro e' he' hne
      rcases List.mem_cons.1 he' with rfl | hmem
      · exact le_trans h1 (s2 hne)
      · exact h2 e' hmem hne
    · rcases h3 with h3 | ⟨h3lt, e', he', h3t, h3n, h3f⟩
      · rcases s3 with s3 | ⟨s3lt, s3t, s3n, s3f⟩
        · left; rw [h3, s3]
        · right
          rw [h3]
          exact ⟨s3lt, e, List.mem_cons_self _ _, s3t, s3n, s3f⟩
      · right
        exact ⟨lt_of_lt_of_le h3lt s1, e', List.mem_cons_of_mem _ he', h3t, h3n, h3f⟩

/-! ## Facts about the unit tokens -/

theorem unitToken_ne_nil : ∀ t ∈ unitTokens, t ≠ [] := by decide

theorem unitToken_prefix_free : ∀ t ∈ unitTokens, ∀ u ∈ unitTokens, t <+: u → t = u := by
  decide

theorem unitToken_eq_of_prefix_same {t u l : CppString} (ht : t ∈ unitTokens)
    (hu : u ∈ unitTokens) (h1 : t <+: l) (h2 : u <+: l) : t = u := by
  rcases List.prefix_or_prefix_of_prefix h1 h2 with h | h
  · exact unitToken_prefix_free t ht u hu h
  · exact (unitToken_prefix_free u hu t ht h).symm

theorem mapAt_of_mem {t : CppString} {f : Double}
    (h : (t, f) ∈ unitIdentifierToMetricMeterConversionFactor) :
    mapAt unitIdentifierToMetricMeterConversionFactor t = .ok f := by
  simp only [unitIdentifierToMetricMeterConversionFactor, List.mem_cons, Prod.mk.injEq,
    List.mem_singleton, List.not_mem_nil, or_false] at h
  rcases h with ⟨rfl, rfl⟩ | ⟨rfl, rfl⟩ | ⟨rfl, rfl⟩ | ⟨rfl, rfl⟩ | ⟨rfl, rfl⟩ <;> rfl

theorem exists_factor_of_mem_unitTokens {t : CppString} (h : t ∈ unitTokens) :
    ∃ f, (t, f) ∈ unitIdentifierToMetricMeterConversionFactor := by
  simp only [unitTokens, List.mem_map] at h
  obtain ⟨⟨t', f⟩, hmem, rfl⟩ := h
  exact ⟨f, hmem⟩

/-! ## Occurrences -/

theorem occursAt_add_length_le {t b : CppString} {i : Nat} (ht : t ≠ [])
    (h : OccursAt t b i) : i + t.length ≤ b.length := by
  have hlen := h.length_le
  rw [List.length_drop] at hlen
  have hpos : 0 < t.length := List.length_pos.2 ht
  omega

theorem OccursAt.isInfix {t b : CppString} {i : Nat} (h : OccursAt t b i) : t <:+: b :=
  List.IsInfix.trans (List.IsPrefix.isInfix h) (List.drop_suffix i b).isInfix

theorem find_le_of_occursAt {t b : CppString} {j : Nat} (h : OccursAt t b j) :
    ∃ k, find b t = some k ∧ k ≤ j := by
  cases hf : find b t with
  | none => exact absurd h.isInfix ((find_eq_none_iff b t).1 hf)
  | some k =>
    refine ⟨k, rfl, ?_⟩
    by_contra hlt
    exact ((find_eq_some_iff b t k).1 hf).2 j (by omega) h

theorem exists_occursAt_of_isInfix {t b : CppString} (h : t <:+: b) : ∃ j, OccursAt t b j := by
  cases hf : find b t with
  | none => exact absurd h ((find_eq_none_iff b t).1 hf)
  | some k => exact ⟨k, ((find_eq_some_iff b t k).1 hf).1⟩

theorem IsLeftmostToken.unique {b t u : CppString} {i j : Nat}
    (h1 : IsLeftmostToken b t i) (h2 : IsLeftmostToken b u j) : t = u ∧ i = j := by
  obtain ⟨ht, hto, htm⟩ := h1
  obtain ⟨hu, huo, hum⟩ := h2
  have hij : i = j := le_antisymm (htm u hu j huo) (hum t ht i hto)
  subst hij
  exact ⟨unitToken_eq_of_prefix_same ht hu hto huo, rfl⟩

/-! ## What the loop computes -/

theorem exists_leftmost {buffer : CppString} (h : ∃ t ∈ unitTokens, t <:+: buffer) :
    ∃ t i, IsLeftmostToken buffer t i := by
  obtain ⟨t, ht, hinf⟩ := h
  obtain ⟨j, hj⟩ := exists_occursAt_of_isInfix hinf
  obtain ⟨i, ⟨u, hu, hui⟩, hmin⟩ := WellFounded.has_min Nat.lt_wfRel.wf
    { k | ∃ u ∈ unitTokens, OccursAt u buffer k } ⟨j, t, ht, hj⟩
  refine ⟨u, i, hu, hui, ?_⟩
  intro other hother k hk
  exact not_lt.1 (hmin k ⟨other, hother, hk⟩)

theorem unitSearch_of_no_token (buffer : CppString)
    (h : ∀ t ∈ unitTokens, ¬ t <:+: buffer) :
    unitSearch buffer =
      { minimumUnitIdentifierStartingIndex := toInt buffer.length, minimumUnitIDType := [] } := by
  obtain ⟨_, _, h3⟩ := foldl_unitSearchStep_spec buffer
    unitIdentifierToMetricMeterConversionFactor
    { minimumUnitIdentifierStartingIndex := toInt buffer.length, minimumUnitIDType := [] }
  rcases h3 with h3 | ⟨_, e, he, _, h3n, _⟩
  · exact h3
  · exfalso
    obtain ⟨k, hk⟩ := find_of_currentIndex_ne h3n
    exact h e.1 (List.mem_map_of_mem Prod.fst he)
      (OccursAt.isInfix ((find_eq_some_iff buffer e.1 k).1 hk).1)

theorem unitSearch_type (buffer : CppString) :
    (unitSearch buffer).minimumUnitIDType = [] ∨
      (unitSearch buffer).minimumUnitIDType ∈ unitTokens := by
  obtain ⟨_, _, h3⟩ := foldl_unitSearchStep_spec buffer
    unitIdentifierToMetricMeterConversionFactor
    { minimumUnitIdentifierStartingIndex := toInt buffer.length, minimumUnitIDType := [] }
  rcases h3 with h3 | ⟨_, e, he, h3t, _, _⟩
  · left
    unfold unitSearch
    rw [h3]
  · right
    unfold unitSearch
    rw [h3t]
    exact List.mem_map_of_mem Prod.fst he

/-- When the size of the buffer converts to the least `int`, no index is smaller and the
loop selects nothing. -/
theorem unitSearch_of_intMin (buffer : CppString) (h : toInt buffer.length = -2 ^ 31) :
    unitSearch buffer =
      { minimumUnitIdentifierStartingIndex := -2 ^ 31, minimumUnitIDType := [] } := by
  obtain ⟨_, _, h3⟩ := foldl_unitSearchStep_spec buffer
    unitIdentifierToMetricMeterConversionFactor
    { minimumUnitIdentifierStartingIndex := toInt buffer.length, minimumUnitIDType := [] }
  rcases h3 with h3 | ⟨hlt, e, _, _, _, hidx⟩
  · unfold unitSearch
    rw [h3, h]
  · exfalso
    have := (currentIndex_range buffer e.1).1
    rw [hidx] at hlt
    simp only at hlt
    rw [h] at hlt
    omega

theorem unitToken_length_ge {t : CppString} (h : t ∈ unitTokens) : 2 ≤ t.length := by
  have hall : ∀ u ∈ unitTokens, 2 ≤ u.length := by decide
  exact hall t h

/-- A unit token that `find` finds ends within the buffer. -/
theorem find_add_two_le {buffer t : CppString} {k : Nat} (ht : t ∈ unitTokens)
    (h : find buffer t = some k) : k + 2 ≤ buffer.length := by
  have hocc : OccursAt t buffer k := ((find_eq_some_iff buffer t k).1 h).1
  have h1 := occursAt_add_length_le (unitToken_ne_nil t ht) hocc
  have h2 := unitToken_length_ge ht
  omega

/-- When the buffer has `2^31` or `2^31 + 1` characters, the `int` that receives its size
is negative and every index of a token is an `int` that is not: the loop selects
nothing. -/
theorem unitSearch_of_size_near_intMin (buffer : CppString) (h1 : 2 ^ 31 ≤ buffer.length)
    (h2 : buffer.length < 2 ^ 31 + 2) : (unitSearch buffer).minimumUnitIDType = [] := by
  obtain ⟨_, _, h3⟩ := foldl_unitSearchStep_spec buffer
    unitIdentifierToMetricMeterConversionFactor
    { minimumUnitIdentifierStartingIndex := toInt buffer.length, minimumUnitIDType := [] }
  rcases h3 with h3 | ⟨hlt, e, he, _, hne, hidx⟩
  · unfold unitSearch
    rw [h3]
  · exfalso
    obtain ⟨k, hk⟩ := find_of_currentIndex_ne hne
    have hk2 := find_add_two_le (List.mem_map_of_mem Prod.fst he) hk
    have hcur : currentIndex buffer e.1 = (k : Int) := currentIndex_of_some hk (by omega)
    rw [hidx, hcur] at hlt
    simp only at hlt
    rw [toInt_of_ge h1 (by omega)] at hlt
    omega

theorem unitSearch_of_leftmost {buffer t : CppString} {i : Nat}
    (h : IsLeftmostToken buffer t i) (hlen : buffer.length < 2 ^ 31) :
    unitSearch buffer =
      { minimumUnitIdentifierStartingIndex := (i : Int), minimumUnitIDType := t } := by
  obtain ⟨_, h2, h3⟩ := foldl_unitSearchStep_spec buffer
    unitIdentifierToMetricMeterConversionFactor
    { minimumUnitIdentifierStartingIndex := toInt buffer.length, minimumUnitIDType := [] }
  obtain ⟨ht, hocc, hmin⟩ := h
  have hbound := occursAt_add_length_le (unitToken_ne_nil t ht) hocc
  have hpos : 0 < t.length := List.length_pos.2 (unitToken_ne_nil t ht)
  -- the loop meets `t` at `i`
  obtain ⟨k, hk, hki⟩ := find_le_of_occursAt hocc
  have hik : i ≤ k := hmin t ht k ((find_eq_some_iff buffer t k).1 hk).1
  have hk' : k = i := le_antisymm hki hik
  subst hk'
  have hcur : currentIndex buffer t = (k : Int) := currentIndex_of_some hk (by omega)
  obtain ⟨f, hf⟩ := exists_factor_of_mem_unitTokens ht
  have hle : (unitSearch buffer).minimumUnitIdentifierStartingIndex ≤ (k : Int) := by
    have := h2 (t, f) hf (by rw [hcur]; omega)
    rw [hcur] at this
    exact this
  rw [toInt_of_lt hlen] at h3
  rcases h3 with h3 | ⟨_, e, he, h3t, h3n, h3f⟩
  · exfalso
    have : (unitSearch buffer).minimumUnitIdentifierStartingIndex = (buffer.length : Int) := by
      unfold unitSearch
      rw [toInt_of_lt hlen, h3]
    omega
  · obtain ⟨j, hj⟩ := find_of_currentIndex_ne h3n
    have hjlen := find_le_length hj
    have hcurj : currentIndex buffer e.1 = (j : Int) := currentIndex_of_some hj (by omega)
    have hje : OccursAt e.1 buffer j := ((find_eq_some_iff buffer e.1 j).1 hj).1
    have he' : e.1 ∈ unitTokens := List.mem_map_of_mem Prod.fst he
    have hkj : k ≤ j := hmin e.1 he' j hje
    have hidx : (unitSearch buffer).minimumUnitIdentifierStartingIndex = (j : Int) := by
      unfold unitSearch
      rw [toInt_of_lt hlen, h3f, hcurj]
    have hjk : j = k := by omega
    subst hjk
    have hty : (unitSearch buffer).minimumUnitIDType = t := by
      unfold unitSearch
      rw [toInt_of_lt hlen, h3t]
      exact unitToken_eq_of_prefix_same he' ht hje hocc
    cases hs : unitSearch buffer with
    | mk idx ty =>
      rw [hs] at hidx hty
      simp only at hidx hty
      rw [hidx, hty]

/-! ## The parser in terms of the leftmost token -/

theorem toLowerCase_length (p : CppString) : (toLowerCase p).length = p.length := by
  simp [toLowerCase]

theorem extract_of_leftmost {p t : CppString} {i : Nat} {f : Double}
    (h : IsLeftmostToken (toLowerCase p) t i)
    (hf : (t, f) ∈ unitIdentifierToMetricMeterConversionFactor) (hlen : p.length < 2 ^ 31) :
    extractQRCodeDimensionFromString p =
      match stod ((toLowerCase p).take i) with
      | .ok v => .ok (some (v * f, p.drop (i + t.length)))
      | .error _ => .ok none := by
  have hs := unitSearch_of_leftmost h (by rw [toLowerCase_length]; exact hlen)
  have hpos : 0 < t.length := List.length_pos.2 (unitToken_ne_nil t h.1)
  have hne : t.length ≠ 0 := by omega
  have hle : i + t.length ≤ p.length := by
    have := occursAt_add_length_le (unitToken_ne_nil t h.1) h.2.1
    rwa [toLowerCase_length] at this
  have hi : toSizeT (i : Int) = i := toSizeT_natCast (by omega)
  have hmod : (i + t.length) % 2 ^ 64 = i + t.length := Nat.mod_eq_of_lt (by omega)
  have hnlt : ¬ p.length < i + t.length := by omega
  unfold extractQRCodeDimensionFromString
  simp only [hs, hne, if_false, substr, Nat.not_lt_zero, List.drop_zero, mapAt_of_mem hf, hi,
    hmod, hnlt, pure, Except.pure]
  cases stod (List.take i (toLowerCase p)) <;> rfl

theorem extract_of_no_token {p : CppString}
    (h : ∀ t ∈ unitTokens, ¬ t <:+: toLowerCase p) :
    extractQRCodeDimensionFromString p = .ok none := by
  unfold extractQRCodeDimensionFromString
  simp only [unitSearch_of_no_token _ h, List.length_nil, if_true]
  rfl

/-- A payload whose size converts to the least `int` is rejected, whatever it holds. -/
theorem extract_of_intMin {p : CppString} (h : toInt p.length = -2 ^ 31) :
    extractQRCodeDimensionFromString p = .ok none := by
  unfold extractQRCodeDimensionFromString
  simp only [unitSearch_of_intMin _ (by rw [toLowerCase_length]; exact h), List.length_nil,
    if_true]
  rfl

theorem extract_of_size_near_intMin {p : CppString} (h1 : 2 ^ 31 ≤ p.length)
    (h2 : p.length < 2 ^ 31 + 2) : extractQRCodeDimensionFromString p = .ok none := by
  unfold extractQRCodeDimensionFromString
  simp only [unitSearch_of_size_near_intMin (toLowerCase p)
    (by rw [toLowerCase_length]; exact h1) (by rw [toLowerCase_length]; exact h2),
    List.length_nil, if_true]
  rfl

theorem extract_cases (p : CppString) :
    (∀ t ∈ unitTokens, ¬ t <:+: toLowerCase p) ∨
      ∃ t i f, IsLeftmostToken (toLowerCase p) t i ∧
        (t, f) ∈ unitIdentifierToMetricMeterConversionFactor := by
  by_cases h : ∀ t ∈ unitTokens, ¬ t <:+: toLowerCase p
  · exact Or.inl h
  · right
    push_neg at h
    obtain ⟨t, i, hl⟩ := exists_leftmost h
    obtain ⟨f, hf⟩ := exists_factor_of_mem_unitTokens hl.1
    exact ⟨t, i, f, hl, hf⟩

theorem extract_never_throws (p : CppString) (hlen : p.length < 2 ^ 31) :
    ∃ r, extractQRCodeDimensionFromString p = .ok r := by
  rcases extract_cases p with h | ⟨t, i, f, h, hf⟩
  · exact ⟨none, extract_of_no_token h⟩
  · rw [extract_of_leftmost h hf hlen]
    cases stod (List.take i (toLowerCase p)) with
    | ok v => exact ⟨_, rfl⟩
    | error e => exact ⟨_, rfl⟩

theorem isLeftmostToken_of_unitSearch {buffer t : CppString} {i : Nat}
    (h : unitSearch buffer =
      { minimumUnitIdentifierStartingIndex := (i : Int), minimumUnitIDType := t })
    (ht : t ≠ []) (hlen : buffer.length < 2 ^ 31) : IsLeftmostToken buffer t i := by
  by_cases hno : ∀ u ∈ unitTokens, ¬ u <:+: buffer
  · have h0 := unitSearch_of_no_token buffer hno
    rw [h] at h0
    simp only [UnitSearch.mk.injEq] at h0
    exact absurd h0.2 ht
  · push_neg at hno
    obtain ⟨u, j, hl⟩ := exists_leftmost hno
    have hs := unitSearch_of_leftmost hl hlen
    rw [h] at hs
    simp only [UnitSearch.mk.injEq, Nat.cast_inj] at hs
    rw [hs.1, hs.2]
    exact hl

theorem toLowerCase_eq_of_sameUpToCase {p q : CppString} (h : SameUpToCase p q = true) :
    toLowerCase p = toLowerCase q := by
  induction p generalizing q with
  | nil =>
    cases q with
    | nil => rfl
    | cons b q => simp [SameUpToCase] at h
  | cons a p ih =>
    cases q with
    | nil => simp [SameUpToCase] at h
    | cons b q =>
      simp only [SameUpToCase, Bool.and_eq_true] at h
      obtain ⟨hc, hrest⟩ := h
      have hab : a.toLower = b.toLower := by
        simp only [sameCharUpToCase, Bool.or_eq_true, beq_iff_eq, Bool.and_eq_true] at hc
        rcases hc with rfl | ⟨_, h3⟩
        · rfl
        · exact h3
      simp only [toLowerCase, List.map_cons, List.cons.injEq]
      exact ⟨hab, ih hrest⟩

theorem stod_nil : stod [] = .error StdException.invalid_argument := by decide
/-! ## `std::stod` on text without a leading number -/

theorem parseDecimal_eq_none {body : CppString} (h : startsMantissa body = false) :
    parseDecimal body = none := by
  cases body with
  | nil => rfl
  | cons c rest =>
    simp only [startsMantissa, Bool.or_eq_false_iff, Bool.and_eq_false_iff] at h
    obtain ⟨hc, hdot⟩ := h
    have htake : List.takeWhile Char.isDigit (c :: rest) = [] := by
      simp [List.takeWhile_cons, hc]
    have hdrop : List.dropWhile Char.isDigit (c :: rest) = c :: rest := by
      simp [List.dropWhile_cons, hc]
    have hfp : (match afterPoint (c :: rest) with
        | some r => List.takeWhile Char.isDigit r
        | none => []) = [] := by
      by_cases hp : c = '.'
      · subst hp
        simp only [afterPoint, if_true]
        cases rest with
        | nil => rfl
        | cons d r =>
          rcases hdot with hdot | hdot
          · simp at hdot
          · simp only at hdot
            simp [List.takeWhile_cons, hdot]
      · simp only [afterPoint, hp, if_false]
    simp only [parseDecimal, parseMantissa, htake, hdrop, hfp, List.isEmpty_nil, Bool.and_self,
      if_true]

theorem parseHex_eq_none {body : CppString} (h : startsMantissa body = false) :
    parseHex body = none := by
  cases body with
  | nil => rfl
  | cons c rest =>
    cases rest with
    | nil => rfl
    | cons x t =>
      simp only [startsMantissa, Bool.or_eq_false_iff] at h
      have hc : c ≠ '0' := by
        rintro rfl
        exact absurd h.1 (by decide)
      simp only [parseHex, hc, false_and, if_false]

theorem stod_of_not_startsNumber {s : CppString} (h : startsNumber s = false) :
    stod s = .error StdException.invalid_argument := by
  simp only [startsNumber, Bool.or_eq_false_iff] at h
  obtain ⟨⟨hm, hinf⟩, hnan⟩ := h
  simp only [stod, parseHex_eq_none hm, parseDecimal_eq_none hm, hinf, hnan]
  rfl

theorem parseMantissa_eq_none {body : CppString} (h : startsMantissa body = false) :
    parseMantissa Char.isDigit body = none := by
  have hd := parseDecimal_eq_none h
  unfold parseDecimal at hd
  cases hm : parseMantissa Char.isDigit body with
  | none => rfl
  | some v => rw [hm] at hd; exact absurd hd (by simp)

theorem isspace_cases {c : Char} (h : isspace c = true) :
    c ≠ '-' ∧ c ≠ '+' ∧ startsMantissa [c] = false ∧ ∀ r, startsMantissa (c :: r) = false := by
  have hmem : c ∈ [' ', '\t', '\n', Char.ofNat 11, Char.ofNat 12, '\r'] := by
    simp only [isspace, Bool.or_eq_true, beq_iff_eq] at h
    simp only [List.mem_cons, List.mem_singleton, List.not_mem_nil, or_false]
    rcases h with ((((h | h) | h) | h) | h) | h
    · exact Or.inl h
    · exact Or.inr (Or.inl h)
    · exact Or.inr (Or.inr (Or.inl h))
    · exact Or.inr (Or.inr (Or.inr (Or.inl (by rw [← h, Char.ofNat_toNat]))))
    · exact Or.inr (Or.inr (Or.inr (Or.inr (Or.inl (by rw [← h, Char.ofNat_toNat])))))
    · exact Or.inr (Or.inr (Or.inr (Or.inr (Or.inr h))))
  simp only [List.mem_cons, List.mem_singleton, List.not_mem_nil, or_false] at hmem
  rcases hmem with rfl | rfl | rfl | rfl | rfl | rfl <;>
    exact ⟨by decide, by decide, by decide, fun r => by cases r <;> rfl⟩

theorem not_decimalNumber_of_not_startsNumber {s : CppString}
    (h : startsNumber s = false) : isDecimalNumber s = false := by
  cases s with
  | nil => rfl
  | cons c r =>
    by_cases hsp : isspace c = true
    · obtain ⟨hm, hp, _, hsm⟩ := isspace_cases hsp
      have hsign : parseSign (c :: r) = (false, c :: r) := by simp [parseSign, hm, hp]
      simp only [isDecimalNumber, hsign, parseMantissa_eq_none (hsm r)]
    · have hdrop : List.dropWhile isspace (c :: r) = c :: r := by
        simp [List.dropWhile_cons, hsp]
      simp only [startsNumber, hdrop, Bool.or_eq_false_iff] at h
      simp only [isDecimalNumber, parseMantissa_eq_none h.1.1]
/-! ## `std::stod` on a decimal numeral -/

theorem isDigit_mem {c : Char} (h : c.isDigit = true) : c ∈ "0123456789".toList := by
  have h1 : 48 ≤ c.toNat ∧ c.toNat ≤ 57 := by
    simp only [Char.isDigit, Bool.and_eq_true, decide_eq_true_eq] at h
    exact ⟨h.1, h.2⟩
  have h2 : c = Char.ofNat c.toNat := (Char.ofNat_toNat c).symm
  obtain ⟨ha, hb⟩ := h1
  generalize c.toNat = n at *
  subst h2
  interval_cases n <;> decide

theorem numeralChar_of_mem : ∀ c ∈ "0123456789.".toList, NumeralChar c := by
  unfold NumeralChar
  decide

theorem numeralChar_of_isDigit {c : Char} (h : c.isDigit = true) : NumeralChar c := by
  apply numeralChar_of_mem
  have := isDigit_mem h
  revert this
  generalize c = d
  simp only [String.toList, List.mem_cons, List.mem_singleton, List.not_mem_nil, or_false]
  tauto

theorem digit_not_sign : ∀ c ∈ "0123456789".toList,
    isspace c = false ∧ c ≠ '-' ∧ c ≠ '+' ∧ c ≠ '.' := by decide

theorem digitsValue_append (base : Nat) (xs ys : CppString) :
    digitsValue base (xs ++ ys) = digitsValue base xs * base ^ ys.length + digitsValue base ys := by
  unfold digitsValue
  rw [List.foldl_append]
  generalize List.foldl (fun acc c => base * acc + digitValue c) 0 xs = a
  induction ys generalizing a with
  | nil => simp
  | cons y ys ih =>
    simp only [List.foldl_cons, List.length_cons]
    rw [ih (base * a + digitValue y), ih (base * 0 + digitValue y)]
    ring

theorem numeralText_chars {ds : CppString} {frac : Option CppString}
    (hd : ∀ c ∈ ds, c.isDigit = true)
    (hf : ∀ fs, frac = some fs → ∀ c ∈ fs, c.isDigit = true) :
    ∀ c ∈ numeralText ds frac, NumeralChar c := by
  intro c hc
  cases frac with
  | none => exact numeralChar_of_isDigit (hd c hc)
  | some fs =>
    simp only [numeralText, List.mem_append, List.mem_cons] at hc
    rcases hc with hc | rfl | hc
    · exact numeralChar_of_isDigit (hd c hc)
    · exact numeralChar_of_mem _ (by decide)
    · exact numeralChar_of_isDigit (hf fs rfl c hc)

theorem toLowerCase_of_numeralChars {n : CppString} (h : ∀ c ∈ n, NumeralChar c) :
    toLowerCase n = n := by
  induction n with
  | nil => rfl
  | cons c n ih =>
    simp only [toLowerCase, List.map_cons, List.cons.injEq]
    exact ⟨(h c (List.mem_cons_self _ _)).1,
      ih (fun d hd => h d (List.mem_cons_of_mem _ hd))⟩

theorem toLowerCase_append (a b : CppString) :
    toLowerCase (a ++ b) = toLowerCase a ++ toLowerCase b := by
  simp [toLowerCase]

theorem isLeftmostToken_after_numeral {n t rest : CppString}
    (hn : ∀ c ∈ n, NumeralChar c) (ht : t ∈ unitTokens) :
    IsLeftmostToken (n ++ t ++ rest) t n.length := by
  refine ⟨ht, ?_, ?_⟩
  · unfold OccursAt
    rw [List.append_assoc, List.drop_left]
    exact List.prefix_append t rest
  · intro u hu j hj
    by_contra hlt
    have hjn : j < n.length := by omega
    unfold OccursAt at hj
    rw [List.append_assoc, List.drop_append_of_le_length (by omega),
      List.drop_eq_getElem_cons hjn] at hj
    have hune := unitToken_ne_nil u hu
    cases u with
    | nil => exact hune rfl
    | cons a u' =>
      simp only [List.cons_append] at hj
      have hhead : a = n[j] := (List.cons_prefix_cons.1 hj).1
      exact (hn n[j] (List.getElem_mem _)).2.2 (a :: u') hu (by simp [hhead])

theorem strtodRangeError_of_normal {v : ℚ}
    (h : v = 0 ∨ (DBL_MIN ≤ v ∧ v < overflowThreshold)) : strtodRangeError v = false := by
  have hT : (0 : ℚ) < overflowThreshold := by unfold overflowThreshold; norm_num
  have hm : (0 : ℚ) < DBL_MIN := by unfold DBL_MIN; positivity
  have ht : tinyThreshold < DBL_MIN := by unfold tinyThreshold; norm_num
  unfold strtodRangeError
  rcases h with rfl | ⟨h1, h2⟩
  · simp [hT]
  · have hv : 0 < v := lt_of_lt_of_le hm h1
    have h3 : ¬ v < tinyThreshold := not_lt.2 (le_trans (le_of_lt ht) h1)
    simp [abs_of_pos hv, not_le.2 h2, h3]

theorem numeralText_cons (c : Char) (ds : CppString) (frac : Option CppString) :
    numeralText (c :: ds) frac = c :: numeralText ds frac := by
  cases frac <;> rfl

theorem parseMantissa_numeral {ds : CppString} {frac : Option CppString} (hds : ds ≠ [])
    (hd : ∀ c ∈ ds, c.isDigit = true)
    (hf : ∀ fs, frac = some fs → ∀ c ∈ fs, c.isDigit = true) :
    parseMantissa Char.isDigit (numeralText ds frac) = some (ds, frac.getD [], []) := by
  have hne : ds.isEmpty = false := by
    cases ds with
    | nil => exact absurd rfl hds
    | cons c ds => rfl
  cases frac with
  | none =>
    have h1 : List.takeWhile Char.isDigit ds = ds := List.takeWhile_eq_self_iff.2 hd
    have h2 : List.dropWhile Char.isDigit ds = [] := List.dropWhile_eq_nil_iff.2 hd
    simp only [parseMantissa, numeralText, h1, h2, afterPoint, hne, Bool.false_and,
      Option.getD_none]
    rfl
  | some fs =>
    have hfs := hf fs rfl
    have h1 : List.takeWhile Char.isDigit (ds ++ '.' :: fs) = ds := by
      rw [List.takeWhile_append_of_pos hd]
      simp [List.takeWhile_cons]
    have h2 : List.dropWhile Char.isDigit (ds ++ '.' :: fs) = '.' :: fs := by
      rw [List.dropWhile_append_of_pos hd]
      simp [List.dropWhile_cons]
    have h3 : List.takeWhile Char.isDigit fs = fs := List.takeWhile_eq_self_iff.2 hfs
    have h4 : List.dropWhile Char.isDigit fs = [] := List.dropWhile_eq_nil_iff.2 hfs
    simp only [parseMantissa, numeralText, h1, h2, afterPoint, if_true, h3, h4, hne,
      Bool.false_and, Option.getD_some]
    rfl

theorem parseDecimal_numeral {ds : CppString} {frac : Option CppString} (hds : ds ≠ [])
    (hd : ∀ c ∈ ds, c.isDigit = true)
    (hf : ∀ fs, frac = some fs → ∀ c ∈ fs, c.isDigit = true) :
    parseDecimal (numeralText ds frac) = some (numeralValue ds frac) := by
  simp only [parseDecimal, parseMantissa_numeral hds hd hf, parseExponent, Option.some.injEq]
  cases frac with
  | none => simp [numeralValue]
  | some fs =>
    simp only [Option.getD_some, numeralValue, digitsValue_append, zero_sub, zpow_neg,
      zpow_natCast]
    push_cast
    field_simp

theorem parseHex_numeral {n : CppString} (hn : ∀ c ∈ n, NumeralChar c) :
    parseHex n = none := by
  cases n with
  | nil => rfl
  | cons c rest =>
    cases rest with
    | nil => rfl
    | cons x t =>
      have hx : x.toLower ≠ 'x' :=
        (hn x (List.mem_cons_of_mem _ (List.mem_cons_self _ _))).2.1
      simp only [parseHex, hx, and_false, if_false]

theorem stod_numeral {ds : CppString} {frac : Option CppString} (hds : ds ≠ [])
    (hd : ∀ c ∈ ds, c.isDigit = true)
    (hf : ∀ fs, frac = some fs → ∀ c ∈ fs, c.isDigit = true) :
    stod (numeralText ds frac) =
      if strtodRangeError (numeralValue ds frac) then .error StdException.out_of_range
      else .ok (roundBinary64 (numeralValue ds frac)) := by
  have hhex := parseHex_numeral (numeralText_chars hd hf)
  have hdec := parseDecimal_numeral hds hd hf
  obtain ⟨c, ds', rfl⟩ := List.exists_cons_of_ne_nil hds
  obtain ⟨hsp, hminus, hplus, _⟩ :=
    digit_not_sign c (isDigit_mem (hd c (List.mem_cons_self _ _)))
  rw [numeralText_cons] at hhex hdec ⊢
  have hbody : parseSign (List.dropWhile isspace (c :: numeralText ds' frac)) =
      (false, c :: numeralText ds' frac) := by
    simp [List.dropWhile_cons, hsp, parseSign, hminus, hplus]
  simp only [stod, hbody, hhex, hdec]
  rfl

theorem unit_entry_mem (u : LengthUnit) :
    (u.text ++ "-".toList, roundBinary64 u.factor) ∈
      unitIdentifierToMetricMeterConversionFactor := by
  cases u <;> decide!

theorem toLowerCase_unit_token (u : LengthUnit) :
    toLowerCase (u.text ++ "-".toList) = u.text ++ "-".toList := by
  cases u <;> decide


/-! ## Rounding keeps the sign -/

theorem ulp_pos (q : ℚ) : 0 < ulp q := by
  unfold ulp
  positivity

theorem roundHalfEven_nonpos {x : ℚ} (h : x ≤ 0) : roundHalfEven x ≤ 0 := by
  have hf : ⌊x⌋ ≤ 0 := Int.floor_nonpos h
  unfold roundHalfEven
  by_cases h1 : x - ⌊x⌋ < 1 / 2
  · rw [if_pos h1]
    exact hf
  · have hlt : ⌊x⌋ < 0 := by
      rcases lt_or_eq_of_le hf with hlt | heq
      · exact hlt
      · exfalso
        apply h1
        rw [heq]
        simp only [Int.cast_zero, sub_zero]
        exact lt_of_le_of_lt h (by norm_num)
    rw [if_neg h1]
    split_ifs <;> omega

theorem roundBinary64_not_positive {q : ℚ} (h : q ≤ 0) : (roundBinary64 q).isPositive = false := by
  have hu := ulp_pos q
  have hx : q / ulp q ≤ 0 := div_nonpos_of_nonpos_of_nonneg h (le_of_lt hu)
  have hr : ((roundHalfEven (q / ulp q) : Int) : ℚ) ≤ 0 := by
    exact_mod_cast roundHalfEven_nonpos hx
  have hprod : (roundHalfEven (q / ulp q) : ℚ) * ulp q ≤ 0 :=
    mul_nonpos_of_nonpos_of_nonneg hr (le_of_lt hu)
  unfold roundBinary64
  split_ifs with hbig
  · rcases lt_or_eq_of_le h with hlt | heq
    · simp [Double.isPositive, hlt]
    · exfalso
      rw [heq] at hbig
      simp [roundHalfEven] at hbig
      exact absurd hbig (by norm_num)
  · simp only [Double.isPositive, decide_eq_false_iff_not, not_lt]
    exact hprod

theorem pos_of_roundBinary64_positive {q : ℚ} (h : (roundBinary64 q).isPositive = true) :
    0 < q := by
  by_contra hq
  rw [roundBinary64_not_positive (not_lt.1 hq)] at h
  exact absurd h (by decide)

theorem factor_pos_of_mem {t : CppString} {f : Double}
    (h : (t, f) ∈ unitIdentifierToMetricMeterConversionFactor) :
    ∃ q, f = Double.finite q ∧ 0 < q := by
  have hall : ∀ e ∈ unitIdentifierToMetricMeterConversionFactor,
      (match e.2 with
        | .finite q => decide (0 < q)
        | _ => false) = true := by decide!
  have := hall (t, f) h
  cases f with
  | finite q => exact ⟨q, rfl, by simpa using this⟩
  | infinite s => simp at this
  | nan => simp at this

theorem finite_mul_finite (a b : ℚ) :
    Double.finite a * Double.finite b = roundBinary64 (a * b) := rfl

theorem mul_factor_not_positive {v q : ℚ} (hv : v ≤ 0) (hq : 0 < q) :
    (Double.finite v * Double.finite q).isPositive = false := by
  rw [finite_mul_finite]
  exact roundBinary64_not_positive (mul_nonpos_of_nonpos_of_nonneg hv (le_of_lt hq))

theorem isPositive_of_mul_factor (v : Double) {q : ℚ} (hq : 0 < q)
    (h : (v * Double.finite q).isPositive = true) : v.isPositive = true := by
  cases v with
  | finite a =>
    rw [finite_mul_finite] at h
    have := pos_of_roundBinary64_positive h
    simp only [Double.isPositive, decide_eq_true_eq]
    exact (mul_pos_iff_of_pos_right hq).1 this
  | infinite negative =>
    have hmul : Double.infinite negative * Double.finite q =
        (if q = 0 then Double.nan
          else Double.infinite (xor negative (decide (q < 0)))) := rfl
    rw [hmul, if_neg (ne_of_gt hq)] at h
    have : decide (q < 0) = false := decide_eq_false (not_lt.2 (le_of_lt hq))
    rw [this, Bool.xor_false] at h
    exact h
  | nan =>
    have hmul : Double.nan * Double.finite q = Double.nan := rfl
    rw [hmul] at h
    exact h

/-! ## The parser on any state of the loop -/

theorem extract_of_unitSearch {p t : CppString} {idx : Int} {f : Double}
    (hs : unitSearch (toLowerCase p) =
      { minimumUnitIdentifierStartingIndex := idx, minimumUnitIDType := t })
    (ht : t ≠ []) (hf : mapAt unitIdentifierToMetricMeterConversionFactor t = .ok f) :
    extractQRCodeDimensionFromString p =
      match stod ((toLowerCase p).take (toSizeT idx)) with
      | .error _ => .ok none
      | .ok v =>
        if p.length < (toSizeT idx + t.length) % 2 ^ 64 then .error StdException.out_of_range
        else .ok (some (v * f, p.drop ((toSizeT idx + t.length) % 2 ^ 64))) := by
  have hne : t.length ≠ 0 := fun h => ht (List.length_eq_zero.1 h)
  unfold extractQRCodeDimensionFromString
  simp only [hs, hne, if_false, substr, Nat.not_lt_zero, List.drop_zero, hf, pure, Except.pure]
  cases stod (List.take (toSizeT idx) (toLowerCase p)) with
  | error e => rfl
  | ok v =>
    by_cases hlt : p.length < (toSizeT idx + t.length) % 2 ^ 64
    · simp only [hlt, if_true]
      rfl
    · simp only [hlt, if_false]

theorem startsNumber_of_letter {c : Char} (hc : c ∈ ['c', 'f', 'm']) (xs : CppString) :
    startsNumber (c :: xs) = false := by
  simp only [List.mem_cons, List.mem_singleton, List.not_mem_nil, or_false] at hc
  rcases hc with rfl | rfl | rfl <;>
    simp [startsNumber, List.dropWhile_cons, isspace, parseSign, startsMantissa,
      startsWithNoCase, toLowerCase, List.isPrefixOf]

theorem startsNumber_of_inch (n : Nat) (rest : CppString) :
    startsNumber (('i' :: 'n' :: '-' :: rest).take n) = false := by
  match n with
  | 0 => rfl
  | 1 => rfl
  | 2 => rfl
  | k + 3 =>
    simp [startsNumber, List.dropWhile_cons, isspace, parseSign, startsMantissa,
      startsWithNoCase, toLowerCase, List.isPrefixOf]

/-- No prefix of a buffer that starts with a unit token has a number at its start. -/
theorem startsNumber_take_of_token_start {buffer t : CppString} (ht : t ∈ unitTokens)
    (hp : t <+: buffer) (n : Nat) : startsNumber (buffer.take n) = false := by
  obtain ⟨rest, rfl⟩ := hp
  have hcases : t = "cm-".toList ∨ t = "ft-".toList ∨ t = "in-".toList ∨ t = "m-".toList ∨
      t = "mm-".toList := by
    simpa [unitTokens, unitIdentifierToMetricMeterConversionFactor] using ht
  cases n with
  | zero => rfl
  | succ k =>
    rcases hcases with rfl | rfl | rfl | rfl | rfl
    · exact startsNumber_of_letter (by decide) _
    · exact startsNumber_of_letter (by decide) _
    · exact startsNumber_of_inch (k + 1) rest
    · exact startsNumber_of_letter (by decide) _
    · exact startsNumber_of_letter (by decide) _

/-! ## The binade of a value -/

theorem bitLength_spec (fuel n : Nat) (h : n ≤ fuel) :
    n < 2 ^ bitLength fuel n ∧ (n ≠ 0 → 2 ^ (bitLength fuel n - 1) ≤ n) := by
  induction fuel generalizing n with
  | zero =>
    have : n = 0 := by omega
    subst this
    simp [bitLength]
  | succ fuel ih =>
    by_cases hn : n = 0
    · subst hn
      simp [bitLength]
    · have hhalf : n / 2 ≤ fuel := by omega
      obtain ⟨h1, h2⟩ := ih (n / 2) hhalf
      simp only [bitLength, hn, if_false, Nat.add_sub_cancel]
      constructor
      · rw [pow_succ]
        omega
      · intro _
        by_cases hz : n / 2 = 0
        · have hb : bitLength fuel (n / 2) = 0 := by
            rw [hz]
            cases fuel <;> simp [bitLength]
          rw [hb]
          simp
          omega
        · have h3 := h2 hz
          have hpos : 0 < bitLength fuel (n / 2) := by
            by_contra h0
            have : bitLength fuel (n / 2) = 0 := by omega
            rw [this] at h1
            simp at h1
            exact hz h1
          have : 2 ^ bitLength fuel (n / 2) = 2 * 2 ^ (bitLength fuel (n / 2) - 1) := by
            rw [← pow_succ']
            congr 1
            omega
          rw [this]
          omega

theorem abs_eq_natAbs_div_den (q : ℚ) : |q| = (q.num.natAbs : ℚ) / (q.den : ℚ) := by
  have hden : (0 : ℚ) < q.den := by exact_mod_cast q.den_pos
  conv_lhs => rw [← Rat.num_div_den q]
  rw [abs_div, abs_of_pos hden, Nat.cast_natAbs, Int.cast_abs]

/-- The binade of a value other than zero holds the value: `2^e ≤ |q| < 2^(e+1)`. -/
theorem floorLog2_spec {q : ℚ} (hq : q ≠ 0) :
    (2 : ℚ) ^ floorLog2 q ≤ |q| ∧ |q| < 2 ^ (floorLog2 q + 1) := by
  have hden : (0 : ℚ) < q.den := by exact_mod_cast q.den_pos
  have hnum0 : q.num.natAbs ≠ 0 := by
    intro h
    exact hq (Rat.zero_of_num_zero (Int.natAbs_eq_zero.1 h))
  have hden0 : q.den ≠ 0 := q.den_nz
  obtain ⟨n1, n2⟩ := bitLength_spec q.num.natAbs q.num.natAbs (le_refl _)
  obtain ⟨d1, d2⟩ := bitLength_spec q.den q.den (le_refl _)
  have n2' := n2 hnum0
  have d2' := d2 hden0
  have hbn : 0 < bitLength q.num.natAbs q.num.natAbs := by
    by_contra h0
    have : bitLength q.num.natAbs q.num.natAbs = 0 := by omega
    rw [this, pow_zero] at n1
    omega
  have hbd : 0 < bitLength q.den q.den := by
    by_contra h0
    have : bitLength q.den q.den = 0 := by omega
    rw [this, pow_zero] at d1
    omega
  -- the four bounds, in ℚ
  have N1 : (q.num.natAbs : ℚ) < 2 ^ (bitLength q.num.natAbs q.num.natAbs : Int) := by
    rw [zpow_natCast]
    exact_mod_cast n1
  have N2 : (2 : ℚ) ^ ((bitLength q.num.natAbs q.num.natAbs : Int) - 1) ≤ q.num.natAbs := by
    have : ((bitLength q.num.natAbs q.num.natAbs : Int) - 1) =
        ((bitLength q.num.natAbs q.num.natAbs - 1 : Nat) : Int) := by omega
    rw [this, zpow_natCast]
    exact_mod_cast n2'
  have D1 : (q.den : ℚ) < 2 ^ (bitLength q.den q.den : Int) := by
    rw [zpow_natCast]
    exact_mod_cast d1
  have D2 : (2 : ℚ) ^ ((bitLength q.den q.den : Int) - 1) ≤ q.den := by
    have : ((bitLength q.den q.den : Int) - 1) = ((bitLength q.den q.den - 1 : Nat) : Int) := by
      omega
    rw [this, zpow_natCast]
    exact_mod_cast d2'
  have h2 : (0 : ℚ) < 2 := by norm_num
  have h2' : (2 : ℚ) ≠ 0 := by norm_num
  -- lower: 2^(bn - bd - 1) ≤ |q|, upper: |q| < 2^(bn - bd + 1)
  have hlow : (2 : ℚ) ^ ((bitLength q.num.natAbs q.num.natAbs : Int) -
      (bitLength q.den q.den : Int) - 1) ≤ |q| := by
    rw [abs_eq_natAbs_div_den, le_div_iff₀ hden]
    calc (2 : ℚ) ^ ((bitLength q.num.natAbs q.num.natAbs : Int) -
            (bitLength q.den q.den : Int) - 1) * q.den
        ≤ (2 : ℚ) ^ ((bitLength q.num.natAbs q.num.natAbs : Int) -
            (bitLength q.den q.den : Int) - 1) * 2 ^ (bitLength q.den q.den : Int) :=
          mul_le_mul_of_nonneg_left (le_of_lt D1) (le_of_lt (zpow_pos h2 _))
      _ = (2 : ℚ) ^ ((bitLength q.num.natAbs q.num.natAbs : Int) - 1) := by
          rw [← zpow_add₀ h2']
          congr 1
          ring
      _ ≤ q.num.natAbs := N2
  have hup : |q| < (2 : ℚ) ^ ((bitLength q.num.natAbs q.num.natAbs : Int) -
      (bitLength q.den q.den : Int) + 1) := by
    rw [abs_eq_natAbs_div_den, div_lt_iff₀ hden]
    calc (q.num.natAbs : ℚ) < 2 ^ (bitLength q.num.natAbs q.num.natAbs : Int) := N1
      _ = (2 : ℚ) ^ ((bitLength q.num.natAbs q.num.natAbs : Int) -
            (bitLength q.den q.den : Int) + 1) * 2 ^ ((bitLength q.den q.den : Int) - 1) := by
          rw [← zpow_add₀ h2']
          congr 1
          ring
      _ ≤ (2 : ℚ) ^ ((bitLength q.num.natAbs q.num.natAbs : Int) -
            (bitLength q.den q.den : Int) + 1) * q.den :=
          mul_le_mul_of_nonneg_left D2 (le_of_lt (zpow_pos h2 _))
  unfold floorLog2
  split_ifs with hc
  · exact ⟨hc, hup⟩
  · refine ⟨hlow, ?_⟩
    rw [sub_add_cancel]
    exact not_le.1 hc

theorem roundHalfEven_pos {x : ℚ} (h : 1 ≤ x) : 1 ≤ roundHalfEven x := by
  have hf : 1 ≤ ⌊x⌋ := Int.le_floor.2 (by exact_mod_cast h)
  unfold roundHalfEven
  split_ifs <;> omega

/-- A value of at least the smallest subnormal `2^-1074` rounds to a value above zero. -/
theorem roundBinary64_positive {q : ℚ} (h : 1 / 2 ^ 1074 ≤ q) :
    (roundBinary64 q).isPositive = true := by
  have hq : 0 < q := lt_of_lt_of_le (by positivity) h
  have hu := ulp_pos q
  have hx : 1 ≤ q / ulp q := by
    rw [le_div_iff₀ hu, one_mul]
    unfold ulp
    rcases le_total (floorLog2 q) (-1022) with hle | hge
    · rw [max_eq_right hle]
      have : (2 : ℚ) ^ ((-1022 : Int) - 52) = 1 / 2 ^ 1074 := by norm_num [zpow_neg]
      rw [this]
      exact h
    · rw [max_eq_left hge]
      have h1 := (floorLog2_spec (ne_of_gt hq)).1
      rw [abs_of_pos hq] at h1
      refine le_trans ?_ h1
      exact zpow_le_zpow_right₀ (by norm_num) (by omega)
  have hn := roundHalfEven_pos hx
  have hr : (0 : ℚ) < (roundHalfEven (q / ulp q) : ℚ) * ulp q := by
    apply mul_pos _ hu
    exact_mod_cast lt_of_lt_of_le zero_lt_one hn
  unfold roundBinary64
  split_ifs with hbig
  · simp [Double.isPositive, not_lt.2 (le_of_lt hq)]
  · simp only [Double.isPositive, decide_eq_true_eq]
    exact hr

theorem factor_ge_of_mem {t : CppString} {f : Double}
    (h : (t, f) ∈ unitIdentifierToMetricMeterConversionFactor) :
    ∃ q, f = Double.finite q ∧ 1 / 1024 ≤ q := by
  have hall : ∀ e ∈ unitIdentifierToMetricMeterConversionFactor,
      (match e.2 with
        | .finite q => decide (1 / 1024 ≤ q)
        | _ => false) = true := by decide!
  have := hall (t, f) h
  cases f with
  | finite q => exact ⟨q, rfl, by simpa using this⟩
  | infinite s => simp at this
  | nan => simp at this

/-- The product of a number of at least `DBL_MIN`, or of the positive infinity, and a
factor of the unit table is greater than 0. -/
theorem mul_factor_positive {t : CppString} {f : Double}
    (h : (t, f) ∈ unitIdentifierToMetricMeterConversionFactor) :
    (∀ a, DBL_MIN ≤ a → (Double.finite a * f).isPositive = true) ∧
    (Double.infinite false * f).isPositive = true := by
  obtain ⟨q, rfl, hq⟩ := factor_ge_of_mem h
  have hq0 : 0 < q := lt_of_lt_of_le (by norm_num) hq
  constructor
  · intro a ha
    rw [finite_mul_finite]
    apply roundBinary64_positive
    have ha0 : 0 ≤ a := le_trans (by unfold DBL_MIN; positivity) ha
    calc (1 : ℚ) / 2 ^ 1074 ≤ DBL_MIN * (1 / 1024) := by unfold DBL_MIN; norm_num
      _ ≤ a * q := mul_le_mul ha hq (by norm_num) ha0
  · have hmul : Double.infinite false * Double.finite q =
        (if q = 0 then Double.nan
          else Double.infinite (xor false (decide (q < 0)))) := rfl
    rw [hmul, if_neg (ne_of_gt hq0)]
    have : decide (q < 0) = false := decide_eq_false (not_lt.2 (le_of_lt hq0))
    rw [this]
    rfl

theorem binade_unique {x : ℚ} {a b : Int} (ha : (2 : ℚ) ^ a ≤ x) (ha' : x < 2 ^ (a + 1))
    (hb : (2 : ℚ) ^ b ≤ x) (hb' : x < 2 ^ (b + 1)) : a = b := by
  have h1 : a < b + 1 := (zpow_lt_zpow_iff_right₀ (by norm_num : (1 : ℚ) < 2)).1
    (lt_of_le_of_lt ha hb')
  have h2 : b < a + 1 := (zpow_lt_zpow_iff_right₀ (by norm_num : (1 : ℚ) < 2)).1
    (lt_of_le_of_lt hb ha')
  omega

theorem floorLog2_half {s : ℚ} (hs : s ≠ 0) : floorLog2 (s / 2) = floorLog2 s - 1 := by
  have h2 : (2 : ℚ) ≠ 0 := by norm_num
  obtain ⟨a1, a2⟩ := floorLog2_spec hs
  obtain ⟨b1, b2⟩ := floorLog2_spec (div_ne_zero hs h2)
  rw [abs_div, abs_of_pos (by norm_num : (0 : ℚ) < 2)] at b1 b2
  have c1 : (2 : ℚ) ^ (floorLog2 (s / 2) + 1) ≤ |s| := by
    rw [zpow_add_one₀ h2]
    calc (2 : ℚ) ^ floorLog2 (s / 2) * 2 ≤ |s| / 2 * 2 :=
          mul_le_mul_of_nonneg_right b1 (by norm_num)
      _ = |s| := by ring
  have c2 : |s| < (2 : ℚ) ^ (floorLog2 (s / 2) + 1 + 1) := by
    rw [zpow_add_one₀ h2 (floorLog2 (s / 2) + 1)]
    calc |s| = |s| / 2 * 2 := by ring
      _ < (2 : ℚ) ^ (floorLog2 (s / 2) + 1) * 2 := mul_lt_mul_of_pos_right b2 (by norm_num)
  have := binade_unique a1 a2 c1 c2
  omega

/-- Halving a binary64 value of magnitude at least `2^-1021` is exact. -/
theorem half_exact {s : ℚ} (hs : roundBinary64 s = Double.finite s)
    (hmag : 1 / 2 ^ 1021 ≤ |s|) : Double.half (Double.finite s) = Double.finite (s / 2) := by
  have h2 : (2 : ℚ) ≠ 0 := by norm_num
  have hs0 : s ≠ 0 := by
    rintro rfl
    rw [abs_zero] at hmag
    exact absurd hmag (not_le.2 (by positivity))
  have he : -1021 ≤ floorLog2 s := by
    have hup := (floorLog2_spec hs0).2
    have : (2 : ℚ) ^ (-1021 : Int) < 2 ^ (floorLog2 s + 1) := by
      refine lt_of_le_of_lt ?_ hup
      have : (2 : ℚ) ^ (-1021 : Int) = 1 / 2 ^ 1021 := by norm_num [zpow_neg]
      rw [this]
      exact hmag
    have := (zpow_lt_zpow_iff_right₀ (by norm_num : (1 : ℚ) < 2)).1 this
    omega
  have hulp : ulp (s / 2) = ulp s / 2 := by
    unfold ulp
    rw [floorLog2_half hs0, max_eq_left (by omega), max_eq_left (by omega)]
    have : floorLog2 s - 1 - 52 = floorLog2 s - 52 - 1 := by ring
    rw [this, zpow_sub_one₀ h2]
    ring
  have hx : s / 2 / ulp (s / 2) = s / ulp s := by
    rw [hulp]
    field_simp
  have hu := ulp_pos s
  unfold roundBinary64 at hs
  split_ifs at hs with hbig
  have hval : (roundHalfEven (s / ulp s) : ℚ) * ulp s = s := Double.finite.inj hs
  show roundBinary64 (s / 2) = Double.finite (s / 2)
  unfold roundBinary64
  rw [hx, hulp]
  have hval' : (roundHalfEven (s / ulp s) : ℚ) * (ulp s / 2) = s / 2 := by
    have hh : (roundHalfEven (s / ulp s) : ℚ) * (ulp s / 2) =
        (roundHalfEven (s / ulp s) : ℚ) * ulp s / 2 := by ring
    rw [hh, hval]
  rw [hval']
  have hsmall : ¬ (2 : ℚ) ^ 1024 ≤ |s / 2| := by
    rw [hval] at hbig
    rw [abs_div, abs_of_pos (by norm_num : (0 : ℚ) < 2)]
    intro hc
    apply hbig
    calc (2 : ℚ) ^ 1024 ≤ |s| / 2 := hc
      _ ≤ |s| := by
        have := abs_nonneg s
        linarith
  rw [if_neg hsmall]

theorem half_zero : Double.half (Double.finite 0) = Double.finite 0 := by decide!


/-! ## Payloads of `2^31` characters and more -/

theorem toLowerCase_of_lower {s : CppString} (h : ∀ c ∈ s, c.toLower = c) :
    toLowerCase s = s := by
  induction s with
  | nil => rfl
  | cons c s ih =>
    simp only [toLowerCase, List.map_cons, List.cons.injEq]
    exact ⟨h c (List.mem_cons_self _ _), ih (fun d hd => h d (List.mem_cons_of_mem _ hd))⟩

theorem toLowerCase_padded (pre suf : CppString) (n : Nat) (hpre : toLowerCase pre = pre)
    (hsuf : toLowerCase suf = suf) : toLowerCase (padded pre n suf) = padded pre n suf := by
  have hx : toLowerCase (List.replicate n 'x') = List.replicate n 'x' :=
    toLowerCase_of_lower (fun c hc => by rw [List.eq_of_mem_replicate hc]; decide)
  unfold padded
  rw [toLowerCase_append, toLowerCase_append, hpre, hx, hsuf]

theorem padded_length (pre suf : CppString) (n : Nat) :
    (padded pre n suf).length = pre.length + n + suf.length := by
  unfold padded
  rw [List.length_append, List.length_append, List.length_replicate]

theorem take_padded (pre suf : CppString) (n k : Nat) (hk : k ≤ pre.length) :
    (padded pre n suf).take k = pre.take k := by
  unfold padded
  rw [List.append_assoc, List.take_append_of_le_length hk]

/-- A token whose first character is neither in `pre` nor an `x` is found in
`padded pre n suf` where it is found in `suf`. -/
theorem find_padded (pre suf : CppString) (n : Nat) (c : Char) (t : CppString)
    (hc : c ∉ pre) (hx : c ≠ 'x') :
    find (padded pre n suf) (c :: t) = (find suf (c :: t)).map (· + (pre.length + n)) := by
  have hmem : c ∉ pre ++ List.replicate n 'x' := by
    intro h
    rcases List.mem_append.1 h with h | h
    · exact hc h
    · exact hx (List.eq_of_mem_replicate h)
  unfold padded
  rw [find_append_of_head_not_mem _ _ _ _ hmem, List.length_append, List.length_replicate]

theorem find_append_left {a : CppString} (b : CppString) {t : CppString} {k : Nat}
    (h : find a t = some k) : find (a ++ b) t = some k := by
  induction a generalizing k with
  | nil =>
    rw [find_nil] at h
    by_cases ht : t = []
    · subst ht
      simp only [if_true, Option.some.injEq] at h
      subst h
      rw [(find_eq_some_iff _ _ _)]
      exact ⟨ List.nil_prefix, fun j hj => absurd hj (Nat.not_lt_zero j)⟩
    · simp [ht] at h
  | cons c a ih =>
    rw [find_cons] at h
    rw [List.cons_append, find_cons]
    by_cases hp : t <+: c :: a
    · rw [if_pos hp] at h
      rw [if_pos (show t <+: c :: (a ++ b) from hp.trans (List.prefix_append (c :: a) b))]
      exact h
    · rw [if_neg hp] at h
      obtain ⟨k', hk', rfl⟩ := Option.map_eq_some'.1 h
      have hlen : t.length ≤ (c :: a).length := by
        have h1 := ((find_eq_some_iff a t k').1 hk').1.length_le
        rw [List.length_drop] at h1
        simp only [List.length_cons]
        omega
      have hnp : ¬ t <+: c :: (a ++ b) := by
        intro hp'
        apply hp
        have : t <+: (c :: a) ++ b := hp'
        exact List.prefix_of_prefix_length_le this (List.prefix_append (c :: a) b) hlen
      rw [if_neg hnp, ih hk']
      rfl

theorem isLeftmostToken_of_finds {buffer t : CppString} {i : Nat} (ht : t ∈ unitTokens)
    (hf : find buffer t = some i)
    (hmin : ∀ u ∈ unitTokens, ∀ k, find buffer u = some k → i ≤ k) :
    IsLeftmostToken buffer t i := by
  refine ⟨ht, ((find_eq_some_iff buffer t i).1 hf).1, ?_⟩
  intro u hu j hj
  obtain ⟨k, hk, hkj⟩ := find_le_of_occursAt hj
  exact le_trans (hmin u hu k hk) hkj

theorem forall_unitTokens {P : CppString → Prop} (h1 : P "cm-".toList) (h2 : P "ft-".toList)
    (h3 : P "in-".toList) (h4 : P "m-".toList) (h5 : P "mm-".toList) :
    ∀ u ∈ unitTokens, P u := by
  intro u hu
  have hcases : u = "cm-".toList ∨ u = "ft-".toList ∨ u = "in-".toList ∨ u = "m-".toList ∨
      u = "mm-".toList := by
    simpa [unitTokens, unitIdentifierToMetricMeterConversionFactor] using hu
  rcases hcases with rfl | rfl | rfl | rfl | rfl <;> assumption

theorem stod_of_inf (rest : CppString) :
    stod ('i' :: 'n' :: 'f' :: rest) = .ok (Double.infinite false) := by
  have hm : startsMantissa ('i' :: 'n' :: 'f' :: rest) = false := by
    simp [startsMantissa]
  have hbody : parseSign (List.dropWhile isspace ('i' :: 'n' :: 'f' :: rest)) =
      (false, 'i' :: 'n' :: 'f' :: rest) := by
    simp [List.dropWhile_cons, isspace, parseSign]
  have hinf : startsWithNoCase "inf" ('i' :: 'n' :: 'f' :: rest) = true := by
    simp [startsWithNoCase, toLowerCase, List.isPrefixOf]
  simp only [stod, hbody, parseHex_eq_none hm, parseDecimal_eq_none hm, hinf]
  rfl

/-- One iteration of the loop, from the value of `currentIndex`. -/
theorem unitSearchStep_of_currentIndex {buffer t : CppString} {c : Int} (f : Double)
    (st : UnitSearch) (h : currentIndex buffer t = c) :
    unitSearchStep buffer st (t, f) =
      if c = -1 then st
      else if c < st.minimumUnitIdentifierStartingIndex then
        { minimumUnitIdentifierStartingIndex := c, minimumUnitIDType := t }
      else st := by
  rw [unitSearchStep_eq]
  simp only [h]

/-- The loop over a table of five entries, from the five values of `currentIndex`. -/
theorem unitSearchIn_of_currentIndex {buffer t1 t2 t3 t4 t5 : CppString}
    {u v w x y : Double} {c1 c2 c3 c4 c5 z : Int}
    (h1 : currentIndex buffer t1 = c1) (h2 : currentIndex buffer t2 = c2)
    (h3 : currentIndex buffer t3 = c3) (h4 : currentIndex buffer t4 = c4)
    (h5 : currentIndex buffer t5 = c5) (hsize : toInt buffer.length = z) :
    unitSearchIn [(t1, u), (t2, v), (t3, w), (t4, x), (t5, y)] buffer =
      [(t1, c1), (t2, c2), (t3, c3), (t4, c4), (t5, c5)].foldl
        (fun st e =>
          if e.2 = -1 then st
          else if e.2 < st.minimumUnitIdentifierStartingIndex then
            { minimumUnitIdentifierStartingIndex := e.2, minimumUnitIDType := e.1 }
          else st)
        { minimumUnitIdentifierStartingIndex := z, minimumUnitIDType := [] } := by
  subst h1 h2 h3 h4 h5 hsize
  simp only [unitSearchIn, List.foldl_cons, List.foldl_nil, unitSearchStep_eq]

theorem currentIndex_of_find {buffer t : CppString} {r : Option Nat} {c : Int}
    (h : find buffer t = r) (hc : toInt (r.getD npos) = c) : currentIndex buffer t = c := by
  unfold currentIndex
  rw [h, hc]

/-! ### `5m-` and `-5m-` followed by letters, `2^31` characters in all -/

theorem payloadOfIntMinLength_length : payloadOfIntMinLength.length = 2 ^ 31 := by
  unfold payloadOfIntMinLength
  rw [padded_length]
  have h : "5m-".toList.length = 3 := rfl
  rw [h]
  norm_num

theorem payloadOfIntMinLength_lower :
    toLowerCase payloadOfIntMinLength = payloadOfIntMinLength :=
  toLowerCase_padded "5m-".toList [] (2 ^ 31 - 3) (by decide) (by decide)

theorem payloadOfIntMinLength_leftmost :
    IsLeftmostToken (toLowerCase payloadOfIntMinLength) "m-".toList 1 := by
  rw [payloadOfIntMinLength_lower]
  have hchars : ∀ c ∈ "5".toList, NumeralChar c := by
    unfold NumeralChar
    decide
  have h := @isLeftmostToken_after_numeral "5".toList "m-".toList
    (List.replicate (2 ^ 31 - 3) 'x' ++ []) hchars (by decide)
  have he : "5".toList ++ "m-".toList ++ (List.replicate (2 ^ 31 - 3) 'x' ++ []) =
      payloadOfIntMinLength := by
    unfold payloadOfIntMinLength padded
    rw [← List.append_assoc]
    rfl
  rw [he] at h
  exact h

theorem payloadOfIntMinLength_rejected :
    extractQRCodeDimensionFromString payloadOfIntMinLength = .ok none :=
  extract_of_intMin (by rw [payloadOfIntMinLength_length]; decide)

theorem negativePayloadOfIntMinLength_length :
    negativePayloadOfIntMinLength.length = 2 ^ 31 := by
  unfold negativePayloadOfIntMinLength
  rw [padded_length]
  have h : "-5m-".toList.length = 4 := rfl
  rw [h]
  norm_num

theorem negativePayloadOfIntMinLength_lower :
    toLowerCase negativePayloadOfIntMinLength = negativePayloadOfIntMinLength :=
  toLowerCase_padded "-5m-".toList [] (2 ^ 31 - 4) (by decide) (by decide)

theorem negativePayloadOfIntMinLength_leftmost :
    IsLeftmostToken (toLowerCase negativePayloadOfIntMinLength) "m-".toList 2 := by
  rw [negativePayloadOfIntMinLength_lower]
  have hchars : ∀ c ∈ "-5".toList, NumeralChar c := by
    unfold NumeralChar
    decide
  have h := @isLeftmostToken_after_numeral "-5".toList "m-".toList
    (List.replicate (2 ^ 31 - 4) 'x' ++ []) hchars (by decide)
  have he : "-5".toList ++ "m-".toList ++ (List.replicate (2 ^ 31 - 4) 'x' ++ []) =
      negativePayloadOfIntMinLength := by
    unfold negativePayloadOfIntMinLength padded
    rw [← List.append_assoc]
    rfl
  rw [he] at h
  exact h

theorem negativePayloadOfIntMinLength_rejected :
    extractQRCodeDimensionFromString negativePayloadOfIntMinLength = .ok none :=
  extract_of_intMin (by rw [negativePayloadOfIntMinLength_length]; decide)

theorem extractWithTable_of_unitSearchIn {table : List (CppString × Double)}
    {p t : CppString} {idx : Int} {f : Double}
    (hs : unitSearchIn table (toLowerCase p) =
      { minimumUnitIdentifierStartingIndex := idx, minimumUnitIDType := t })
    (ht : t ≠ []) (hf : mapAt table t = .ok f) :
    extractWithTable table p =
      match stod ((toLowerCase p).take (toSizeT idx)) with
      | .error _ => .ok none
      | .ok v =>
        if p.length < (toSizeT idx + t.length) % 2 ^ 64 then .error StdException.out_of_range
        else .ok (some (v * f, p.drop ((toSizeT idx + t.length) % 2 ^ 64))) := by
  have hne : t.length ≠ 0 := fun h => ht (List.length_eq_zero.1 h)
  unfold extractWithTable
  simp only [hs, hne, if_false, substr, Nat.not_lt_zero, List.drop_zero, hf, pure, Except.pure]
  cases stod (List.take (toSizeT idx) (toLowerCase p)) with
  | error e => rfl
  | ok v =>
    by_cases hlt : p.length < (toSizeT idx + t.length) % 2 ^ 64
    · simp only [hlt, if_true]
      rfl
    · simp only [hlt, if_false]

/-! ### `5xx`, `2^32` letters, `m-`: an index that wraps to 3 -/

theorem payloadWithWrappedIndex_length : payloadWithWrappedIndex.length = 2 ^ 32 + 5 := by
  unfold payloadWithWrappedIndex
  rw [padded_length]
  have h1 : "5xx".toList.length = 3 := rfl
  have h2 : "m-".toList.length = 2 := rfl
  rw [h1, h2]
  norm_num

theorem payloadWithWrappedIndex_lower :
    toLowerCase payloadWithWrappedIndex = payloadWithWrappedIndex :=
  toLowerCase_padded "5xx".toList "m-".toList (2 ^ 32) (by decide) (by decide)

theorem payloadWithWrappedIndex_finds :
    find payloadWithWrappedIndex "cm-".toList = none ∧
    find payloadWithWrappedIndex "ft-".toList = none ∧
    find payloadWithWrappedIndex "in-".toList = none ∧
    find payloadWithWrappedIndex "m-".toList = some (2 ^ 32 + 3) ∧
    find payloadWithWrappedIndex "mm-".toList = none :=
  ⟨find_padded "5xx".toList "m-".toList (2 ^ 32) 'c' ['m', '-'] (by decide) (by decide),
   find_padded "5xx".toList "m-".toList (2 ^ 32) 'f' ['t', '-'] (by decide) (by decide),
   find_padded "5xx".toList "m-".toList (2 ^ 32) 'i' ['n', '-'] (by decide) (by decide),
   (find_padded "5xx".toList "m-".toList (2 ^ 32) 'm' ['-'] (by decide) (by decide)).trans
     (by decide),
   find_padded "5xx".toList "m-".toList (2 ^ 32) 'm' ['m', '-'] (by decide) (by decide)⟩

theorem payloadWithWrappedIndex_leftmost :
    IsLeftmostToken (toLowerCase payloadWithWrappedIndex) "m-".toList (2 ^ 32 + 3) := by
  rw [payloadWithWrappedIndex_lower]
  obtain ⟨h1, h2, h3, h4, h5⟩ := payloadWithWrappedIndex_finds
  refine isLeftmostToken_of_finds (by decide) h4 (forall_unitTokens ?_ ?_ ?_ ?_ ?_)
  · intro k hk; rw [h1] at hk; exact absurd hk (by simp)
  · intro k hk; rw [h2] at hk; exact absurd hk (by simp)
  · intro k hk; rw [h3] at hk; exact absurd hk (by simp)
  · intro k hk; rw [h4] at hk; exact le_of_eq (Option.some.inj hk)
  · intro k hk; rw [h5] at hk; exact absurd hk (by simp)

theorem payloadWithWrappedIndex_search :
    unitSearch (toLowerCase payloadWithWrappedIndex) =
      { minimumUnitIdentifierStartingIndex := 3, minimumUnitIDType := "m-".toList } := by
  rw [payloadWithWrappedIndex_lower]
  obtain ⟨h1, h2, h3, h4, h5⟩ := payloadWithWrappedIndex_finds
  have h := unitSearchIn_of_currentIndex (u := roundBinary64 (1 / 100))
    (v := roundBinary64 (3048 / 10000)) (w := roundBinary64 (254 / 10000))
    (x := roundBinary64 1) (y := roundBinary64 (1 / 1000))
    (currentIndex_of_find h1 (c := -1) (by decide))
    (currentIndex_of_find h2 (c := -1) (by decide))
    (currentIndex_of_find h3 (c := -1) (by decide))
    (currentIndex_of_find h4 (c := 3) (by decide))
    (currentIndex_of_find h5 (c := -1) (by decide))
    (z := 5) (by rw [payloadWithWrappedIndex_length]; decide)
  exact h.trans (by decide)

theorem payloadWithWrappedIndex_result :
    extractQRCodeDimensionFromString payloadWithWrappedIndex =
      .ok (some (Double.finite 5, payloadWithWrappedIndex.drop 5)) := by
  have hmap : mapAt unitIdentifierToMetricMeterConversionFactor "m-".toList =
      .ok (roundBinary64 1) := rfl
  rw [extract_of_unitSearch payloadWithWrappedIndex_search (by decide) hmap,
    payloadWithWrappedIndex_lower]
  have htake : List.take (toSizeT 3) payloadWithWrappedIndex = "5xx".toList :=
    take_padded "5xx".toList "m-".toList (2 ^ 32) 3 (by decide)
  have hstod : stod "5xx".toList = .ok (Double.finite 5) := by decide!
  have hpos : (toSizeT 3 + "m-".toList.length) % 2 ^ 64 = 5 := by decide
  have hmul : Double.finite 5 * roundBinary64 1 = Double.finite 5 := by decide!
  rw [htake, hstod, hpos, payloadWithWrappedIndex_length]
  simp only [hmul]
  rfl

/-! ### `inft-`, `2^31 - 5` letters, `m-`: a negative index -/

theorem payloadWithLateMeter_length : payloadWithLateMeter.length = 2 ^ 31 + 2 := by
  unfold payloadWithLateMeter
  rw [padded_length]
  have h1 : "inft-".toList.length = 5 := rfl
  have h2 : "m-".toList.length = 2 := rfl
  rw [h1, h2]
  norm_num

theorem payloadWithLateMeter_lower :
    toLowerCase payloadWithLateMeter = payloadWithLateMeter :=
  toLowerCase_padded "inft-".toList "m-".toList (2 ^ 31 - 5) (by decide) (by decide)

theorem payloadWithLateMeter_finds :
    find payloadWithLateMeter "cm-".toList = none ∧
    find payloadWithLateMeter "ft-".toList = some 2 ∧
    find payloadWithLateMeter "in-".toList = none ∧
    find payloadWithLateMeter "m-".toList = some (2 ^ 31) ∧
    find payloadWithLateMeter "mm-".toList = none := by
  refine ⟨find_padded "inft-".toList "m-".toList (2 ^ 31 - 5) 'c' ['m', '-'] (by decide)
      (by decide), ?_, ?_,
    (find_padded "inft-".toList "m-".toList (2 ^ 31 - 5) 'm' ['-'] (by decide)
      (by decide)).trans (by decide),
    find_padded "inft-".toList "m-".toList (2 ^ 31 - 5) 'm' ['m', '-'] (by decide)
      (by decide)⟩
  · have h : find "inft-".toList "ft-".toList = some 2 := by decide
    exact find_append_left _ (find_append_left _ h)
  · have hne : ¬ "in-".toList <+: 'i' :: padded "nft-".toList (2 ^ 31 - 5) "m-".toList := by
      intro hp
      have h1 : ['n', '-'] <+: 'n' :: padded "ft-".toList (2 ^ 31 - 5) "m-".toList :=
        (List.cons_prefix_cons.1 hp).2
      have h2 : ['-'] <+: 'f' :: padded "t-".toList (2 ^ 31 - 5) "m-".toList :=
        (List.cons_prefix_cons.1 h1).2
      exact absurd (List.cons_prefix_cons.1 h2).1 (by decide)
    have hrest : find (padded "nft-".toList (2 ^ 31 - 5) "m-".toList) "in-".toList = none :=
      find_padded "nft-".toList "m-".toList (2 ^ 31 - 5) 'i' ['n', '-'] (by decide) (by decide)
    have hcons : payloadWithLateMeter = 'i' :: padded "nft-".toList (2 ^ 31 - 5) "m-".toList :=
      rfl
    rw [hcons, find_cons, if_neg hne, hrest]
    rfl

theorem payloadWithLateMeter_leftmost :
    IsLeftmostToken (toLowerCase payloadWithLateMeter) "ft-".toList 2 := by
  rw [payloadWithLateMeter_lower]
  obtain ⟨h1, h2, h3, h4, h5⟩ := payloadWithLateMeter_finds
  refine isLeftmostToken_of_finds (by decide) h2 (forall_unitTokens ?_ ?_ ?_ ?_ ?_)
  · intro k hk; rw [h1] at hk; exact absurd hk (by simp)
  · intro k hk; rw [h2] at hk; exact le_of_eq (Option.some.inj hk)
  · intro k hk; rw [h3] at hk; exact absurd hk (by simp)
  · intro k hk; rw [h4] at hk; rw [← Option.some.inj hk]; norm_num
  · intro k hk; rw [h5] at hk; exact absurd hk (by simp)

theorem payloadWithLateMeter_search :
    unitSearch (toLowerCase payloadWithLateMeter) =
      { minimumUnitIdentifierStartingIndex := -2 ^ 31, minimumUnitIDType := "m-".toList } := by
  rw [payloadWithLateMeter_lower]
  obtain ⟨h1, h2, h3, h4, h5⟩ := payloadWithLateMeter_finds
  have h := unitSearchIn_of_currentIndex (u := roundBinary64 (1 / 100))
    (v := roundBinary64 (3048 / 10000)) (w := roundBinary64 (254 / 10000))
    (x := roundBinary64 1) (y := roundBinary64 (1 / 1000))
    (currentIndex_of_find h1 (c := -1) (by decide))
    (currentIndex_of_find h2 (c := 2) (by decide))
    (currentIndex_of_find h3 (c := -1) (by decide))
    (currentIndex_of_find h4 (c := -2 ^ 31) (by decide))
    (currentIndex_of_find h5 (c := -1) (by decide))
    (z := -2 ^ 31 + 2) (by rw [payloadWithLateMeter_length]; decide)
  exact h.trans (by decide)

theorem payloadWithLateMeter_throws :
    extractQRCodeDimensionFromString payloadWithLateMeter =
      .error StdException.out_of_range := by
  have hmap : mapAt unitIdentifierToMetricMeterConversionFactor "m-".toList =
      .ok (roundBinary64 1) := rfl
  rw [extract_of_unitSearch payloadWithLateMeter_search (by decide) hmap,
    payloadWithLateMeter_lower]
  have htake : List.take (toSizeT (-2 ^ 31)) payloadWithLateMeter = payloadWithLateMeter := by
    apply List.take_of_length_le
    rw [payloadWithLateMeter_length]
    decide
  have hstod : stod payloadWithLateMeter = .ok (Double.infinite false) :=
    stod_of_inf _
  have hpos : (toSizeT (-2 ^ 31) + "m-".toList.length) % 2 ^ 64 = 2 ^ 64 - 2 ^ 31 + 2 := by
    decide
  rw [htake, hstod, hpos, payloadWithLateMeter_length]
  rfl

/-! ### `1ft-`, `2^32 - 3` letters, `m-`: two tokens with one index -/

theorem payloadWithCollidingTokens_length :
    payloadWithCollidingTokens.length = 2 ^ 32 + 3 := by
  unfold payloadWithCollidingTokens
  rw [padded_length]
  have h1 : "1ft-".toList.length = 4 := rfl
  have h2 : "m-".toList.length = 2 := rfl
  rw [h1, h2]
  norm_num

theorem payloadWithCollidingTokens_lower :
    toLowerCase payloadWithCollidingTokens = payloadWithCollidingTokens :=
  toLowerCase_padded "1ft-".toList "m-".toList (2 ^ 32 - 3) (by decide) (by decide)

theorem payloadWithCollidingTokens_finds :
    find payloadWithCollidingTokens "cm-".toList = none ∧
    find payloadWithCollidingTokens "ft-".toList = some 1 ∧
    find payloadWithCollidingTokens "in-".toList = none ∧
    find payloadWithCollidingTokens "m-".toList = some (2 ^ 32 + 1) ∧
    find payloadWithCollidingTokens "mm-".toList = none := by
  refine ⟨find_padded "1ft-".toList "m-".toList (2 ^ 32 - 3) 'c' ['m', '-'] (by decide)
      (by decide), ?_,
    find_padded "1ft-".toList "m-".toList (2 ^ 32 - 3) 'i' ['n', '-'] (by decide) (by decide),
    (find_padded "1ft-".toList "m-".toList (2 ^ 32 - 3) 'm' ['-'] (by decide)
      (by decide)).trans (by decide),
    find_padded "1ft-".toList "m-".toList (2 ^ 32 - 3) 'm' ['m', '-'] (by decide)
      (by decide)⟩
  have h : find "1ft-".toList "ft-".toList = some 1 := by decide
  exact find_append_left _ (find_append_left _ h)

theorem payloadWithCollidingTokens_search :
    unitSearch (toLowerCase payloadWithCollidingTokens) =
        { minimumUnitIdentifierStartingIndex := 1, minimumUnitIDType := "ft-".toList } ∧
    unitSearchIn unitTableAsDeclared (toLowerCase payloadWithCollidingTokens) =
        { minimumUnitIdentifierStartingIndex := 1, minimumUnitIDType := "m-".toList } := by
  rw [payloadWithCollidingTokens_lower]
  obtain ⟨h1, h2, h3, h4, h5⟩ := payloadWithCollidingTokens_finds
  have c1 := currentIndex_of_find h1 (c := -1) (by decide)
  have c2 := currentIndex_of_find h2 (c := 1) (by decide)
  have c3 := currentIndex_of_find h3 (c := -1) (by decide)
  have c4 := currentIndex_of_find h4 (c := 1) (by decide)
  have c5 := currentIndex_of_find h5 (c := -1) (by decide)
  have hsize : toInt payloadWithCollidingTokens.length = 3 := by
    rw [payloadWithCollidingTokens_length]
    decide
  constructor
  · exact (unitSearchIn_of_currentIndex (u := roundBinary64 (1 / 100))
      (v := roundBinary64 (3048 / 10000)) (w := roundBinary64 (254 / 10000))
      (x := roundBinary64 1) (y := roundBinary64 (1 / 1000)) c1 c2 c3 c4 c5 hsize).trans
      (by decide)
  · exact (unitSearchIn_of_currentIndex (u := roundBinary64 1)
      (v := roundBinary64 (1 / 100)) (w := roundBinary64 (1 / 1000))
      (x := roundBinary64 (3048 / 10000)) (y := roundBinary64 (254 / 10000))
      c4 c1 c5 c2 c3 hsize).trans (by decide)

theorem payloadWithCollidingTokens_results :
    extractQRCodeDimensionFromString payloadWithCollidingTokens =
        .ok (some (roundBinary64 (3048 / 10000), payloadWithCollidingTokens.drop 4)) ∧
    extractWithTable unitTableAsDeclared payloadWithCollidingTokens =
        .ok (some (Double.finite 1, payloadWithCollidingTokens.drop 3)) := by
  have htake : List.take (toSizeT 1) payloadWithCollidingTokens = "1".toList :=
    take_padded "1ft-".toList "m-".toList (2 ^ 32 - 3) 1 (by decide)
  have hstod : stod "1".toList = .ok (Double.finite 1) := by decide!
  constructor
  · have hmap : mapAt unitIdentifierToMetricMeterConversionFactor "ft-".toList =
        .ok (roundBinary64 (3048 / 10000)) := rfl
    rw [extract_of_unitSearch payloadWithCollidingTokens_search.1 (by decide) hmap,
      payloadWithCollidingTokens_lower]
    have hpos : (toSizeT 1 + "ft-".toList.length) % 2 ^ 64 = 4 := by decide
    have hmul : Double.finite 1 * roundBinary64 (3048 / 10000) = roundBinary64 (3048 / 10000) := by
      decide!
    rw [htake, hstod, hpos, payloadWithCollidingTokens_length]
    simp only [hmul]
    rfl
  · have hmap : mapAt unitTableAsDeclared "m-".toList = .ok (roundBinary64 1) := rfl
    rw [extractWithTable_of_unitSearchIn payloadWithCollidingTokens_search.2 (by decide) hmap,
      payloadWithCollidingTokens_lower]
    have hpos : (toSizeT 1 + "m-".toList.length) % 2 ^ 64 = 3 := by decide
    have hmul : Double.finite 1 * roundBinary64 1 = Double.finite 1 := by decide!
    rw [htake, hstod, hpos, payloadWithCollidingTokens_length]
    simp only [hmul]
    rfl

/-! ## The claims about the dimension parser -/

/-- C2, as stated, fails: the payload `5m-` followed by `2^31 - 3` letters `x` has `2^31`
characters; its lower-cased form contains the token `m-`, leftmost at index 1, and the
text before it reads 5; yet the loop selects no token and the call returns false,
because the `int` that receives the size of the buffer is `-2^31`, below every index. -/
theorem long_payload_selects_no_token :
    payloadOfIntMinLength.length = 2 ^ 31 ∧
    (∃ t ∈ unitTokens, t <:+: toLowerCase payloadOfIntMinLength) ∧
    IsLeftmostToken (toLowerCase payloadOfIntMinLength) "m-".toList 1 ∧
    stod ((toLowerCase payloadOfIntMinLength).take 1) = .ok (Double.finite 5) ∧
    unitSearch (toLowerCase payloadOfIntMinLength) =
      { minimumUnitIdentifierStartingIndex := -2 ^ 31, minimumUnitIDType := [] } ∧
    extractQRCodeDimensionFromString payloadOfIntMinLength = .ok none := by
  refine ⟨payloadOfIntMinLength_length,
    ⟨"m-".toList, by decide, OccursAt.isInfix payloadOfIntMinLength_leftmost.2.1⟩,
    payloadOfIntMinLength_leftmost, ?_, ?_, payloadOfIntMinLength_rejected⟩
  · have htake : List.take 1 (toLowerCase payloadOfIntMinLength) = "5".toList := by
      rw [payloadOfIntMinLength_lower]
      exact take_padded "5m-".toList [] (2 ^ 31 - 3) 1 (by decide)
    rw [htake]
    decide!
  · apply unitSearch_of_intMin
    rw [toLowerCase_length, payloadOfIntMinLength_length]
    decide

/-- C2, amended: when a payload shorter than `2^31` characters contains, in its
lower-cased form, a recognised unit token, the loop selects a token standing at the
smallest index at which any token stands, and that token alone decides the result: the
numeric portion is the text before it, the factor is the one the table gives it, and
the identifier is what follows it in the original payload. -/
theorem leftmost_token_decides (p : CppString) (hlen : p.length < 2 ^ 31)
    (h : ∃ t ∈ unitTokens, t <:+: toLowerCase p) :
    ∃ t i f, IsLeftmostToken (toLowerCase p) t i ∧
      (t, f) ∈ unitIdentifierToMetricMeterConversionFactor ∧
      unitSearch (toLowerCase p) =
        { minimumUnitIdentifierStartingIndex := (i : Int), minimumUnitIDType := t } ∧
      extractQRCodeDimensionFromString p =
        match stod ((toLowerCase p).take i) with
        | .ok v => .ok (some (v * f, p.drop (i + t.length)))
        | .error _ => .ok none := by
  rcases extract_cases p with hno | ⟨t, i, f, hl, hf⟩
  · obtain ⟨t, ht, hinf⟩ := h
    exact absurd hinf (hno t ht)
  · exact ⟨t, i, f, hl, hf,
      unitSearch_of_leftmost hl (by rw [toLowerCase_length]; exact hlen),
      extract_of_leftmost hl hf hlen⟩

/-- In `1in-2cm-x` the token `in-` (index 1) wins over `cm-` (index 5). -/
theorem leftmost_token_decides_witness :
    "1in-2cm-x".toList.length < 2 ^ 31 ∧
    (∃ t ∈ unitTokens, t <:+: toLowerCase "1in-2cm-x".toList) ∧
    ∃ t i f, IsLeftmostToken (toLowerCase "1in-2cm-x".toList) t i ∧
      (t, f) ∈ unitIdentifierToMetricMeterConversionFactor ∧
      unitSearch (toLowerCase "1in-2cm-x".toList) =
        { minimumUnitIdentifierStartingIndex := (i : Int), minimumUnitIDType := t } ∧
      extractQRCodeDimensionFromString "1in-2cm-x".toList =
        match stod ((toLowerCase "1in-2cm-x".toList).take i) with
        | .ok v => .ok (some (v * f, "1in-2cm-x".toList.drop (i + t.length)))
        | .error _ => .ok none :=
  ⟨by decide, ⟨"in-".toList, by decide, by decide⟩,
    leftmost_token_decides "1in-2cm-x".toList (by decide)
      ⟨"in-".toList, by decide, by decide⟩⟩

/-- In `12.3mm-tester` the token `mm-` (index 4) wins over `m-` (index 5), and in
`1in-2cm-x` the token `in-` (index 1) wins over `cm-` (index 5). -/
theorem leftmost_token_examples :
    unitSearch (toLowerCase "12.3mm-tester".toList) =
      { minimumUnitIdentifierStartingIndex := 4, minimumUnitIDType := "mm-".toList } ∧
    find (toLowerCase "12.3mm-tester".toList) "m-".toList = some 5 ∧
    unitSearch (toLowerCase "1in-2cm-x".toList) =
      { minimumUnitIdentifierStartingIndex := 1, minimumUnitIDType := "in-".toList } ∧
    find (toLowerCase "1in-2cm-x".toList) "cm-".toList = some 5 :=
  ⟨by decide, by decide, by decide, by decide⟩

/-- On a payload of `2^31` characters or more, but fewer than `2^32`, the call never
returns true: an index that is selected is negative as an `int`, and the position of
the identifier, computed from it in `size_t`, lies beyond the end. -/
theorem extract_of_negative_size {p : CppString} (h1 : 2 ^ 31 ≤ p.length)
    (h2 : p.length < 2 ^ 32) (d : Double) (id : CppString) :
    extractQRCodeDimensionFromString p ≠ .ok (some (d, id)) := by
  have hsize : toInt (toLowerCase p).length = (p.length : Int) - 2 ^ 32 := by
    rw [toLowerCase_length]
    unfold toInt
    rw [Nat.mod_eq_of_lt h2, if_neg (by omega)]
  obtain ⟨_, _, h3⟩ := foldl_unitSearchStep_spec (toLowerCase p)
    unitIdentifierToMetricMeterConversionFactor
    { minimumUnitIdentifierStartingIndex := toInt (toLowerCase p).length
      minimumUnitIDType := [] }
  rcases h3 with h3 | ⟨hlt, e, he, h3t, h3n, h3f⟩
  · have hs : unitSearch (toLowerCase p) =
        { minimumUnitIdentifierStartingIndex := toInt (toLowerCase p).length
          minimumUnitIDType := [] } := h3
    unfold extractQRCodeDimensionFromString
    simp only [hs, List.length_nil, if_true]
    intro hc
    cases hc
  · obtain ⟨k, hk⟩ := find_of_currentIndex_ne h3n
    have he' : e.1 ∈ unitTokens := List.mem_map_of_mem Prod.fst he
    have hocc := occursAt_add_length_le (unitToken_ne_nil e.1 he')
      ((find_eq_some_iff _ _ _).1 hk).1
    rw [toLowerCase_length] at hocc
    have hpos : 0 < e.1.length := List.length_pos.2 (unitToken_ne_nil e.1 he')
    have hcur : currentIndex (toLowerCase p) e.1 = (k : Int) - 2 ^ 32 := by
      have hk32 : k < 2 ^ 32 := by omega
      have hrange := currentIndex_range (toLowerCase p) e.1
      have hdef : currentIndex (toLowerCase p) e.1 = toInt k := by
        unfold currentIndex
        rw [hk]
        rfl
      have hneg : currentIndex (toLowerCase p) e.1 < 0 := by
        have : currentIndex (toLowerCase p) e.1 < (p.length : Int) - 2 ^ 32 := by
          have hh := hlt
          simp only at hh
          rw [h3f, hsize] at hh
          exact hh
        omega
      rw [hdef] at hneg ⊢
      unfold toInt at hneg ⊢
      rw [Nat.mod_eq_of_lt hk32] at hneg ⊢
      split_ifs at hneg ⊢ <;> omega
    obtain ⟨f, hf⟩ : ∃ f, mapAt unitIdentifierToMetricMeterConversionFactor e.1 = .ok f := by
      obtain ⟨f, hf⟩ := exists_factor_of_mem_unitTokens he'
      exact ⟨f, mapAt_of_mem hf⟩
    have hs : unitSearch (toLowerCase p) =
        { minimumUnitIdentifierStartingIndex := (k : Int) - 2 ^ 32
          minimumUnitIDType := e.1 } := by
      cases hst : unitSearch (toLowerCase p) with
      | mk idx ty =>
        have e1 : idx = currentIndex (toLowerCase p) e.1 := by
          have := h3f
          unfold unitSearch at hst
          rw [hst] at this
          exact this
        have e2 : ty = e.1 := by
          have := h3t
          unfold unitSearch at hst
          rw [hst] at this
          exact this
        rw [e1, e2, hcur]
    rw [extract_of_unitSearch hs (unitToken_ne_nil e.1 he') hf]
    have hbeyond : p.length < (toSizeT ((k : Int) - 2 ^ 32) + e.1.length) % 2 ^ 64 := by
      unfold toSizeT
      omega
    cases stod (List.take (toSizeT ((k : Int) - 2 ^ 32)) (toLowerCase p)) with
    | error err =>
      intro hc
      cases hc
    | ok v =>
      simp only [hbeyond, if_true]
      intro hc
      cases hc

/-- C4, as stated, fails: in the payload `5xx`, `2^32` letters `x`, `m-` the only unit
token, `m-`, is found at index `2^32 + 3`; the `int` that receives the index holds 3, and
the call succeeds with the text from index 5 on as the identifier, `2^32` characters
long, where the suffix after the token, from index `2^32 + 5`, is empty. -/
theorem wrapped_index_gives_other_suffix :
    IsLeftmostToken (toLowerCase payloadWithWrappedIndex) "m-".toList (2 ^ 32 + 3) ∧
    extractQRCodeDimensionFromString payloadWithWrappedIndex =
      .ok (some (Double.finite 5, payloadWithWrappedIndex.drop 5)) ∧
    (payloadWithWrappedIndex.drop 5).length = 2 ^ 32 ∧
    payloadWithWrappedIndex.drop (2 ^ 32 + 3 + "m-".toList.length) = [] ∧
    ¬ ∃ t i, IsLeftmostToken (toLowerCase payloadWithWrappedIndex) t i ∧
      i + t.length ≤ payloadWithWrappedIndex.length ∧
      payloadWithWrappedIndex.drop 5 = payloadWithWrappedIndex.drop (i + t.length) := by
  have hlen5 : (payloadWithWrappedIndex.drop 5).length = 2 ^ 32 := by
    rw [List.length_drop, payloadWithWrappedIndex_length]
    norm_num
  have hnil : payloadWithWrappedIndex.drop (2 ^ 32 + 3 + "m-".toList.length) = [] := by
    apply List.drop_eq_nil_of_le
    rw [payloadWithWrappedIndex_length]
    exact le_of_eq rfl
  refine ⟨payloadWithWrappedIndex_leftmost, payloadWithWrappedIndex_result, hlen5, hnil, ?_⟩
  rintro ⟨t, i, hl, _, heq⟩
  obtain ⟨rfl, rfl⟩ := IsLeftmostToken.unique hl payloadWithWrappedIndex_leftmost
  rw [hnil] at heq
  rw [heq] at hlen5
  exact absurd hlen5 (by norm_num)

/-- C4, amended: when the call succeeds on a payload shorter than `2^32` characters, the
identifier is the suffix of the original payload that starts right after the winning
token, the leftmost one, which lies within the payload; nothing is trimmed. -/
theorem identifier_is_original_suffix (p : CppString) (d : Double) (id : CppString)
    (hlen : p.length < 2 ^ 32)
    (h : extractQRCodeDimensionFromString p = .ok (some (d, id))) :
    ∃ t i, IsLeftmostToken (toLowerCase p) t i ∧ i + t.length ≤ p.length ∧
      id = p.drop (i + t.length) := by
  have hlen31 : p.length < 2 ^ 31 := by
    by_contra hge
    exact extract_of_negative_size (not_lt.1 hge) hlen d id h
  rcases extract_cases p with hno | ⟨t, i, f, hl, hf⟩
  · rw [extract_of_no_token hno] at h
    simp at h
  · refine ⟨t, i, hl, ?_, ?_⟩
    · have := occursAt_add_length_le (unitToken_ne_nil t hl.1) hl.2.1
      rwa [toLowerCase_length] at this
    · rw [extract_of_leftmost hl hf hlen31] at h
      cases hs : stod (List.take i (toLowerCase p)) with
      | error e => rw [hs] at h; simp at h
      | ok v =>
        rw [hs] at h
        simp only [Except.ok.injEq, Option.some.injEq, Prod.mk.injEq] at h
        exact h.2.symm

/-- The payload `12.3IN-Inches` keeps the capital of `Inches`. -/
theorem identifier_is_original_suffix_witness :
    "12.3IN-Inches".toList.length < 2 ^ 32 ∧
    extractQRCodeDimensionFromString "12.3IN-Inches".toList =
        .ok (some (roundBinary64 (123 / 10) * roundBinary64 (254 / 10000), "Inches".toList)) ∧
    ∃ t i, IsLeftmostToken (toLowerCase "12.3IN-Inches".toList) t i ∧
      i + t.length ≤ "12.3IN-Inches".toList.length ∧
      "Inches".toList = "12.3IN-Inches".toList.drop (i + t.length) :=
  ⟨by decide, by decide!, identifier_is_original_suffix "12.3IN-Inches".toList
    (roundBinary64 (123 / 10) * roundBinary64 (254 / 10000)) "Inches".toList (by decide)
    (by decide!)⟩

/-- The payload `5cm-` succeeds with the empty identifier. -/
theorem empty_identifier_example :
    extractQRCodeDimensionFromString "5cm-".toList =
      .ok (some (Double.finite 5 * roundBinary64 (1 / 100), [])) := by decide!

theorem sameUpToCase_length {p q : CppString} (h : SameUpToCase p q = true) :
    p.length = q.length := by
  have := congrArg List.length (toLowerCase_eq_of_sameUpToCase h)
  rwa [toLowerCase_length, toLowerCase_length] at this

/-- C5: two payloads that differ only in the case of ASCII letters have the same outcome:
both are rejected, or both are accepted with the same dimension, or (which takes a
payload of `2^31` characters or more) both end in the same exception; for payloads
shorter than `2^31` characters it is one of the first two. -/
theorem unit_matching_case_insensitive (p q : CppString) (h : SameUpToCase p q = true) :
    ((extractQRCodeDimensionFromString p = .ok none ∧
        extractQRCodeDimensionFromString q = .ok none) ∨
      (∃ d idp idq, extractQRCodeDimensionFromString p = .ok (some (d, idp)) ∧
        extractQRCodeDimensionFromString q = .ok (some (d, idq))) ∨
      (∃ e, extractQRCodeDimensionFromString p = .error e ∧
        extractQRCodeDimensionFromString q = .error e)) ∧
    (p.length < 2 ^ 31 →
      (extractQRCodeDimensionFromString p = .ok none ∧
        extractQRCodeDimensionFromString q = .ok none) ∨
      ∃ d idp idq, extractQRCodeDimensionFromString p = .ok (some (d, idp)) ∧
        extractQRCodeDimensionFromString q = .ok (some (d, idq))) := by
  have hlow := toLowerCase_eq_of_sameUpToCase h
  have hlength := sameUpToCase_length h
  have hall : (extractQRCodeDimensionFromString p = .ok none ∧
        extractQRCodeDimensionFromString q = .ok none) ∨
      (∃ d idp idq, extractQRCodeDimensionFromString p = .ok (some (d, idp)) ∧
        extractQRCodeDimensionFromString q = .ok (some (d, idq))) ∨
      (∃ e, extractQRCodeDimensionFromString p = .error e ∧
        extractQRCodeDimensionFromString q = .error e) := by
    rcases unitSearch_type (toLowerCase p) with hty | hty
    · left
      constructor
      · unfold extractQRCodeDimensionFromString
        simp only [hty, List.length_nil, if_true]
        rfl
      · unfold extractQRCodeDimensionFromString
        simp only [← hlow, hty, List.length_nil, if_true]
        rfl
    · obtain ⟨f, hf⟩ := exists_factor_of_mem_unitTokens hty
      have hs : unitSearch (toLowerCase p) =
          { minimumUnitIdentifierStartingIndex :=
              (unitSearch (toLowerCase p)).minimumUnitIdentifierStartingIndex
            minimumUnitIDType := (unitSearch (toLowerCase p)).minimumUnitIDType } := rfl
      have hp := extract_of_unitSearch (p := p) hs (unitToken_ne_nil _ hty) (mapAt_of_mem hf)
      have hsq : unitSearch (toLowerCase q) =
          { minimumUnitIdentifierStartingIndex :=
              (unitSearch (toLowerCase p)).minimumUnitIdentifierStartingIndex
            minimumUnitIDType := (unitSearch (toLowerCase p)).minimumUnitIDType } := by
        rw [← hlow]
      have hq := extract_of_unitSearch (p := q) hsq (unitToken_ne_nil _ hty) (mapAt_of_mem hf)
      rw [← hlow, ← hlength] at hq
      cases hst : stod (List.take
          (toSizeT (unitSearch (toLowerCase p)).minimumUnitIdentifierStartingIndex)
          (toLowerCase p)) with
      | error e =>
        left
        rw [hst] at hp hq
        exact ⟨hp, hq⟩
      | ok v =>
        rw [hst] at hp hq
        by_cases hlt : p.length <
            (toSizeT (unitSearch (toLowerCase p)).minimumUnitIdentifierStartingIndex +
              (unitSearch (toLowerCase p)).minimumUnitIDType.length) % 2 ^ 64
        · right; right
          simp only [hlt, if_true] at hp hq
          exact ⟨_, hp, hq⟩
        · right; left
          simp only [hlt, if_false] at hp hq
          exact ⟨_, _, _, hp, hq⟩
  refine ⟨hall, ?_⟩
  intro hlen
  obtain ⟨r, hr⟩ := extract_never_throws p hlen
  rcases hall with h1 | h2 | ⟨e, he, _⟩
  · exact Or.inl h1
  · exact Or.inr h2
  · rw [hr] at he
    cases he

/-- The payloads `12.3IN-x` and `12.3in-x` both give the double for 0.31242 m. -/
theorem unit_matching_case_insensitive_witness :
    SameUpToCase "12.3IN-x".toList "12.3in-x".toList = true ∧
    "12.3IN-x".toList.length < 2 ^ 31 ∧
    extractQRCodeDimensionFromString "12.3IN-x".toList =
      .ok (some (roundBinary64 (123 / 10) * roundBinary64 (254 / 10000), "x".toList)) ∧
    ((extractQRCodeDimensionFromString "12.3IN-x".toList = .ok none ∧
      extractQRCodeDimensionFromString "12.3in-x".toList = .ok none) ∨
    ∃ d idp idq, extractQRCodeDimensionFromString "12.3IN-x".toList = .ok (some (d, idp)) ∧
      extractQRCodeDimensionFromString "12.3in-x".toList = .ok (some (d, idq))) :=
  ⟨by decide, by decide, by decide!,
    (unit_matching_case_insensitive "12.3IN-x".toList "12.3in-x".toList (by decide)).2
      (by decide)⟩

/-- The payloads `12.3IN-x`, `12.3In-x` and `12.3in-x` give one and the same double,
within `10^-15` of 0.31242. -/
theorem case_variants_example :
    extractQRCodeDimensionFromString "12.3In-x".toList =
      extractQRCodeDimensionFromString "12.3in-x".toList ∧
    extractQRCodeDimensionFromString "12.3IN-x".toList =
      extractQRCodeDimensionFromString "12.3in-x".toList ∧
    (roundBinary64 (123 / 10) * roundBinary64 (254 / 10000)).isWithin (31242 / 100000)
      (1 / 10 ^ 15) = true :=
  ⟨by decide!, by decide!, by decide!⟩

/-- C6: a payload whose lower-cased form contains none of the five tokens is rejected. -/
theorem no_token_notFound (p : CppString)
    (h : ∀ t ∈ ["m-".toList, "cm-".toList, "mm-".toList, "ft-".toList, "in-".toList],
      ¬ t <:+: toLowerCase p) :
    extractQRCodeDimensionFromString p = .ok none := by
  apply extract_of_no_token
  intro t ht
  apply h t
  revert t
  decide

/-- The empty payload and `12.3 metres` contain no token. -/
theorem no_token_notFound_witness :
    (∀ t ∈ ["m-".toList, "cm-".toList, "mm-".toList, "ft-".toList, "in-".toList],
      ¬ t <:+: toLowerCase "".toList) ∧
    extractQRCodeDimensionFromString "".toList = .ok none :=
  ⟨by decide, no_token_notFound "".toList (by decide)⟩

/-- C7: when the leftmost unit token starts at index 0 the payload is rejected, whatever
its length, and no exception leaves the function: the text handed to `std::stod` is a
prefix of a buffer that starts with a unit token, and no such text has a number at its
start (for a payload shorter than `2^31` characters it is the empty text). -/
theorem token_at_index_zero_notFound (p t : CppString)
    (h : IsLeftmostToken (toLowerCase p) t 0) :
    extractQRCodeDimensionFromString p = .ok none := by
  have hpre : t <+: toLowerCase p := by
    have := h.2.1
    unfold OccursAt at this
    rwa [List.drop_zero] at this
  rcases unitSearch_type (toLowerCase p) with hty | hty
  · unfold extractQRCodeDimensionFromString
    simp only [hty, List.length_nil, if_true]
    rfl
  · obtain ⟨f, hf⟩ := exists_factor_of_mem_unitTokens hty
    have hs : unitSearch (toLowerCase p) =
        { minimumUnitIdentifierStartingIndex :=
            (unitSearch (toLowerCase p)).minimumUnitIdentifierStartingIndex
          minimumUnitIDType := (unitSearch (toLowerCase p)).minimumUnitIDType } := rfl
    rw [extract_of_unitSearch hs (unitToken_ne_nil _ hty) (mapAt_of_mem hf),
      stod_of_not_startsNumber (startsNumber_take_of_token_start h.1 hpre _)]

/-- The payload `in-foo` is rejected. -/
theorem token_at_index_zero_notFound_witness :
    IsLeftmostToken (toLowerCase "in-foo".toList) "in-".toList 0 ∧
    extractQRCodeDimensionFromString "in-foo".toList = .ok none :=
  ⟨isLeftmostToken_of_unitSearch (i := 0) (by decide) (by decide) (by decide),
    token_at_index_zero_notFound "in-foo".toList "in-".toList
      (isLeftmostToken_of_unitSearch (i := 0) (by decide) (by decide) (by decide))⟩

/-- The payload `m-` is rejected. -/
theorem bare_token_example :
    extractQRCodeDimensionFromString "m-".toList = .ok none := by decide

/-- C8, as stated, fails: the payload `-5m-` followed by `2^31 - 4` letters `x` has
`2^31` characters; its numeric portion, the text before the leftmost token, reads -5,
yet the call returns false. -/
theorem long_negative_payload_rejected :
    negativePayloadOfIntMinLength.length = 2 ^ 31 ∧
    IsLeftmostToken (toLowerCase negativePayloadOfIntMinLength) "m-".toList 2 ∧
    stod ((toLowerCase negativePayloadOfIntMinLength).take 2) = .ok (Double.finite (-5)) ∧
    extractQRCodeDimensionFromString negativePayloadOfIntMinLength = .ok none := by
  refine ⟨negativePayloadOfIntMinLength_length, negativePayloadOfIntMinLength_leftmost, ?_,
    negativePayloadOfIntMinLength_rejected⟩
  have htake : List.take 2 (toLowerCase negativePayloadOfIntMinLength) = "-5".toList := by
    rw [negativePayloadOfIntMinLength_lower]
    exact take_padded "-5m-".toList [] (2 ^ 31 - 4) 2 (by decide)
  rw [htake]
  decide!

/-- C8, amended: for a payload shorter than `2^31` characters, a numeric portion that
parses to a value `v ≤ 0` is accepted all the same: the call returns true and stores the
product of `v` and the factor of the unit, which is not greater than 0, and the
identifier. -/
theorem nonpositive_size_passed_through (p t : CppString) (i : Nat) (v : ℚ) (f : Double)
    (hlen : p.length < 2 ^ 31)
    (h : IsLeftmostToken (toLowerCase p) t i)
    (hf : (t, f) ∈ unitIdentifierToMetricMeterConversionFactor)
    (hv : stod ((toLowerCase p).take i) = .ok (Double.finite v)) (hle : v ≤ 0) :
    extractQRCodeDimensionFromString p =
        .ok (some (Double.finite v * f, p.drop (i + t.length))) ∧
    (Double.finite v * f).isPositive = false ∧
    (v = 0 → Double.finite v * f = Double.finite 0) := by
  obtain ⟨q, rfl, hq⟩ := factor_pos_of_mem hf
  refine ⟨?_, mul_factor_not_positive hle hq, ?_⟩
  · rw [extract_of_leftmost h hf hlen, hv]
  · rintro rfl
    rw [finite_mul_finite, zero_mul]
    decide!

/-- The payload `-5cm-x` gives a negative size, within `10^-15` of -0.05 m. -/
theorem nonpositive_size_passed_through_witness :
    "-5cm-x".toList.length < 2 ^ 31 ∧
    IsLeftmostToken (toLowerCase "-5cm-x".toList) "cm-".toList 2 ∧
    extractQRCodeDimensionFromString "-5cm-x".toList =
        .ok (some (Double.finite (-5) * roundBinary64 (1 / 100),
          "-5cm-x".toList.drop (2 + "cm-".toList.length))) ∧
    (Double.finite (-5) * roundBinary64 (1 / 100)).isPositive = false ∧
    ((-5 : ℚ) = 0 → Double.finite (-5) * roundBinary64 (1 / 100) = Double.finite 0) :=
  ⟨by decide, isLeftmostToken_of_unitSearch (i := 2) (by decide) (by decide) (by decide),
    nonpositive_size_passed_through "-5cm-x".toList "cm-".toList 2 (-5)
      (roundBinary64 (1 / 100)) (by decide)
      (isLeftmostToken_of_unitSearch (i := 2) (by decide) (by decide) (by decide))
      (List.mem_cons_self _ _) (by decide!) (by norm_num)⟩

/-- The payload `0in-foo` gives the size 0, and `-5cm-x` a size within `10^-15` of
-0.05 m. -/
theorem zero_size_example :
    extractQRCodeDimensionFromString "0in-foo".toList =
      .ok (some (Double.finite 0, "foo".toList)) ∧
    (Double.finite (-5) * roundBinary64 (1 / 100)).isWithin (-5 / 100) (1 / 10 ^ 15) = true :=
  ⟨by decide!, by decide!⟩

/-- C3, as stated, fails twice.  In `12abcin-x` the numeric portion is `12abc`, digits
followed by letters and not a well-formed number, yet the call returns true with the
size of 12 in in meters: `std::stod` converts the leading `12` and ignores what follows.
And in the payload `inft-`, `2^31 - 5` letters `x`, `m-` the numeric portion, the text
`in` before the leftmost token `ft-`, is no number, yet the call does not return false:
the index of `m-`, `2^31`, is `-2^31` as an `int` and wins, the whole buffer is
converted (`inf`), and the `substr` for the identifier throws `std::out_of_range`. -/
theorem trailing_garbage_accepted :
    (IsLeftmostToken (toLowerCase "12abcin-x".toList) "in-".toList 5 ∧
      (toLowerCase "12abcin-x".toList).take 5 = "12abc".toList ∧
      isDecimalNumber "12abc".toList = false ∧
      extractQRCodeDimensionFromString "12abcin-x".toList =
        .ok (some (Double.finite 12 * roundBinary64 (254 / 10000), "x".toList))) ∧
    (payloadWithLateMeter.length = 2 ^ 31 + 2 ∧
      IsLeftmostToken (toLowerCase payloadWithLateMeter) "ft-".toList 2 ∧
      (toLowerCase payloadWithLateMeter).take 2 = "in".toList ∧
      isDecimalNumber "in".toList = false ∧
      startsNumber "in".toList = false ∧
      extractQRCodeDimensionFromString payloadWithLateMeter =
        .error StdException.out_of_range) := by
  refine ⟨⟨isLeftmostToken_of_unitSearch (i := 5) (by decide) (by decide) (by decide),
    by decide, by decide, by decide!⟩,
    payloadWithLateMeter_length, payloadWithLateMeter_leftmost, ?_, by decide, by decide,
    payloadWithLateMeter_throws⟩
  rw [payloadWithLateMeter_lower]
  exact take_padded "inft-".toList "m-".toList (2 ^ 31 - 5) 2 (by decide)

/-- C3, amended: for a payload of at most `2^31 + 1` characters, when the numeric portion
(the text before the leftmost unit token) has no number at its start (after optional
white space and an optional sign it begins with neither a digit, nor a point and a
digit, nor `inf`, nor `nan`), the call returns false, and no exception leaves it. -/
theorem notFound_without_leading_number (p t : CppString) (i : Nat)
    (hlen : p.length < 2 ^ 31 + 2)
    (h : IsLeftmostToken (toLowerCase p) t i)
    (hn : startsNumber ((toLowerCase p).take i) = false) :
    extractQRCodeDimensionFromString p = .ok none := by
  by_cases hshort : p.length < 2 ^ 31
  · obtain ⟨f, hf⟩ := exists_factor_of_mem_unitTokens h.1
    rw [extract_of_leftmost h hf hshort, stod_of_not_startsNumber hn]
  · exact extract_of_size_near_intMin (not_lt.1 hshort) hlen

/-- The payload `abcin-x`, garbage before the token, is rejected. -/
theorem notFound_without_leading_number_witness :
    "abcin-x".toList.length < 2 ^ 31 + 2 ∧
    IsLeftmostToken (toLowerCase "abcin-x".toList) "in-".toList 3 ∧
    startsNumber ((toLowerCase "abcin-x".toList).take 3) = false ∧
    extractQRCodeDimensionFromString "abcin-x".toList = .ok none :=
  ⟨by decide, isLeftmostToken_of_unitSearch (i := 3) (by decide) (by decide) (by decide),
    by decide,
    notFound_without_leading_number "abcin-x".toList "in-".toList 3 (by decide)
      (isLeftmostToken_of_unitSearch (i := 3) (by decide) (by decide) (by decide))
      (by decide)⟩

/-- A numeric portion without a number at its start is not a well-formed decimal number:
the amended C3 covers payloads of the claim. -/
theorem garbage_is_not_a_number {s : CppString} (h : startsNumber s = false) :
    isDecimalNumber s = false :=
  not_decimalNumber_of_not_startsNumber h

theorem payloadOfIntMinLength_form :
    numeralText "5".toList none ++ LengthUnit.m.text ++ "-".toList ++
      List.replicate (2 ^ 31 - 3) 'x' = payloadOfIntMinLength := by
  unfold payloadOfIntMinLength padded
  rw [List.append_nil]
  rfl

/-- C1, as stated, fails in three ways.  The numeral `1` followed by 309 zeros, with the
unit `m` and the identifier `x`, is rejected: `std::stod` throws `std::out_of_range` for
a value beyond the range of `double` and the parser turns that into `false`.  The
numeral `5` with the unit `m` and an identifier of `2^31 - 3` letters `x`, a payload of
`2^31` characters, is rejected, because the `int` that receives the size of the buffer is
negative.  And for `12.3in-inches` the dimension stored is a `double`, the rounded product
of the doubles nearest to 12.3 and 0.0254, and not the number 0.31242. -/
theorem huge_numeral_rejected :
    (('1' :: List.replicate 309 '0').all Char.isDigit = true ∧
      extractQRCodeDimensionFromString
        (numeralText ('1' :: List.replicate 309 '0') none ++ LengthUnit.m.text ++ "-".toList ++
          "x".toList) = .ok none) ∧
    ((numeralText "5".toList none ++ LengthUnit.m.text ++ "-".toList ++
        List.replicate (2 ^ 31 - 3) 'x').length = 2 ^ 31 ∧
      extractQRCodeDimensionFromString
        (numeralText "5".toList none ++ LengthUnit.m.text ++ "-".toList ++
          List.replicate (2 ^ 31 - 3) 'x') = .ok none) ∧
    (extractQRCodeDimensionFromString
        (numeralText "12".toList (some "3".toList) ++ LengthUnit.inch.text ++ "-".toList ++
          "inches".toList) =
        .ok (some (roundBinary64 (123 / 10) * roundBinary64 (254 / 10000), "inches".toList)) ∧
      roundBinary64 (123 / 10) * roundBinary64 (254 / 10000) ≠
        Double.finite (numeralValue "12".toList (some "3".toList) * LengthUnit.inch.factor)) := by
  refine ⟨⟨by decide!, by decide!⟩, ⟨?_, ?_⟩, ⟨by decide!, by decide!⟩⟩
  · rw [payloadOfIntMinLength_form]
    exact payloadOfIntMinLength_length
  · rw [payloadOfIntMinLength_form]
    exact payloadOfIntMinLength_rejected

/-- C1, amended: for a payload `n ++ unit ++ "-" ++ id` shorter than `2^31` characters,
where `n` is one or more digits optionally followed by a point and digits: when the
value of `n` is within the range of `double` (`strtod` reports no range error: zero and
every value from `DBL_MIN` to below `2^1024 - 2^970` are within it, every value from
`2^1024 - 2^970` on is not), the call returns true, stores as the dimension the product,
in `double` arithmetic, of the double nearest to `value(n)` and the double nearest to
`factor(unit)`, and stores exactly `id` as the identifier; otherwise it returns false. -/
theorem conforming_payload_parsed (ds : CppString) (frac : Option CppString)
    (u : LengthUnit) (id : CppString) (hds : ds ≠ [])
    (hd : ∀ c ∈ ds, c.isDigit = true)
    (hf : ∀ fs, frac = some fs → ∀ c ∈ fs, c.isDigit = true)
    (hlen : (numeralText ds frac ++ u.text ++ "-".toList ++ id).length < 2 ^ 31) :
    extractQRCodeDimensionFromString (numeralText ds frac ++ u.text ++ "-".toList ++ id) =
      (if strtodRangeError (numeralValue ds frac) then .ok none
       else .ok (some (roundBinary64 (numeralValue ds frac) * roundBinary64 u.factor, id))) ∧
    (numeralValue ds frac = 0 ∨
        (DBL_MIN ≤ numeralValue ds frac ∧ numeralValue ds frac < overflowThreshold) →
      strtodRangeError (numeralValue ds frac) = false) ∧
    (overflowThreshold ≤ numeralValue ds frac →
      strtodRangeError (numeralValue ds frac) = true) := by
  refine ⟨?_, strtodRangeError_of_normal, ?_⟩
  · have hchars := numeralText_chars hd hf
    have hmem := unit_entry_mem u
    have htok : u.text ++ "-".toList ∈ unitTokens := List.mem_map_of_mem Prod.fst hmem
    have hpay : numeralText ds frac ++ u.text ++ "-".toList ++ id =
        numeralText ds frac ++ (u.text ++ "-".toList) ++ id := by
      simp only [List.append_assoc]
    have hlow : toLowerCase (numeralText ds frac ++ (u.text ++ "-".toList) ++ id) =
        numeralText ds frac ++ (u.text ++ "-".toList) ++ toLowerCase id := by
      rw [toLowerCase_append, toLowerCase_append, toLowerCase_of_numeralChars hchars,
        toLowerCase_unit_token]
    have hl : IsLeftmostToken
        (toLowerCase (numeralText ds frac ++ (u.text ++ "-".toList) ++ id))
        (u.text ++ "-".toList) (numeralText ds frac).length := by
      rw [hlow]
      exact isLeftmostToken_after_numeral hchars htok
    rw [hpay] at hlen ⊢
    rw [extract_of_leftmost hl hmem hlen, hlow]
    have htake : List.take (numeralText ds frac).length
        (numeralText ds frac ++ (u.text ++ "-".toList) ++ toLowerCase id) =
        numeralText ds frac := by
      rw [List.append_assoc, List.take_left]
    have hdrop : List.drop ((numeralText ds frac).length + (u.text ++ "-".toList).length)
        (numeralText ds frac ++ (u.text ++ "-".toList) ++ id) = id := by
      rw [← List.length_append, List.drop_left]
    rw [htake, hdrop, stod_numeral hds hd hf]
    cases strtodRangeError (numeralValue ds frac) <;> rfl
  · intro hbig
    have hT : (0 : ℚ) < overflowThreshold := by unfold overflowThreshold; norm_num
    unfold strtodRangeError
    simp [abs_of_pos (lt_of_lt_of_le hT hbig), hbig]

/-- The payload `12.3in-inches`: 12.3 is within the range of `double`, and the call
stores the double product for 12.3 in and the identifier `inches`. -/
theorem conforming_payload_parsed_witness :
    (numeralText "12".toList (some "3".toList) ++ LengthUnit.inch.text ++ "-".toList ++
      "inches".toList).length < 2 ^ 31 ∧
    strtodRangeError (numeralValue "12".toList (some "3".toList)) = false ∧
    extractQRCodeDimensionFromString
      (numeralText "12".toList (some "3".toList) ++ LengthUnit.inch.text ++ "-".toList ++
        "inches".toList) =
      (if strtodRangeError (numeralValue "12".toList (some "3".toList)) then .ok none
       else .ok (some (roundBinary64 (numeralValue "12".toList (some "3".toList)) *
          roundBinary64 LengthUnit.inch.factor, "inches".toList))) :=
  ⟨by decide, by decide!,
    (conforming_payload_parsed "12".toList (some "3".toList) LengthUnit.inch "inches".toList
      (by decide) (by decide) (by decide) (by decide)).1⟩

/-- Scenario A: `12.3in-inches` gives a double within `10^-15` of 0.31242 m, and
`inches`. -/
theorem scenario_inches :
    extractQRCodeDimensionFromString "12.3in-inches".toList =
      .ok (some (roundBinary64 (123 / 10) * roundBinary64 (254 / 10000), "inches".toList)) ∧
    (roundBinary64 (123 / 10) * roundBinary64 (254 / 10000)).isWithin (31242 / 100000)
      (1 / 10 ^ 15) = true :=
  ⟨by decide!, by decide!⟩

/-- Scenario B: `12.3mm-tester` gives a double within `10^-15` of 0.0123 m, and
`tester`. -/
theorem scenario_millimeters :
    extractQRCodeDimensionFromString "12.3mm-tester".toList =
      .ok (some (roundBinary64 (123 / 10) * roundBinary64 (1 / 1000), "tester".toList)) ∧
    (roundBinary64 (123 / 10) * roundBinary64 (1 / 1000)).isWithin (123 / 10000)
      (1 / 10 ^ 15) = true :=
  ⟨by decide!, by decide!⟩

/-- A value just below `DBL_MIN` that rounds up to `DBL_MIN` raises no range error
(`2^-1022` less a fifth of the spacing `2^-1074`), and one that rounds to a subnormal
value and is not exact does; the text `0x1p-1074` is read exactly, and `0x1p-1075` is
rejected. -/
theorem tiny_numerals_example :
    strtodRangeError (DBL_MIN - 1 / 5 * (1 / 2 ^ 1074)) = false ∧
    roundBinary64 (DBL_MIN - 1 / 5 * (1 / 2 ^ 1074)) = Double.finite DBL_MIN ∧
    strtodRangeError (DBL_MIN - 4 / 5 * (1 / 2 ^ 1074)) = true ∧
    stod "0x1p-1074".toList = .ok (Double.finite (1 / 2 ^ 1074)) ∧
    stod "0x1p-1075".toList = .error StdException.out_of_range :=
  ⟨by decide!, by decide!, by decide!, by decide!, by decide!⟩


/-- The numeral `9007199254740993`, which is `2^53 + 1`, is read as `2^53`, the nearest
double (a tie, to the even side); 0.1 is read as the double `3602879701896397 / 2^55`;
and the double for 0.001 times the least positive double is 0. -/
theorem rounded_numeral_example :
    stod "9007199254740993".toList = .ok (Double.finite (2 ^ 53)) ∧
    stod "0.1".toList = .ok (Double.finite (3602879701896397 / 2 ^ 55)) ∧
    Double.finite (1 / 2 ^ 1074) * roundBinary64 (1 / 1000) = Double.finite 0 := by
  decide!
/-! ## The pose pipeline -/

theorem processSymbol_eq (cv : OpenCV) (est : QRCodeStateEstimator) (out : OutputBuffers)
    (symbol : Symbol) :
    processSymbol cv est out symbol = .ok (appendResolved cv est out [symbol]) := by
  obtain ⟨r, hr⟩ := extract_never_throws symbol.data symbol.dataLength
  unfold processSymbol appendResolved
  by_cases hq : symbol.type ≠ ZBAR_QRCODE ∨ symbol.location.length ≠ 4
  · have hq' : ¬ (symbol.type = ZBAR_QRCODE ∧ symbol.location.length = 4) := by tauto
    simp only [hq, if_true, List.filterMap_cons, List.filterMap_nil, resolvedEntry, hq',
      if_false, List.map_nil, List.append_nil]
    rfl
  · have hq' : symbol.type = ZBAR_QRCODE ∧ symbol.location.length = 4 := by tauto
    simp only [hq, if_false, List.filterMap_cons, List.filterMap_nil, resolvedEntry, hq',
      if_true, hr, and_self]
    cases r with
    | none =>
      simp only [List.map_nil, List.append_nil]
      rfl
    | some v =>
      obtain ⟨d, id⟩ := v
      rfl

theorem appendResolved_nil (cv : OpenCV) (est : QRCodeStateEstimator) (out : OutputBuffers) :
    appendResolved cv est out [] = out := by
  simp [appendResolved]

theorem appendResolved_cons (cv : OpenCV) (est : QRCodeStateEstimator) (out : OutputBuffers)
    (s : Symbol) (rest : List Symbol) :
    appendResolved cv est out (s :: rest) =
      appendResolved cv est (appendResolved cv est out [s]) rest := by
  unfold appendResolved
  cases h : resolvedEntry cv est s <;> simp [List.filterMap_cons, h]

theorem foldlM_processSymbol (cv : OpenCV) (est : QRCodeStateEstimator)
    (symbols : List Symbol) (out : OutputBuffers) :
    symbols.foldlM (processSymbol cv est) out = .ok (appendResolved cv est out symbols) := by
  induction symbols generalizing out with
  | nil => rw [appendResolved_nil]; rfl
  | cons s rest ih =>
    rw [List.foldlM_cons, processSymbol_eq]
    show List.foldlM (processSymbol cv est) (appendResolved cv est out [s]) rest = _
    rw [ih, ← appendResolved_cons]

theorem estimate_of_scan (cv : OpenCV) (est : QRCodeStateEstimator) (frame : Frame)
    (buffers : OutputBuffers) (symbols : List Symbol) (hc : frame.channels = 1)
    (hs : frame.scan = some symbols) :
    estimateOneOrMoreStatesFromGrayscaleFrame cv est frame buffers =
      .ok (decide (0 < (appendResolved cv est emptyBuffers symbols).inputCameraPosesBuffer.length),
        appendResolved cv est emptyBuffers symbols) := by
  unfold estimateOneOrMoreStatesFromGrayscaleFrame
  simp only [hc, ne_eq, not_true_eq_false, if_false, hs]
  have := foldlM_processSymbol cv est symbols emptyBuffers
  unfold emptyBuffers at this
  simp only [this]
  rfl

theorem resolvedEntry_of_soft_failure (cv : OpenCV) (est : QRCodeStateEstimator)
    (d : Symbol)
    (hd : d.type ≠ ZBAR_QRCODE ∨ d.location.length ≠ 4 ∨
      extractQRCodeDimensionFromString d.data = .ok none) :
    resolvedEntry cv est d = none := by
  unfold resolvedEntry
  by_cases hq : d.type = ZBAR_QRCODE ∧ d.location.length = 4
  · rcases hd with h | h | h
    · exact absurd hq.1 h
    · exact absurd hq.2 h
    · simp only [hq, and_self, if_true, h]
  · simp only [hq, if_false]

/-- C9: a detection that is not a QR symbol, or whose corner count is not 4, or whose
payload the parser rejects, leaves the buffers as they are and raises nothing, and the
call gives the same result as on the frame without that detection. -/
theorem soft_failure_excluded (cv : OpenCV) (est : QRCodeStateEstimator) (channels : Nat)
    (before after : List Symbol) (d : Symbol) (buffers : OutputBuffers)
    (hd : d.type ≠ ZBAR_QRCODE ∨ d.location.length ≠ 4 ∨
      extractQRCodeDimensionFromString d.data = .ok none) :
    (∀ out, processSymbol cv est out d = .ok out) ∧
    estimateOneOrMoreStatesFromGrayscaleFrame cv est
        { channels := channels, scan := some (before ++ d :: after) } buffers =
      estimateOneOrMoreStatesFromGrayscaleFrame cv est
        { channels := channels, scan := some (before ++ after) } buffers := by
  have hnone := resolvedEntry_of_soft_failure cv est d hd
  have hsame : ∀ out, appendResolved cv est out (before ++ d :: after) =
      appendResolved cv est out (before ++ after) := by
    intro out
    simp only [appendResolved, List.filterMap_append, List.filterMap_cons, hnone]
  constructor
  · intro out
    rw [processSymbol_eq]
    simp only [appendResolved, List.filterMap_cons, hnone, List.filterMap_nil, List.map_nil,
      List.append_nil]
  · by_cases hc : channels = 1
    · rw [estimate_of_scan cv est _ buffers (before ++ d :: after) hc rfl,
        estimate_of_scan cv est _ buffers (before ++ after) hc rfl, hsame]
    · unfold estimateOneOrMoreStatesFromGrayscaleFrame
      simp only [ne_eq, hc, not_false_eq_true, if_true]

/-- A detection with three corners between two good ones changes nothing. -/
theorem soft_failure_excluded_witness :
    (exampleTriangle.type ≠ ZBAR_QRCODE ∨ exampleTriangle.location.length ≠ 4 ∨
      extractQRCodeDimensionFromString exampleTriangle.data = .ok none) ∧
    (∀ out, processSymbol exampleOpenCV exampleEstimator out exampleTriangle = .ok out) ∧
    estimateOneOrMoreStatesFromGrayscaleFrame exampleOpenCV exampleEstimator
        { channels := 1, scan := some ([exampleMarker] ++ exampleTriangle :: [exampleMarker]) }
        emptyBuffers =
      estimateOneOrMoreStatesFromGrayscaleFrame exampleOpenCV exampleEstimator
        { channels := 1, scan := some ([exampleMarker] ++ [exampleMarker]) } emptyBuffers :=
  ⟨Or.inr (Or.inl (by decide)),
    soft_failure_excluded exampleOpenCV exampleEstimator 1 [exampleMarker] [exampleMarker]
      exampleTriangle emptyBuffers (Or.inr (Or.inl (by decide)))⟩

/-- A detection whose payload has no size is excluded in the same way. -/
theorem foreign_payload_excluded_example :
    extractQRCodeDimensionFromString exampleForeign.data = .ok none ∧
    resolvedEntry exampleOpenCV exampleEstimator exampleForeign = none :=
  ⟨by decide, resolvedEntry_of_soft_failure _ _ _ (Or.inr (Or.inr (by decide)))⟩

/-- C10: after a call that returns, the three buffers hold, whatever they held before,
exactly the entries of the detections that are QR symbols with four corners and a
payload the parser accepts, in the order of the scan, each with the identifier and the
dimension the parser gives for it; equal detections each give an entry. -/
theorem buffers_hold_resolved_detections (cv : OpenCV) (est : QRCodeStateEstimator)
    (frame : Frame) (buffers : OutputBuffers) (returned : Bool) (out : OutputBuffers)
    (h : estimateOneOrMoreStatesFromGrayscaleFrame cv est frame buffers = .ok (returned, out)) :
    ∃ symbols, frame.scan = some symbols ∧
      out.inputCameraPosesBuffer =
        (symbols.filterMap (resolvedEntry cv est)).map (fun e => e.1) ∧
      out.inputQRCodeIdentifiersBuffer =
        (symbols.filterMap (resolvedEntry cv est)).map (fun e => e.2.1) ∧
      out.inputQRCodeDimensionsBuffer =
        (symbols.filterMap (resolvedEntry cv est)).map (fun e => e.2.2) := by
  by_cases hc : frame.channels = 1
  · cases hs : frame.scan with
    | none =>
      unfold estimateOneOrMoreStatesFromGrayscaleFrame at h
      simp only [hc, ne_eq, not_true_eq_false, if_false, hs] at h
      exact absurd h (by intro h'; cases h')
    | some symbols =>
      rw [estimate_of_scan cv est frame buffers symbols hc hs] at h
      simp only [Except.ok.injEq, Prod.mk.injEq] at h
      obtain ⟨_, rfl⟩ := h
      exact ⟨symbols, rfl, by simp [appendResolved, emptyBuffers],
        by simp [appendResolved, emptyBuffers], by simp [appendResolved, emptyBuffers]⟩
  · unfold estimateOneOrMoreStatesFromGrayscaleFrame at h
    simp only [ne_eq, hc, not_false_eq_true, if_true] at h
    exact absurd h (by intro h'; cases h')

/-- Two equal markers, a triangle and a foreign code in one frame: the call returns
true. -/
theorem example_frame_result :
    estimateOneOrMoreStatesFromGrayscaleFrame exampleOpenCV exampleEstimator
        { channels := 1,
          scan := some [exampleMarker, exampleTriangle, exampleForeign, exampleMarker] }
        emptyBuffers =
      .ok (true, appendResolved exampleOpenCV exampleEstimator emptyBuffers
        [exampleMarker, exampleTriangle, exampleForeign, exampleMarker]) := by
  rw [estimate_of_scan exampleOpenCV exampleEstimator _ emptyBuffers
    [exampleMarker, exampleTriangle, exampleForeign, exampleMarker] rfl rfl]
  have hb : decide (0 < (appendResolved exampleOpenCV exampleEstimator emptyBuffers
      [exampleMarker, exampleTriangle, exampleForeign,
        exampleMarker]).inputCameraPosesBuffer.length) = true := by decide!
  rw [hb]

/-- In the frame of `example_frame_result` the buffers hold the entries of the two
markers. -/
theorem buffers_hold_resolved_detections_witness :
    estimateOneOrMoreStatesFromGrayscaleFrame exampleOpenCV exampleEstimator
        { channels := 1,
          scan := some [exampleMarker, exampleTriangle, exampleForeign, exampleMarker] }
        emptyBuffers =
      .ok (true, appendResolved exampleOpenCV exampleEstimator emptyBuffers
        [exampleMarker, exampleTriangle, exampleForeign, exampleMarker]) ∧
    ∃ symbols, some [exampleMarker, exampleTriangle, exampleForeign, exampleMarker] =
        some symbols ∧
      (appendResolved exampleOpenCV exampleEstimator emptyBuffers
          [exampleMarker, exampleTriangle, exampleForeign, exampleMarker]).inputCameraPosesBuffer =
        (symbols.filterMap (resolvedEntry exampleOpenCV exampleEstimator)).map (fun e => e.1) ∧
      (appendResolved exampleOpenCV exampleEstimator emptyBuffers
          [exampleMarker, exampleTriangle, exampleForeign,
            exampleMarker]).inputQRCodeIdentifiersBuffer =
        (symbols.filterMap (resolvedEntry exampleOpenCV exampleEstimator)).map
          (fun e => e.2.1) ∧
      (appendResolved exampleOpenCV exampleEstimator emptyBuffers
          [exampleMarker, exampleTriangle, exampleForeign,
            exampleMarker]).inputQRCodeDimensionsBuffer =
        (symbols.filterMap (resolvedEntry exampleOpenCV exampleEstimator)).map
          (fun e => e.2.2) :=
  ⟨example_frame_result,
    buffers_hold_resolved_detections exampleOpenCV exampleEstimator
      { channels := 1,
        scan := some [exampleMarker, exampleTriangle, exampleForeign, exampleMarker] }
      emptyBuffers true _ example_frame_result⟩

/-- In that frame the two equal markers give two entries: the identifiers are `x`, `x`
and the dimensions 2 m, 2 m. -/
theorem duplicate_markers_example :
    (appendResolved exampleOpenCV exampleEstimator emptyBuffers
        [exampleMarker, exampleTriangle, exampleForeign,
          exampleMarker]).inputQRCodeIdentifiersBuffer = ["x".toList, "x".toList] ∧
    (appendResolved exampleOpenCV exampleEstimator emptyBuffers
        [exampleMarker, exampleTriangle, exampleForeign,
          exampleMarker]).inputQRCodeDimensionsBuffer =
      [Double.finite 2, Double.finite 2] :=
  ⟨by decide!, by decide!⟩

/-! ## The claims about the frame-level result -/

theorem appendResolved_lengths (cv : OpenCV) (est : QRCodeStateEstimator)
    (symbols : List Symbol) :
    (appendResolved cv est emptyBuffers symbols).inputQRCodeIdentifiersBuffer.length =
        (appendResolved cv est emptyBuffers symbols).inputCameraPosesBuffer.length ∧
      (appendResolved cv est emptyBuffers symbols).inputQRCodeDimensionsBuffer.length =
        (appendResolved cv est emptyBuffers symbols).inputCameraPosesBuffer.length := by
  simp [appendResolved, emptyBuffers]

theorem estimate_of_wrong_channels (cv : OpenCV) (est : QRCodeStateEstimator) (frame : Frame)
    (buffers : OutputBuffers) (hc : frame.channels ≠ 1) :
    estimateOneOrMoreStatesFromGrayscaleFrame cv est frame buffers =
      .error (Thrown.som
        ⟨"Given frame is not grayscale\n", exceptionClass.INVALID_FUNCTION_INPUT⟩) := by
  unfold estimateOneOrMoreStatesFromGrayscaleFrame
  simp only [ne_eq, hc, not_false_eq_true, if_true]
  rfl

theorem estimate_of_scan_error (cv : OpenCV) (est : QRCodeStateEstimator) (frame : Frame)
    (buffers : OutputBuffers) (hc : frame.channels = 1) (hs : frame.scan = none) :
    estimateOneOrMoreStatesFromGrayscaleFrame cv est frame buffers =
      .error (Thrown.som
        ⟨"QR code scanner returned with error\n", exceptionClass.ZBAR_ERROR⟩) := by
  unfold estimateOneOrMoreStatesFromGrayscaleFrame
  simp only [hc, ne_eq, not_true_eq_false, if_false, hs]
  rfl

/-- C14: a call that returns gives true exactly when the pose buffer it leaves is
non-empty, and the three buffers have one length; on a single-channel frame with no
detection it returns false with the three buffers empty and raises nothing. -/
theorem returns_true_iff_result_nonempty (cv : OpenCV) (est : QRCodeStateEstimator)
    (frame : Frame) (buffers : OutputBuffers) :
    (∀ returned out,
      estimateOneOrMoreStatesFromGrayscaleFrame cv est frame buffers = .ok (returned, out) →
        (returned = true ↔ out.inputCameraPosesBuffer ≠ []) ∧
        out.inputQRCodeIdentifiersBuffer.length = out.inputCameraPosesBuffer.length ∧
        out.inputQRCodeDimensionsBuffer.length = out.inputCameraPosesBuffer.length) ∧
    (frame.channels = 1 → frame.scan = some [] →
      estimateOneOrMoreStatesFromGrayscaleFrame cv est frame buffers =
        .ok (false, emptyBuffers)) := by
  constructor
  · intro returned out h
    by_cases hc : frame.channels = 1
    · cases hs : frame.scan with
      | none =>
        rw [estimate_of_scan_error cv est frame buffers hc hs] at h
        exact absurd h (by intro h'; cases h')
      | some symbols =>
        rw [estimate_of_scan cv est frame buffers symbols hc hs] at h
        simp only [Except.ok.injEq, Prod.mk.injEq] at h
        obtain ⟨hr, rfl⟩ := h
        refine ⟨?_, appendResolved_lengths cv est symbols⟩
        rw [← hr, decide_eq_true_eq, List.length_pos]
    · rw [estimate_of_wrong_channels cv est frame buffers hc] at h
      exact absurd h (by intro h'; cases h')
  · intro hc hs
    rw [estimate_of_scan cv est frame buffers [] hc hs]
    rfl

/-- A frame without detections gives false, empty buffers and no error; the example
frame with two markers gives true and non-empty buffers. -/
theorem returns_true_iff_result_nonempty_witness :
    estimateOneOrMoreStatesFromGrayscaleFrame exampleOpenCV exampleEstimator
        { channels := 1, scan := some [] }
        (appendResolved exampleOpenCV exampleEstimator emptyBuffers [exampleMarker]) =
      .ok (false, emptyBuffers) ∧
    ((true = true ↔
      (appendResolved exampleOpenCV exampleEstimator emptyBuffers
        [exampleMarker, exampleTriangle, exampleForeign,
          exampleMarker]).inputCameraPosesBuffer ≠ []) ∧
      (appendResolved exampleOpenCV exampleEstimator emptyBuffers
        [exampleMarker, exampleTriangle, exampleForeign,
          exampleMarker]).inputQRCodeIdentifiersBuffer.length =
        (appendResolved exampleOpenCV exampleEstimator emptyBuffers
          [exampleMarker, exampleTriangle, exampleForeign,
            exampleMarker]).inputCameraPosesBuffer.length ∧
      (appendResolved exampleOpenCV exampleEstimator emptyBuffers
        [exampleMarker, exampleTriangle, exampleForeign,
          exampleMarker]).inputQRCodeDimensionsBuffer.length =
        (appendResolved exampleOpenCV exampleEstimator emptyBuffers
          [exampleMarker, exampleTriangle, exampleForeign,
            exampleMarker]).inputCameraPosesBuffer.length) :=
  ⟨(returns_true_iff_result_nonempty exampleOpenCV exampleEstimator
      { channels := 1, scan := some [] }
      (appendResolved exampleOpenCV exampleEstimator emptyBuffers [exampleMarker])).2 rfl rfl,
    (returns_true_iff_result_nonempty exampleOpenCV exampleEstimator
      { channels := 1,
        scan := some [exampleMarker, exampleTriangle, exampleForeign, exampleMarker] }
      emptyBuffers).1 true _ example_frame_result⟩

/-- C16: on a single-channel frame the call fails exactly when the scan reports an
error, the exception then has the class `ZBAR_ERROR`, and a scan without symbols is not
a failure. -/
theorem fails_iff_scan_error (cv : OpenCV) (est : QRCodeStateEstimator) (frame : Frame)
    (buffers : OutputBuffers) (hc : frame.channels = 1) :
    ((∃ e, estimateOneOrMoreStatesFromGrayscaleFrame cv est frame buffers = .error e) ↔
        frame.scan = none) ∧
    (frame.scan = none →
      ∃ message, estimateOneOrMoreStatesFromGrayscaleFrame cv est frame buffers =
        .error (Thrown.som ⟨message, exceptionClass.ZBAR_ERROR⟩)) ∧
    (frame.scan = some [] →
      estimateOneOrMoreStatesFromGrayscaleFrame cv est frame buffers =
        .ok (false, emptyBuffers)) := by
  refine ⟨⟨?_, ?_⟩, ?_, ?_⟩
  · rintro ⟨e, he⟩
    cases hs : frame.scan with
    | none => rfl
    | some symbols =>
      rw [estimate_of_scan cv est frame buffers symbols hc hs] at he
      exact absurd he (by intro h'; cases h')
  · intro hs
    exact ⟨_, estimate_of_scan_error cv est frame buffers hc hs⟩
  · intro hs
    exact ⟨_, estimate_of_scan_error cv est frame buffers hc hs⟩
  · intro hs
    rw [estimate_of_scan cv est frame buffers [] hc hs]
    rfl

/-- A scan error on a single-channel frame is raised as a `ZBAR_ERROR`. -/
theorem fails_iff_scan_error_witness :
    ((∃ e, estimateOneOrMoreStatesFromGrayscaleFrame exampleOpenCV exampleEstimator
        { channels := 1, scan := none } emptyBuffers = .error e) ↔
        (none : Option (List Symbol)) = none) ∧
    ((none : Option (List Symbol)) = none →
      ∃ message, estimateOneOrMoreStatesFromGrayscaleFrame exampleOpenCV exampleEstimator
        { channels := 1, scan := none } emptyBuffers =
        .error (Thrown.som ⟨message, exceptionClass.ZBAR_ERROR⟩)) ∧
    ((none : Option (List Symbol)) = some [] →
      estimateOneOrMoreStatesFromGrayscaleFrame exampleOpenCV exampleEstimator
        { channels := 1, scan := none } emptyBuffers = .ok (false, emptyBuffers)) :=
  fails_iff_scan_error exampleOpenCV exampleEstimator { channels := 1, scan := none }
    emptyBuffers rfl

/-- C18: the assembled matrix has the rotation matrix in its upper left 3x3 block, the
translation vector in the first three rows of its last column, and the bottom row
`[0, 0, 0, 1]`. -/
theorem viewMatrix_layout (rotationMatrix : Mat 3 3) (translationVector : Mat 3 1) :
    (∀ r c : Fin 3,
      viewMatrix rotationMatrix translationVector r.castSucc c.castSucc = rotationMatrix r c) ∧
    (∀ r : Fin 3,
      viewMatrix rotationMatrix translationVector r.castSucc 3 = translationVector r 0) ∧
    viewMatrix rotationMatrix translationVector 3 0 = Double.finite 0 ∧
    viewMatrix rotationMatrix translationVector 3 1 = Double.finite 0 ∧
    viewMatrix rotationMatrix translationVector 3 2 = Double.finite 0 ∧
    viewMatrix rotationMatrix translationVector 3 3 = Double.finite 1 := by
  refine ⟨?_, ?_, rfl, rfl, rfl, rfl⟩
  · intro r c
    simp [viewMatrix]
  · intro r
    have h3 : ¬ ((3 : Fin 4).val < 3) := by decide
    simp only [viewMatrix, Fin.coe_castSucc, Fin.is_lt, dite_true, h3, dite_false]

theorem call_result {Scanner Image : Type} (io : Periphery Scanner Image) (cv : OpenCV)
    (self : QRCodeStateEstimatorObject Scanner Image) (frame : Image)
    (buffers : OutputBuffers) :
    (estimateOneOrMoreStatesFromGrayscaleFrameCall io cv self frame buffers).1 =
      estimateOneOrMoreStatesFromGrayscaleFrame cv self.toQRCodeStateEstimator
        { channels := io.channels frame, scan := (io.scan self.zbarScanner frame).2 }
        buffers := by
  unfold estimateOneOrMoreStatesFromGrayscaleFrameCall
  by_cases hc : io.channels frame = 1
  · simp only [hc, ne_eq, not_true_eq_false, if_false]
    cases estimateOneOrMoreStatesFromGrayscaleFrame cv self.toQRCodeStateEstimator
      { channels := 1, scan := (io.scan self.zbarScanner frame).2 } buffers <;> rfl
  · simp only [ne_eq, hc, not_false_eq_true, if_true]
    rw [estimate_of_wrong_channels cv _ _ buffers (by exact hc),
      estimate_of_wrong_channels cv _ _ buffers (by exact hc)]

theorem call_members {Scanner Image : Type} (io : Periphery Scanner Image) (cv : OpenCV)
    (self : QRCodeStateEstimatorObject Scanner Image) (frame : Image)
    (buffers : OutputBuffers) :
    (estimateOneOrMoreStatesFromGrayscaleFrameCall io cv self frame
        buffers).2.1.toQRCodeStateEstimator = self.toQRCodeStateEstimator ∧
    (estimateOneOrMoreStatesFromGrayscaleFrameCall io cv self frame buffers).2.1.frameBuffer =
      self.frameBuffer := by
  unfold estimateOneOrMoreStatesFromGrayscaleFrameCall
  by_cases hc : io.channels frame = 1
  · simp only [hc, ne_eq, not_true_eq_false, if_false]
    cases estimateOneOrMoreStatesFromGrayscaleFrame cv self.toQRCodeStateEstimator
      { channels := 1, scan := (io.scan self.zbarScanner frame).2 } buffers <;>
      exact ⟨rfl, rfl⟩
  · simp only [ne_eq, hc, not_false_eq_true, if_true]
    constructor <;> first | rfl | trivial

theorem call_image {Scanner Image : Type} (io : Periphery Scanner Image) (cv : OpenCV)
    (self : QRCodeStateEstimatorObject Scanner Image) (frame : Image)
    (buffers : OutputBuffers) (h : self.showResultsInWindow = false) :
    (estimateOneOrMoreStatesFromGrayscaleFrameCall io cv self frame buffers).2.2 = frame := by
  unfold estimateOneOrMoreStatesFromGrayscaleFrameCall
  by_cases hc : io.channels frame = 1
  · simp only [hc, ne_eq, not_true_eq_false, if_false]
    cases estimateOneOrMoreStatesFromGrayscaleFrame cv self.toQRCodeStateEstimator
      { channels := 1, scan := (io.scan self.zbarScanner frame).2 } buffers with
    | error e => rfl
    | ok r => simp only [h, Bool.false_eq_true, if_false]
  · simp only [ne_eq, hc, not_false_eq_true, if_true]

theorem estimate_congr (cv : OpenCV) (est est' : QRCodeStateEstimator)
    (frame frame' : Frame) (buffers buffers' : OutputBuffers)
    (hcam : est.cameraMatrix = est'.cameraMatrix)
    (hdist : est.distortionParameters = est'.distortionParameters)
    (hc : frame.channels = frame'.channels) (hs : frame.scan = frame'.scan) :
    estimateOneOrMoreStatesFromGrayscaleFrame cv est frame buffers =
      estimateOneOrMoreStatesFromGrayscaleFrame cv est' frame' buffers' := by
  have hentry : resolvedEntry cv est = resolvedEntry cv est' := by
    funext s
    simp only [resolvedEntry, cameraPoseBuffer, hcam, hdist]
  have hloop : ∀ symbols, appendResolved cv est emptyBuffers symbols =
      appendResolved cv est' emptyBuffers symbols := by
    intro symbols
    simp only [appendResolved, hentry]
  by_cases hc1 : frame.channels = 1
  · cases hsc : frame.scan with
    | none =>
      rw [estimate_of_scan_error cv est frame buffers hc1 hsc,
        estimate_of_scan_error cv est' frame' buffers' (hc ▸ hc1) (hs ▸ hsc)]
    | some symbols =>
      rw [estimate_of_scan cv est frame buffers symbols hc1 hsc,
        estimate_of_scan cv est' frame' buffers' symbols (hc ▸ hc1) (hs ▸ hsc), hloop]
  · rw [estimate_of_wrong_channels cv est frame buffers hc1,
      estimate_of_wrong_channels cv est' frame' buffers' (hc ▸ hc1)]

/-- C20: the result of a call (the return value and the three buffers, or the exception)
is determined by the channel count of the frame, the detections that the scan of this
call reports, and the intrinsics.  Nothing else of the estimator object takes part (not
the state in which earlier calls left the scanner, not `frameBuffer`, not
`showResultsInWindow`), nor what the buffers held before.  A call writes no member of the
object but the scanner, so that a second call, on the object and the image as the first
call left them and with the buffers the first call filled, gives the identical result
whenever its scan reports the same detections; and without the window the call leaves
the caller's image as it was. -/
theorem result_independent_of_prior_state {Scanner Image : Type}
    (io : Periphery Scanner Image) (cv : OpenCV)
    (self self' : QRCodeStateEstimatorObject Scanner Image) (frame frame' : Image)
    (buffers buffers' : OutputBuffers)
    (hcam : self.cameraMatrix = self'.cameraMatrix)
    (hdist : self.distortionParameters = self'.distortionParameters)
    (hc : io.channels frame = io.channels frame')
    (hs : (io.scan self.zbarScanner frame).2 = (io.scan self'.zbarScanner frame').2) :
    (estimateOneOrMoreStatesFromGrayscaleFrameCall io cv self frame buffers).1 =
      (estimateOneOrMoreStatesFromGrayscaleFrameCall io cv self' frame' buffers').1 ∧
    ((estimateOneOrMoreStatesFromGrayscaleFrameCall io cv self frame
        buffers).2.1.toQRCodeStateEstimator = self.toQRCodeStateEstimator ∧
      (estimateOneOrMoreStatesFromGrayscaleFrameCall io cv self frame
        buffers).2.1.frameBuffer = self.frameBuffer) ∧
    (∀ returned out,
      (estimateOneOrMoreStatesFromGrayscaleFrameCall io cv self frame buffers).1 =
        .ok (returned, out) →
      io.channels (estimateOneOrMoreStatesFromGrayscaleFrameCall io cv self frame
          buffers).2.2 = io.channels frame →
      (io.scan (estimateOneOrMoreStatesFromGrayscaleFrameCall io cv self frame
          buffers).2.1.zbarScanner
        (estimateOneOrMoreStatesFromGrayscaleFrameCall io cv self frame buffers).2.2).2 =
        (io.scan self.zbarScanner frame).2 →
      (estimateOneOrMoreStatesFromGrayscaleFrameCall io cv
        (estimateOneOrMoreStatesFromGrayscaleFrameCall io cv self frame buffers).2.1
        (estimateOneOrMoreStatesFromGrayscaleFrameCall io cv self frame buffers).2.2
        out).1 = .ok (returned, out)) ∧
    (self.showResultsInWindow = false →
      (estimateOneOrMoreStatesFromGrayscaleFrameCall io cv self frame buffers).2.2 = frame) := by
  refine ⟨?_, call_members io cv self frame buffers, ?_, call_image io cv self frame buffers⟩
  · rw [call_result, call_result]
    exact estimate_congr cv _ _ _ _ buffers buffers' hcam hdist hc hs
  · intro returned out h hc2 hs2
    obtain ⟨hm, _⟩ := call_members io cv self frame buffers
    rw [call_result] at h ⊢
    rw [← h]
    exact estimate_congr cv _ _ _ _ out buffers (by rw [hm]) (by rw [hm]) hc2 hs2

/-- Two calls on the example frame with the window off, the second on the object and the
image as the first left them and with the buffers of the first: both return true and
leave the entry of the marker. -/
theorem result_independent_of_prior_state_witness :
    (estimateOneOrMoreStatesFromGrayscaleFrameCall examplePeriphery exampleOpenCV
        (exampleObject false) [exampleMarker, exampleTriangle] emptyBuffers).1 =
      .ok (true, appendResolved exampleOpenCV exampleEstimator emptyBuffers [exampleMarker]) ∧
    (estimateOneOrMoreStatesFromGrayscaleFrameCall examplePeriphery exampleOpenCV
        (exampleObject false) [exampleMarker, exampleTriangle] emptyBuffers).1 =
      (estimateOneOrMoreStatesFromGrayscaleFrameCall examplePeriphery exampleOpenCV
        (exampleObject true) [exampleMarker, exampleTriangle]
        (appendResolved exampleOpenCV exampleEstimator emptyBuffers [exampleForeign])).1 ∧
    (estimateOneOrMoreStatesFromGrayscaleFrameCall examplePeriphery exampleOpenCV
        (estimateOneOrMoreStatesFromGrayscaleFrameCall examplePeriphery exampleOpenCV
          (exampleObject false) [exampleMarker, exampleTriangle] emptyBuffers).2.1
        (estimateOneOrMoreStatesFromGrayscaleFrameCall examplePeriphery exampleOpenCV
          (exampleObject false) [exampleMarker, exampleTriangle] emptyBuffers).2.2
        (appendResolved exampleOpenCV exampleEstimator emptyBuffers [exampleMarker])).1 =
      .ok (true, appendResolved exampleOpenCV exampleEstimator emptyBuffers [exampleMarker]) := by
  have hfirst : (estimateOneOrMoreStatesFromGrayscaleFrameCall examplePeriphery exampleOpenCV
        (exampleObject false) [exampleMarker, exampleTriangle] emptyBuffers).1 =
      .ok (true, appendResolved exampleOpenCV exampleEstimator emptyBuffers [exampleMarker]) := by
    rw [call_result]
    rw [estimate_of_scan exampleOpenCV _ _ emptyBuffers [exampleMarker, exampleTriangle] rfl rfl]
    have hb : appendResolved exampleOpenCV (exampleObject false).toQRCodeStateEstimator
        emptyBuffers [exampleMarker, exampleTriangle] =
        appendResolved exampleOpenCV exampleEstimator emptyBuffers [exampleMarker] := by
      have ht := resolvedEntry_of_soft_failure exampleOpenCV exampleEstimator exampleTriangle
        (Or.inr (Or.inl (by decide)))
      show appendResolved exampleOpenCV exampleEstimator emptyBuffers
        [exampleMarker, exampleTriangle] = _
      simp only [appendResolved, List.filterMap_cons, ht, List.filterMap_nil]
    rw [hb]
    have hlen : decide (0 < (appendResolved exampleOpenCV exampleEstimator emptyBuffers
        [exampleMarker]).inputCameraPosesBuffer.length) = true := by decide!
    rw [hlen]
  have h := result_independent_of_prior_state examplePeriphery exampleOpenCV
    (exampleObject false) (exampleObject true) [exampleMarker, exampleTriangle]
    [exampleMarker, exampleTriangle] emptyBuffers
    (appendResolved exampleOpenCV exampleEstimator emptyBuffers [exampleForeign])
    rfl rfl rfl rfl
  refine ⟨hfirst, h.1, ?_⟩
  have himg := h.2.2.2 rfl
  exact h.2.2.1 true _ hfirst (by rw [himg]) (by rw [himg])

/-- With the window on, the outline of a resolved marker is drawn into the caller's
image.  In the stand-in periphery, where a line hides what it crosses, a second call on
that image finds no marker: what the second call returns follows the detections of its
own scan. -/
theorem overlay_changes_the_image_example :
    (estimateOneOrMoreStatesFromGrayscaleFrameCall examplePeriphery exampleOpenCV
        (exampleObject true) [exampleMarker] emptyBuffers).2.2 = [] ∧
    (estimateOneOrMoreStatesFromGrayscaleFrameCall examplePeriphery exampleOpenCV
        (exampleObject false) [exampleMarker] emptyBuffers).2.2 = [exampleMarker] ∧
    (estimateOneOrMoreStatesFromGrayscaleFrameCall examplePeriphery exampleOpenCV
        (estimateOneOrMoreStatesFromGrayscaleFrameCall examplePeriphery exampleOpenCV
          (exampleObject true) [exampleMarker] emptyBuffers).2.1
        (estimateOneOrMoreStatesFromGrayscaleFrameCall examplePeriphery exampleOpenCV
          (exampleObject true) [exampleMarker] emptyBuffers).2.2 emptyBuffers).1 =
      .ok (false, emptyBuffers) := by
  have hx : extractQRCodeDimensionFromString exampleMarker.data =
      .ok (some (Double.finite 2, "x".toList)) := by decide!
  have hfirst : estimateOneOrMoreStatesFromGrayscaleFrame exampleOpenCV
      (exampleObject true).toQRCodeStateEstimator
      { channels := 1, scan := some [exampleMarker] } emptyBuffers =
      .ok (decide (0 < (appendResolved exampleOpenCV
        (exampleObject true).toQRCodeStateEstimator emptyBuffers
          [exampleMarker]).inputCameraPosesBuffer.length),
        appendResolved exampleOpenCV (exampleObject true).toQRCodeStateEstimator emptyBuffers
          [exampleMarker]) :=
    estimate_of_scan exampleOpenCV _ _ emptyBuffers [exampleMarker] rfl rfl
  have himg : (estimateOneOrMoreStatesFromGrayscaleFrameCall examplePeriphery exampleOpenCV
      (exampleObject true) [exampleMarker] emptyBuffers).2.2 = [] := by
    unfold estimateOneOrMoreStatesFromGrayscaleFrameCall
    have hc : examplePeriphery.channels [exampleMarker] = 1 := rfl
    have hsc : (examplePeriphery.scan (exampleObject true).zbarScanner [exampleMarker]).2 =
        some [exampleMarker] := rfl
    simp only [hc, ne_eq, not_true_eq_false, if_false, hsc, hfirst]
    have hshow : (exampleObject true).showResultsInWindow = true := rfl
    simp only [hshow, if_true, Option.getD_some, List.foldl_cons, List.foldl_nil, drawOutline,
      hx]
    rfl
  refine ⟨himg, call_image _ _ _ _ _ rfl, ?_⟩
  rw [call_result, himg]
  exact estimate_of_scan exampleOpenCV _ _ emptyBuffers [] rfl rfl

/-! ## The claims about the single-marker function and the constructor -/

/-- C13: when the multi-marker call leaves a non-empty result, the single-marker
function returns true and stores the entries at index 0 of the three buffers; when the
result is empty it returns false and leaves the caller's three buffers as they were. -/
theorem single_result_is_first_entry (cv : OpenCV) (est : QRCodeStateEstimator)
    (frame : Frame) (buffers : OutputBuffers) (pose : CvMat) (identifier : CppString)
    (dimension : Double) (returned : Bool) (out : OutputBuffers)
    (h : estimateOneOrMoreStatesFromGrayscaleFrame cv est frame buffers = .ok (returned, out)) :
    (∀ p ps, out.inputCameraPosesBuffer = p :: ps →
      ∃ i is d ds, out.inputQRCodeIdentifiersBuffer = i :: is ∧
        out.inputQRCodeDimensionsBuffer = d :: ds ∧
        estimateStateFromGrayscaleFrame cv est frame pose identifier dimension =
          .ok (true, CvMat.ofMat p, i, d)) ∧
    (out.inputCameraPosesBuffer = [] →
      estimateStateFromGrayscaleFrame cv est frame pose identifier dimension =
        .ok (false, pose, identifier, dimension)) := by
  have h' : estimateOneOrMoreStatesFromGrayscaleFrame cv est frame emptyBuffers =
      .ok (returned, out) := h
  obtain ⟨hret, hlen1, hlen2⟩ :=
    (returns_true_iff_result_nonempty cv est frame buffers).1 returned out h
  constructor
  · intro p ps hp
    have hr : returned = true := hret.2 (by rw [hp]; exact List.cons_ne_nil _ _)
    rw [hp, List.length_cons] at hlen1 hlen2
    cases hi : out.inputQRCodeIdentifiersBuffer with
    | nil => rw [hi] at hlen1; simp at hlen1
    | cons i is =>
      cases hd : out.inputQRCodeDimensionsBuffer with
      | nil => rw [hd] at hlen2; simp at hlen2
      | cons d ds =>
        refine ⟨i, is, d, ds, rfl, rfl, ?_⟩
        unfold estimateStateFromGrayscaleFrame
        simp only [h', hp, hi, hd, List.headD_cons, hr]
        rfl
  · intro hp
    have hr : returned = false := by
      cases returned with
      | false => rfl
      | true => exact absurd hp (hret.1 rfl)
    unfold estimateStateFromGrayscaleFrame
    simp only [h', hp, hr]
    rfl

/-- On the example frame the single-marker function hands out the first marker. -/
theorem single_result_is_first_entry_witness :
    (∀ p ps, (appendResolved exampleOpenCV exampleEstimator emptyBuffers
        [exampleMarker, exampleTriangle, exampleForeign,
          exampleMarker]).inputCameraPosesBuffer = p :: ps →
      ∃ i is d ds, (appendResolved exampleOpenCV exampleEstimator emptyBuffers
          [exampleMarker, exampleTriangle, exampleForeign,
            exampleMarker]).inputQRCodeIdentifiersBuffer = i :: is ∧
        (appendResolved exampleOpenCV exampleEstimator emptyBuffers
          [exampleMarker, exampleTriangle, exampleForeign,
            exampleMarker]).inputQRCodeDimensionsBuffer = d :: ds ∧
        estimateStateFromGrayscaleFrame exampleOpenCV exampleEstimator
            { channels := 1,
              scan := some [exampleMarker, exampleTriangle, exampleForeign, exampleMarker] }
            (exampleCvMat []) [] Double.nan =
          .ok (true, CvMat.ofMat p, i, d)) ∧
    ((appendResolved exampleOpenCV exampleEstimator emptyBuffers
        [exampleMarker, exampleTriangle, exampleForeign,
          exampleMarker]).inputCameraPosesBuffer = [] →
      estimateStateFromGrayscaleFrame exampleOpenCV exampleEstimator
          { channels := 1,
            scan := some [exampleMarker, exampleTriangle, exampleForeign, exampleMarker] }
          (exampleCvMat []) [] Double.nan =
        .ok (false, exampleCvMat [], [], Double.nan)) :=
  single_result_is_first_entry exampleOpenCV exampleEstimator
    { channels := 1,
      scan := some [exampleMarker, exampleTriangle, exampleForeign, exampleMarker] }
    emptyBuffers (exampleCvMat []) [] Double.nan true _ example_frame_result

/-- On a frame without a usable marker the caller's buffers keep their content. -/
theorem single_result_unchanged_example :
    estimateStateFromGrayscaleFrame exampleOpenCV exampleEstimator
        { channels := 1, scan := some [exampleTriangle, exampleForeign] }
        (exampleCvMat [4, 4]) "old".toList (Double.finite 1) =
      .ok (false, exampleCvMat [4, 4], "old".toList, Double.finite 1) := by
  have h := estimate_of_scan exampleOpenCV exampleEstimator
    { channels := 1, scan := some [exampleTriangle, exampleForeign] } emptyBuffers
    [exampleTriangle, exampleForeign] rfl rfl
  have hb : appendResolved exampleOpenCV exampleEstimator emptyBuffers
      [exampleTriangle, exampleForeign] = emptyBuffers := by
    simp only [appendResolved, List.filterMap_cons,
      resolvedEntry_of_soft_failure exampleOpenCV exampleEstimator exampleTriangle
        (Or.inr (Or.inl (by decide))),
      resolvedEntry_of_soft_failure exampleOpenCV exampleEstimator exampleForeign
        (Or.inr (Or.inr (by decide))),
      List.filterMap_nil, List.map_nil, List.append_nil]
  rw [hb] at h
  unfold estimateStateFromGrayscaleFrame
  rw [h]
  rfl

theorem cvMat_dims_eq_two_iff (m : CvMat) : m.dims = 2 ↔ m.size.length = 2 := by
  unfold CvMat.dims
  omega

theorem size_eq_pair_iff (size : List Int) (a b : Int) :
    size = [a, b] ↔ size.length = 2 ∧ size[0]? = some a ∧ size[1]? = some b := by
  constructor
  · rintro rfl
    exact ⟨rfl, rfl, rfl⟩
  · rintro ⟨hl, h0, h1⟩
    match size, hl with
    | [x, y], _ =>
      simp only [List.getElem?_cons_zero, Option.some.injEq, List.getElem?_cons_succ] at h0 h1
      rw [h0, h1]

theorem all_extents_three_iff (size : List Int) (hl : size.length = 2) :
    size.any (fun extent => decide (extent ≠ 3)) = false ↔ size = [3, 3] := by
  match size, hl with
  | [x, y], _ =>
    simp only [List.any_cons, List.any_nil, Bool.or_false, Bool.or_eq_false_iff,
      decide_eq_false_iff_not, ne_eq, not_not, List.cons.injEq, and_true]

theorem newQRCodeStateEstimator_ok_iff (w h : Int) (cam dist : CvMat) (shown : Bool) :
    newQRCodeStateEstimator w h cam dist shown =
      (if w ≤ 0 ∨ h ≤ 0 ∨ cam.size ≠ [3, 3] ∨ dist.size ≠ [1, 5] then
        newQRCodeStateEstimator w h cam dist shown
      else .ok
        { expectedCameraImageWidth := w
          expectedCameraImageHeight := h
          cameraMatrix := fun i j => cam.elem i.val j.val
          distortionParameters := fun i j => dist.elem i.val j.val
          showResultsInWindow := shown }) := by
  by_cases hbad : w ≤ 0 ∨ h ≤ 0 ∨ cam.size ≠ [3, 3] ∨ dist.size ≠ [1, 5]
  · rw [if_pos hbad]
  · rw [if_neg hbad]
    push_neg at hbad
    obtain ⟨hw, hh, hcam, hdist⟩ := hbad
    have hwh : ¬ (w ≤ 0 ∨ h ≤ 0) := by omega
    have hcd : ¬ cam.dims ≠ 2 := by
      rw [not_not, cvMat_dims_eq_two_iff, hcam]
      rfl
    have hdd : ¬ dist.dims ≠ 2 := by
      rw [not_not, cvMat_dims_eq_two_iff, hdist]
      rfl
    have hany : cam.size.any (fun extent => decide (extent ≠ 3)) = false := by
      rw [hcam]
      rfl
    have hsz : ¬ (dist.size[1]? ≠ some 5 ∨ dist.size[0]? ≠ some 1) := by
      rw [hdist]
      simp
    unfold newQRCodeStateEstimator
    simp only [hwh, if_false, hcd, hany, hdd, hsz, Bool.false_eq_true]
    rfl

theorem newQRCodeStateEstimator_error (w h : Int) (cam dist : CvMat) (shown : Bool)
    (hbad : w ≤ 0 ∨ h ≤ 0 ∨ cam.size ≠ [3, 3] ∨ dist.size ≠ [1, 5]) :
    ∃ message, newQRCodeStateEstimator w h cam dist shown =
      .error ⟨message, exceptionClass.INVALID_FUNCTION_INPUT⟩ := by
  unfold newQRCodeStateEstimator
  by_cases hwh : w ≤ 0 ∨ h ≤ 0
  · exact ⟨_, by rw [if_pos hwh]; rfl⟩
  · rw [if_neg hwh]
    by_cases hcd : cam.dims ≠ 2
    · exact ⟨_, by rw [if_pos hcd]; rfl⟩
    · rw [if_neg hcd]
      by_cases hany : cam.size.any (fun extent => decide (extent ≠ 3)) = true
      · exact ⟨_, by rw [if_pos hany]; rfl⟩
      · rw [if_neg hany]
        by_cases hdd : dist.dims ≠ 2
        · exact ⟨_, by rw [if_pos hdd]; rfl⟩
        · rw [if_neg hdd]
          by_cases hsz : dist.size[1]? ≠ some 5 ∨ dist.size[0]? ≠ some 1
          · exact ⟨_, by rw [if_pos hsz]; rfl⟩
          · exfalso
            rw [not_not, cvMat_dims_eq_two_iff] at hcd hdd
            have hcam : cam.size = [3, 3] :=
              (all_extents_three_iff cam.size hcd).1 (by simpa using hany)
            have hdist : dist.size = [1, 5] := by
              rw [size_eq_pair_iff]
              push_neg at hsz
              exact ⟨hdd, hsz.2, hsz.1⟩
            rcases hbad with hb | hb | hb | hb
            · exact hwh (Or.inl hb)
            · exact hwh (Or.inr hb)
            · exact hb hcam
            · exact hb hdist

/-- C15: the constructor fails exactly when the width or the height is not positive, or
the extents of the calibration matrix are not `[3, 3]`, or those of the distortion vector
are not `[1, 5]`; every failure has the class `INVALID_FUNCTION_INPUT`; the elements of
the two matrices have no influence on the outcome; and on success the members hold the
arguments. -/
theorem constructor_validates_shapes (w h : Int) (cam dist : CvMat) (shown : Bool) :
    ((∃ e, newQRCodeStateEstimator w h cam dist shown = .error e) ↔
      (w ≤ 0 ∨ h ≤ 0 ∨ cam.size ≠ [3, 3] ∨ dist.size ≠ [1, 5])) ∧
    (∀ e, newQRCodeStateEstimator w h cam dist shown = .error e →
      e.exceptionType = exceptionClass.INVALID_FUNCTION_INPUT) ∧
    (∀ camElem distElem e, newQRCodeStateEstimator w h cam dist shown = .error e →
      newQRCodeStateEstimator w h { cam with elem := camElem } { dist with elem := distElem }
        shown = .error e) ∧
    (∀ est, newQRCodeStateEstimator w h cam dist shown = .ok est →
      est.expectedCameraImageWidth = w ∧ est.expectedCameraImageHeight = h ∧
      (∀ i j : Fin 3, est.cameraMatrix i j = cam.elem i.val j.val) ∧
      (∀ j : Fin 5, est.distortionParameters 0 j = dist.elem 0 j.val) ∧
      est.showResultsInWindow = shown) := by
  refine ⟨⟨?_, ?_⟩, ?_, ?_, ?_⟩
  · rintro ⟨e, he⟩
    by_contra hgood
    rw [newQRCodeStateEstimator_ok_iff, if_neg hgood] at he
    exact absurd he (by intro h'; cases h')
  · intro hbad
    obtain ⟨message, hm⟩ := newQRCodeStateEstimator_error w h cam dist shown hbad
    exact ⟨_, hm⟩
  · intro e he
    by_cases hbad : w ≤ 0 ∨ h ≤ 0 ∨ cam.size ≠ [3, 3] ∨ dist.size ≠ [1, 5]
    · obtain ⟨message, hm⟩ := newQRCodeStateEstimator_error w h cam dist shown hbad
      rw [hm] at he
      cases he
      rfl
    · rw [newQRCodeStateEstimator_ok_iff, if_neg hbad] at he
      exact absurd he (by intro h'; cases h')
  · intro camElem distElem e he
    unfold newQRCodeStateEstimator at he ⊢
    simp only [CvMat.dims] at he ⊢
    split_ifs at he ⊢ <;> first | exact he | exact absurd he (by intro h'; cases h')
  · intro est he
    by_cases hbad : w ≤ 0 ∨ h ≤ 0 ∨ cam.size ≠ [3, 3] ∨ dist.size ≠ [1, 5]
    · obtain ⟨message, hm⟩ := newQRCodeStateEstimator_error w h cam dist shown hbad
      rw [hm] at he
      exact absurd he (by intro h'; cases h')
    · rw [newQRCodeStateEstimator_ok_iff, if_neg hbad] at he
      cases he
      exact ⟨rfl, rfl, fun _ _ => rfl, fun _ => rfl, rfl⟩

/-- The arguments of `main.cpp` (1280 by 720, a 3x3 matrix, a 1x5 vector) are accepted
and stored; a width of 0 is refused. -/
theorem constructor_validates_shapes_witness :
    (∃ e, newQRCodeStateEstimator 0 720 (exampleCvMat [3, 3]) (exampleCvMat [1, 5]) true =
      .error e) ∧
    newQRCodeStateEstimator 1280 720 (exampleCvMat [3, 3]) (exampleCvMat [1, 5]) true =
      .ok
        { expectedCameraImageWidth := 1280
          expectedCameraImageHeight := 720
          cameraMatrix := fun _ _ => Double.finite 0
          distortionParameters := fun _ _ => Double.finite 0
          showResultsInWindow := true } ∧
    ((1280 : Int) = 1280 ∧ (720 : Int) = 720 ∧
      (∀ i j : Fin 3, Double.finite 0 = (exampleCvMat [3, 3]).elem i.val j.val) ∧
      (∀ j : Fin 5, Double.finite 0 = (exampleCvMat [1, 5]).elem 0 j.val) ∧
      true = true) :=
  ⟨(constructor_validates_shapes 0 720 (exampleCvMat [3, 3]) (exampleCvMat [1, 5]) true).1.2
      (Or.inl (le_refl 0)),
    rfl,
    (constructor_validates_shapes 1280 720 (exampleCvMat [3, 3]) (exampleCvMat [1, 5])
      true).2.2.2
      { expectedCameraImageWidth := 1280
        expectedCameraImageHeight := 720
        cameraMatrix := fun _ _ => Double.finite 0
        distortionParameters := fun _ _ => Double.finite 0
        showResultsInWindow := true } rfl⟩

/-- A calibration matrix of extents 3x4 and a distortion vector of extents 5x1 are
refused. -/
theorem constructor_refuses_wrong_shapes_example :
    (∃ message, newQRCodeStateEstimator 1280 720 (exampleCvMat [3, 4]) (exampleCvMat [1, 5])
      false = .error ⟨message, exceptionClass.INVALID_FUNCTION_INPUT⟩) ∧
    (∃ message, newQRCodeStateEstimator 1280 720 (exampleCvMat [3, 3]) (exampleCvMat [5, 1])
      false = .error ⟨message, exceptionClass.INVALID_FUNCTION_INPUT⟩) :=
  ⟨⟨_, rfl⟩, ⟨_, rfl⟩⟩

/-! ## The claims about the entries of the result -/

theorem estimate_ok_inv {cv : OpenCV} {est : QRCodeStateEstimator} {frame : Frame}
    {buffers : OutputBuffers} {returned : Bool} {out : OutputBuffers}
    (h : estimateOneOrMoreStatesFromGrayscaleFrame cv est frame buffers = .ok (returned, out)) :
    ∃ symbols, frame.channels = 1 ∧ frame.scan = some symbols ∧
      out = appendResolved cv est emptyBuffers symbols := by
  by_cases hc : frame.channels = 1
  · cases hs : frame.scan with
    | none =>
      rw [estimate_of_scan_error cv est frame buffers hc hs] at h
      exact absurd h (by intro h'; cases h')
    | some symbols =>
      rw [estimate_of_scan cv est frame buffers symbols hc hs] at h
      simp only [Except.ok.injEq, Prod.mk.injEq] at h
      exact ⟨symbols, hc, rfl, h.2.symm⟩
  · rw [estimate_of_wrong_channels cv est frame buffers hc] at h
    exact absurd h (by intro h'; cases h')

theorem resolvedEntry_eq_some {cv : OpenCV} {est : QRCodeStateEstimator} {symbol : Symbol}
    {e : Mat 4 4 × CppString × Double} (h : resolvedEntry cv est symbol = some e) :
    symbol.type = ZBAR_QRCODE ∧ symbol.location.length = 4 ∧
      extractQRCodeDimensionFromString symbol.data = .ok (some (e.2.2, e.2.1)) ∧
      e.1 = cameraPoseBuffer cv est symbol e.2.2 := by
  unfold resolvedEntry at h
  by_cases hq : symbol.type = ZBAR_QRCODE ∧ symbol.location.length = 4
  · rw [if_pos hq] at h
    obtain ⟨r, hr⟩ := extract_never_throws symbol.data symbol.dataLength
    rw [hr] at h
    cases r with
    | none => simp at h
    | some v =>
      obtain ⟨d, id⟩ := v
      simp only [Option.some.injEq] at h
      subst h
      exact ⟨hq.1, hq.2, hr, rfl⟩
  · rw [if_neg hq] at h
    simp at h

theorem example_frame_of_marker (symbol : Symbol) (d : Double) (id : CppString)
    (hq : symbol.type = ZBAR_QRCODE) (hl : symbol.location.length = 4)
    (hx : extractQRCodeDimensionFromString symbol.data = .ok (some (d, id))) :
    estimateOneOrMoreStatesFromGrayscaleFrame exampleOpenCV exampleEstimator
        { channels := 1, scan := some [symbol] } emptyBuffers =
      .ok (true, appendResolved exampleOpenCV exampleEstimator emptyBuffers [symbol]) ∧
    (appendResolved exampleOpenCV exampleEstimator emptyBuffers
      [symbol]).inputQRCodeDimensionsBuffer = [d] := by
  have he : resolvedEntry exampleOpenCV exampleEstimator symbol =
      some (cameraPoseBuffer exampleOpenCV exampleEstimator symbol d, id, d) := by
    unfold resolvedEntry
    simp only [hq, hl, and_self, if_true, hx]
  constructor
  · rw [estimate_of_scan exampleOpenCV exampleEstimator _ emptyBuffers [symbol] rfl rfl]
    simp only [appendResolved, List.filterMap_cons, he, List.filterMap_nil, emptyBuffers,
      List.nil_append, List.map_cons, List.map_nil, List.length_cons, List.length_nil]
    rfl
  · simp only [appendResolved, List.filterMap_cons, he, List.filterMap_nil, emptyBuffers,
      List.nil_append, List.map_cons, List.map_nil]

/-- C12, as stated, fails.  A QR symbol with four corners and the payload `0in-foo` puts
the size 0 into the dimensions buffer.  So does one with the payload `0x1p-1074mm-x`,
whose number, `2^-1074`, is greater than 0: its product with 0.001 rounds to 0. -/
theorem zero_size_in_dimensions_buffer :
    (estimateOneOrMoreStatesFromGrayscaleFrame exampleOpenCV exampleEstimator
        { channels := 1, scan := some [exampleZeroMarker] } emptyBuffers =
      .ok (true, appendResolved exampleOpenCV exampleEstimator emptyBuffers
        [exampleZeroMarker]) ∧
    (appendResolved exampleOpenCV exampleEstimator emptyBuffers
      [exampleZeroMarker]).inputQRCodeDimensionsBuffer = [Double.finite 0] ∧
    (Double.finite 0).isPositive = false) ∧
    (stod "0x1p-1074".toList = .ok (Double.finite (1 / 2 ^ 1074)) ∧
    (Double.finite (1 / 2 ^ 1074)).isPositive = true ∧
    estimateOneOrMoreStatesFromGrayscaleFrame exampleOpenCV exampleEstimator
        { channels := 1, scan := some [exampleTinyMarker] } emptyBuffers =
      .ok (true, appendResolved exampleOpenCV exampleEstimator emptyBuffers
        [exampleTinyMarker]) ∧
    (appendResolved exampleOpenCV exampleEstimator emptyBuffers
      [exampleTinyMarker]).inputQRCodeDimensionsBuffer = [Double.finite 0]) := by
  have h0 := example_frame_of_marker exampleZeroMarker (Double.finite 0) "foo".toList rfl rfl
    (by decide!)
  have h1 := example_frame_of_marker exampleTinyMarker (Double.finite 0) "x".toList rfl rfl
    (by decide!)
  exact ⟨⟨h0.1, h0.2, by decide⟩, by decide!, by decide!, h1.1, h1.2⟩

/-- C12, amended: every value in the dimensions buffer (the dimension that the parser
returned for a QR symbol of the scan with four corners) is greater than 0 when the number
read from the numeric portion of the payload of that symbol is at least `DBL_MIN` (or is
the positive infinity), and only when that number is greater than 0. -/
theorem dimensions_are_parser_output (cv : OpenCV) (est : QRCodeStateEstimator)
    (frame : Frame) (buffers : OutputBuffers) (returned : Bool) (out : OutputBuffers)
    (h : estimateOneOrMoreStatesFromGrayscaleFrame cv est frame buffers = .ok (returned, out)) :
    ∀ d ∈ out.inputQRCodeDimensionsBuffer, ∃ symbols symbol identifier t i v,
      frame.scan = some symbols ∧ symbol ∈ symbols ∧ symbol.type = ZBAR_QRCODE ∧
      symbol.location.length = 4 ∧
      extractQRCodeDimensionFromString symbol.data = .ok (some (d, identifier)) ∧
      IsLeftmostToken (toLowerCase symbol.data) t i ∧
      stod ((toLowerCase symbol.data).take i) = .ok v ∧
      (∀ a, v = Double.finite a → DBL_MIN ≤ a → d.isPositive = true) ∧
      (v = Double.infinite false → d.isPositive = true) ∧
      (d.isPositive = true → v.isPositive = true) := by
  obtain ⟨symbols, _, hs, rfl⟩ := estimate_ok_inv h
  intro d hd
  simp only [appendResolved, emptyBuffers, List.nil_append, List.mem_map,
    List.mem_filterMap] at hd
  obtain ⟨e, ⟨symbol, hmem, he⟩, rfl⟩ := hd
  obtain ⟨hq, hl, hx, _⟩ := resolvedEntry_eq_some he
  rcases extract_cases symbol.data with hno | ⟨t, i, f, hleft, hf⟩
  · rw [extract_of_no_token hno] at hx
    simp at hx
  · have hx' := hx
    rw [extract_of_leftmost hleft hf symbol.dataLength] at hx'
    cases hv : stod (List.take i (toLowerCase symbol.data)) with
    | error err => rw [hv] at hx'; simp at hx'
    | ok v =>
      rw [hv] at hx'
      simp only [Except.ok.injEq, Option.some.injEq, Prod.mk.injEq] at hx'
      obtain ⟨hpos1, hpos2⟩ := mul_factor_positive hf
      obtain ⟨q, rfl, hqpos⟩ := factor_pos_of_mem hf
      refine ⟨symbols, symbol, e.2.1, t, i, v, hs, hmem, hq, hl, hx, hleft, hv, ?_, ?_, ?_⟩
      · rintro a rfl ha
        rw [← hx'.1]
        exact hpos1 a ha
      · rintro rfl
        rw [← hx'.1]
        exact hpos2
      · rw [← hx'.1]
        exact isPositive_of_mul_factor v hqpos

/-- In the example frame the stored dimension 2 m comes from a marker of the scan. -/
theorem dimensions_are_parser_output_witness :
    Double.finite 2 ∈ (appendResolved exampleOpenCV exampleEstimator emptyBuffers
        [exampleMarker, exampleTriangle, exampleForeign,
          exampleMarker]).inputQRCodeDimensionsBuffer ∧
    ∃ symbols symbol identifier t i v,
      some [exampleMarker, exampleTriangle, exampleForeign, exampleMarker] = some symbols ∧
      symbol ∈ symbols ∧ symbol.type = ZBAR_QRCODE ∧ symbol.location.length = 4 ∧
      extractQRCodeDimensionFromString symbol.data =
        .ok (some (Double.finite 2, identifier)) ∧
      IsLeftmostToken (toLowerCase symbol.data) t i ∧
      stod ((toLowerCase symbol.data).take i) = .ok v ∧
      (∀ a, v = Double.finite a → DBL_MIN ≤ a → (Double.finite 2).isPositive = true) ∧
      (v = Double.infinite false → (Double.finite 2).isPositive = true) ∧
      ((Double.finite 2).isPositive = true → v.isPositive = true) :=
  ⟨by decide!,
    dimensions_are_parser_output exampleOpenCV exampleEstimator
      { channels := 1,
        scan := some [exampleMarker, exampleTriangle, exampleForeign, exampleMarker] }
      emptyBuffers true _ example_frame_result (Double.finite 2) (by decide!)⟩

/-! ## The assembled transform and its inverse -/

theorem exact_ofExact {rows cols : Nat} (M : Matrix (Fin rows) (Fin cols) ℚ) :
    Mat.exact (Mat.ofExact M) = M := by
  funext i j
  rfl

theorem exact_viewMatrix (R : Matrix (Fin 3) (Fin 3) ℚ) (t : Matrix (Fin 3) (Fin 1) ℚ) :
    Mat.exact (viewMatrix (Mat.ofExact R) (Mat.ofExact t)) =
      !![R 0 0, R 0 1, R 0 2, t 0 0;
         R 1 0, R 1 1, R 1 2, t 1 0;
         R 2 0, R 2 1, R 2 2, t 2 0;
         0, 0, 0, 1] := by
  ext i j
  fin_cases i <;> fin_cases j <;> rfl

theorem viewMatrix_finite (R : Matrix (Fin 3) (Fin 3) ℚ) (t : Matrix (Fin 3) (Fin 1) ℚ) :
    viewMatrix (Mat.ofExact R) (Mat.ofExact t) =
      Mat.ofExact (Mat.exact (viewMatrix (Mat.ofExact R) (Mat.ofExact t))) := by
  funext i j
  fin_cases i <;> fin_cases j <;> rfl

theorem exact_viewMatrix_blocks (R : Matrix (Fin 3) (Fin 3) ℚ)
    (t : Matrix (Fin 3) (Fin 1) ℚ) :
    Mat.exact (viewMatrix (Mat.ofExact R) (Mat.ofExact t)) =
      (Matrix.fromBlocks R t 0 (1 : Matrix (Fin 1) (Fin 1) ℚ)).submatrix
        finSumFinEquiv.symm finSumFinEquiv.symm := by
  ext i j
  fin_cases i <;> fin_cases j <;> rfl

theorem det_exact_viewMatrix (R : Matrix (Fin 3) (Fin 3) ℚ) (t : Matrix (Fin 3) (Fin 1) ℚ) :
    (Mat.exact (viewMatrix (Mat.ofExact R) (Mat.ofExact t))).det = R.det := by
  rw [exact_viewMatrix_blocks, Matrix.det_submatrix_equiv_self, Matrix.det_fromBlocks_zero₂₁,
    Matrix.det_one, mul_one]

theorem invertsExactly_exactOpenCV : InvertsExactly exactOpenCV := by
  intro M hdet
  refine ⟨M.det⁻¹ • M.adjugate, ?_, ?_⟩
  · simp only [exactOpenCV, exact_ofExact, hdet, if_false]
  · rw [Matrix.smul_mul, Matrix.adjugate_mul, smul_smul, inv_mul_cancel₀ hdet, one_smul]

theorem viewMatrix_eq_homogeneousTransform (R : Matrix (Fin 3) (Fin 3) ℚ)
    (t : Matrix (Fin 3) (Fin 1) ℚ) :
    viewMatrix (Mat.ofExact R) (Mat.ofExact t) = Mat.ofExact (homogeneousTransform R t) := by
  rw [viewMatrix_finite, exact_viewMatrix]
  rfl

theorem det_homogeneousTransform (R : Matrix (Fin 3) (Fin 3) ℚ)
    (t : Matrix (Fin 3) (Fin 1) ℚ) : (homogeneousTransform R t).det = R.det := by
  have h := det_exact_viewMatrix R t
  rw [exact_viewMatrix] at h
  exact h

/-- C17.  Let the rotation matrix that `Rodrigues` returns for a symbol be `R`, with a
determinant other than zero, and the translation of the solver be `t`.  The transform
that the pipeline assembles is the homogeneous matrix `V` with the block `R`, the column
`t` and the bottom row `[0, 0, 0, 1]`; its determinant is that of `R`, so that it is
invertible; and the pose stored for the symbol is what `invert` leaves for `V`.  With an
exact `invert`, the stored pose has finite entries and is a two-sided inverse of `V`,
and `invert` on the stored pose gives `V` back. -/
theorem pose_inversion_round_trip (cv : OpenCV)
    (est : QRCodeStateEstimator) (symbol : Symbol) (d : Double)
    (R : Matrix (Fin 3) (Fin 3) ℚ) (t : Matrix (Fin 3) (Fin 1) ℚ) (hR : R.det ≠ 0)
    (hrot : cv.Rodrigues (cv.solvePnP (objectVerticesInObjectCoordinates d)
        (symbol.location.map (fun p => ⟨Double.ofInt p.1, Double.ofInt p.2⟩))
        est.cameraMatrix est.distortionParameters).1 = Mat.ofExact R)
    (htr : (cv.solvePnP (objectVerticesInObjectCoordinates d)
        (symbol.location.map (fun p => ⟨Double.ofInt p.1, Double.ofInt p.2⟩))
        est.cameraMatrix est.distortionParameters).2 = Mat.ofExact t) :
    viewMatrix (Mat.ofExact R) (Mat.ofExact t) = Mat.ofExact (homogeneousTransform R t) ∧
    (homogeneousTransform R t).det = R.det ∧
    Mat.IsInvertible (viewMatrix (Mat.ofExact R) (Mat.ofExact t)) ∧
    cameraPoseBuffer cv est symbol d =
      (cv.invert (Mat.ofExact (homogeneousTransform R t))).2 ∧
    (InvertsExactly cv →
      cameraPoseBuffer cv est symbol d =
        Mat.ofExact (Mat.exact (cameraPoseBuffer cv est symbol d)) ∧
      Mat.exact (cameraPoseBuffer cv est symbol d) * homogeneousTransform R t = 1 ∧
      homogeneousTransform R t * Mat.exact (cameraPoseBuffer cv est symbol d) = 1 ∧
      (cv.invert (cameraPoseBuffer cv est symbol d)).2 =
        Mat.ofExact (homogeneousTransform R t)) := by
  have hV := viewMatrix_eq_homogeneousTransform R t
  have hdet : (homogeneousTransform R t).det ≠ 0 := by
    rw [det_homogeneousTransform]
    exact hR
  have hpose : cameraPoseBuffer cv est symbol d =
      (cv.invert (Mat.ofExact (homogeneousTransform R t))).2 := by
    unfold cameraPoseBuffer
    simp only [hrot, htr, hV]
  refine ⟨hV, det_homogeneousTransform R t, ⟨viewMatrix_finite R t, ?_⟩, hpose, ?_⟩
  · rw [det_exact_viewMatrix]
    exact hR
  intro hcv
  obtain ⟨W, hW, hWV⟩ := hcv _ hdet
  have hVW : homogeneousTransform R t * W = 1 := Matrix.mul_eq_one_comm.1 hWV
  have hWdet : W.det ≠ 0 := by
    intro h0
    have := congrArg Matrix.det hWV
    rw [Matrix.det_mul, h0, zero_mul, Matrix.det_one] at this
    exact zero_ne_one this
  obtain ⟨U, hU, hUW⟩ := hcv W hWdet
  have hUV : U = homogeneousTransform R t := by
    calc U = U * (W * homogeneousTransform R t) := by rw [hWV, Matrix.mul_one]
      _ = homogeneousTransform R t := by rw [← Matrix.mul_assoc, hUW, Matrix.one_mul]
  have hexact : Mat.exact (cameraPoseBuffer cv est symbol d) = W := by
    rw [hpose, hW, exact_ofExact]
  refine ⟨?_, ?_, ?_, ?_⟩
  · rw [hexact, hpose, hW]
  · rw [hexact]
    exact hWV
  · rw [hexact]
    exact hVW
  · rw [hpose, hW, hU, hUV]

/-- The example marker, a quarter turn about the optical axis and the translation
`(1, 2, 3)`, inverted by the adjugate. -/
theorem pose_inversion_round_trip_witness :
    InvertsExactly exactOpenCV ∧
    (!![0, -1, 0; 1, 0, 0; 0, 0, 1] : Matrix (Fin 3) (Fin 3) ℚ).det ≠ 0 ∧
    Mat.exact (cameraPoseBuffer exactOpenCV exampleEstimator exampleMarker (Double.finite 2)) *
        homogeneousTransform !![0, -1, 0; 1, 0, 0; 0, 0, 1] !![1; 2; 3] = 1 ∧
    homogeneousTransform !![0, -1, 0; 1, 0, 0; 0, 0, 1] !![1; 2; 3] *
        Mat.exact (cameraPoseBuffer exactOpenCV exampleEstimator exampleMarker
          (Double.finite 2)) = 1 ∧
    (exactOpenCV.invert (cameraPoseBuffer exactOpenCV exampleEstimator exampleMarker
        (Double.finite 2))).2 =
      Mat.ofExact (homogeneousTransform !![0, -1, 0; 1, 0, 0; 0, 0, 1] !![1; 2; 3]) :=
  ⟨invertsExactly_exactOpenCV, by norm_num [Matrix.det_fin_three],
    ((pose_inversion_round_trip exactOpenCV exampleEstimator
      exampleMarker (Double.finite 2) !![0, -1, 0; 1, 0, 0; 0, 0, 1] !![1; 2; 3]
      (by norm_num [Matrix.det_fin_three]) rfl rfl).2.2.2.2
        invertsExactly_exactOpenCV).2⟩

/-- The pose stored for the example marker, entry by entry: the quarter turn back and
the translation `(-2, 1, -3)`. -/
theorem stored_pose_example :
    cameraPoseBuffer exactOpenCV exampleEstimator exampleMarker (Double.finite 2) =
      Mat.ofExact !![0, 1, 0, -2; -1, 0, 0, 1; 0, 0, 1, -3; 0, 0, 0, 1] := by
  funext i j
  fin_cases i <;> fin_cases j <;> decide!

/-- The pose stored for a symbol is the destination of `invert` on the transform
assembled from what `Rodrigues` and the solver return. -/
theorem cameraPoseBuffer_eq (cv : OpenCV) (est : QRCodeStateEstimator) (symbol : Symbol)
    (d : Double) :
    cameraPoseBuffer cv est symbol d =
      (cv.invert (viewMatrix
        (cv.Rodrigues (cv.solvePnP (objectVerticesInObjectCoordinates d)
          (symbol.location.map (fun p => ⟨Double.ofInt p.1, Double.ofInt p.2⟩))
          est.cameraMatrix est.distortionParameters).1)
        (cv.solvePnP (objectVerticesInObjectCoordinates d)
          (symbol.location.map (fun p => ⟨Double.ofInt p.1, Double.ofInt p.2⟩))
          est.cameraMatrix est.distortionParameters).2)).2 := rfl

/-! ## The outcome of the inversion -/

theorem resolvedEntry_of_accepted (cv : OpenCV) (est : QRCodeStateEstimator)
    (symbol : Symbol) (d : Double) (id : CppString) (hq : symbol.type = ZBAR_QRCODE)
    (hl : symbol.location.length = 4)
    (hx : extractQRCodeDimensionFromString symbol.data = .ok (some (d, id))) :
    resolvedEntry cv est symbol = some (cameraPoseBuffer cv est symbol d, id, d) := by
  unfold resolvedEntry
  simp only [hq, hl, and_self, if_true, hx]

/-- C11, as stated, fails: with a solution whose rotation matrix is the zero matrix the
assembled transform is not invertible and `invert` returns 0, yet the marker is not
excluded: the zero matrix that `invert` leaves, the identifier `x` and the dimension
2 m are appended and the call returns true. -/
theorem singular_transform_appended :
    ¬ Mat.IsInvertible (viewMatrix (Mat.ofExact 0) (Mat.ofExact 0)) ∧
    (degenerateOpenCV.invert (viewMatrix (Mat.ofExact 0) (Mat.ofExact 0))).1 =
      Double.finite 0 ∧
    cameraPoseBuffer degenerateOpenCV exampleEstimator exampleMarker (Double.finite 2) =
      (degenerateOpenCV.invert (viewMatrix (Mat.ofExact 0) (Mat.ofExact 0))).2 ∧
    estimateOneOrMoreStatesFromGrayscaleFrame degenerateOpenCV exampleEstimator
        { channels := 1, scan := some [exampleMarker] } emptyBuffers =
      .ok (true,
        { inputCameraPosesBuffer := [Mat.ofExact 0]
          inputQRCodeIdentifiersBuffer := ["x".toList]
          inputQRCodeDimensionsBuffer := [Double.finite 2] }) := by
  refine ⟨?_, rfl, rfl, ?_⟩
  · rintro ⟨_, hdet⟩
    rw [det_exact_viewMatrix, Matrix.det_zero ⟨0⟩] at hdet
    exact hdet rfl
  · have hx : extractQRCodeDimensionFromString exampleMarker.data =
        .ok (some (Double.finite 2, "x".toList)) := by decide!
    rw [estimate_of_scan degenerateOpenCV exampleEstimator _ emptyBuffers [exampleMarker]
      rfl rfl]
    simp only [appendResolved, List.filterMap_cons, List.filterMap_nil,
      resolvedEntry_of_accepted degenerateOpenCV exampleEstimator exampleMarker _ _ rfl rfl hx,
      emptyBuffers, List.nil_append, List.map_cons, List.map_nil, List.length_cons,
      List.length_nil]
    rfl

/-- C11, amended: no marker is excluded because of its transform.  For every QR symbol
with four corners and a payload the parser accepts, invertible transform or not, the
matrix that `invert` leaves in its destination, the identifier and the dimension are
appended and the frame goes on; the value `invert` returns is never read, so that the
result of a call is the same whatever that value is. -/
theorem inversion_outcome_not_read (cv : OpenCV) (est : QRCodeStateEstimator)
    (status : Mat 4 4 → Double) :
    (∀ out symbol d id, symbol.type = ZBAR_QRCODE → symbol.location.length = 4 →
      extractQRCodeDimensionFromString symbol.data = .ok (some (d, id)) →
      processSymbol cv est out symbol = .ok
        { inputCameraPosesBuffer := out.inputCameraPosesBuffer ++
            [(cv.invert (viewMatrix
              (cv.Rodrigues (cv.solvePnP (objectVerticesInObjectCoordinates d)
                (symbol.location.map (fun p => ⟨Double.ofInt p.1, Double.ofInt p.2⟩))
                est.cameraMatrix est.distortionParameters).1)
              (cv.solvePnP (objectVerticesInObjectCoordinates d)
                (symbol.location.map (fun p => ⟨Double.ofInt p.1, Double.ofInt p.2⟩))
                est.cameraMatrix est.distortionParameters).2)).2]
          inputQRCodeIdentifiersBuffer := out.inputQRCodeIdentifiersBuffer ++ [id]
          inputQRCodeDimensionsBuffer := out.inputQRCodeDimensionsBuffer ++ [d] }) ∧
    (∀ frame buffers,
      estimateOneOrMoreStatesFromGrayscaleFrame
          { cv with invert := fun m => (status m, (cv.invert m).2) } est frame buffers =
        estimateOneOrMoreStatesFromGrayscaleFrame cv est frame buffers) := by
  constructor
  · intro out symbol d id hq hl hx
    rw [processSymbol_eq]
    simp only [appendResolved, List.filterMap_cons, List.filterMap_nil,
      resolvedEntry_of_accepted cv est symbol d id hq hl hx, List.map_cons, List.map_nil]
    rfl
  · intro frame buffers
    rfl

/-- The example marker gets its entry, and its frame gives the same result when `invert`
reports failure throughout. -/
theorem inversion_outcome_not_read_witness :
    processSymbol exampleOpenCV exampleEstimator emptyBuffers exampleMarker = .ok
        { inputCameraPosesBuffer := emptyBuffers.inputCameraPosesBuffer ++
            [(exampleOpenCV.invert (viewMatrix
              (exampleOpenCV.Rodrigues (exampleOpenCV.solvePnP
                (objectVerticesInObjectCoordinates (Double.finite 2))
                (exampleMarker.location.map (fun p => ⟨Double.ofInt p.1, Double.ofInt p.2⟩))
                exampleEstimator.cameraMatrix exampleEstimator.distortionParameters).1)
              (exampleOpenCV.solvePnP
                (objectVerticesInObjectCoordinates (Double.finite 2))
                (exampleMarker.location.map (fun p => ⟨Double.ofInt p.1, Double.ofInt p.2⟩))
                exampleEstimator.cameraMatrix exampleEstimator.distortionParameters).2)).2]
          inputQRCodeIdentifiersBuffer :=
            emptyBuffers.inputQRCodeIdentifiersBuffer ++ ["x".toList]
          inputQRCodeDimensionsBuffer :=
            emptyBuffers.inputQRCodeDimensionsBuffer ++ [Double.finite 2] } ∧
    estimateOneOrMoreStatesFromGrayscaleFrame
        { exampleOpenCV with
          invert := fun m => ((fun _ => Double.finite 0) m, (exampleOpenCV.invert m).2) }
        exampleEstimator { channels := 1, scan := some [exampleMarker] } emptyBuffers =
      estimateOneOrMoreStatesFromGrayscaleFrame exampleOpenCV exampleEstimator
        { channels := 1, scan := some [exampleMarker] } emptyBuffers :=
  ⟨(inversion_outcome_not_read exampleOpenCV exampleEstimator (fun _ => Double.finite 0)).1
      emptyBuffers exampleMarker (Double.finite 2) "x".toList rfl rfl (by decide!),
    (inversion_outcome_not_read exampleOpenCV exampleEstimator (fun _ => Double.finite 0)).2
      { channels := 1, scan := some [exampleMarker] } emptyBuffers⟩

/-! ## The corners of the marker -/

theorem objectVertices_of_half {d : Double} {b : ℚ} (h : d.half = Double.finite b) :
    objectVerticesInObjectCoordinates d =
      [⟨Double.finite (-b), Double.finite (-b), Double.finite 0⟩,
       ⟨Double.finite b, Double.finite (-b), Double.finite 0⟩,
       ⟨Double.finite b, Double.finite b, Double.finite 0⟩,
       ⟨Double.finite (-b), Double.finite b, Double.finite 0⟩] := by
  unfold objectVerticesInObjectCoordinates
  simp only [h]
  rfl

theorem sqrt_of_square (s q : ℚ) (h : q = s * s) : Real.sqrt (q : ℝ) = |(s : ℝ)| := by
  rw [h, Rat.cast_mul, ← sq, Real.sqrt_sq_eq_abs]

/-- C19, as stated, fails.  The payload `0x1p-1074m-x` is accepted with the size
`s = 2^-1074`, the smallest positive `double`; `s / 2.0` rounds to 0, so that the four
corners all are `(0, 0, 0)`: they are not `(±s/2, ±s/2, 0)`, and each is at the distance 0
from the next, not `|s|`.  And the payload `infin-x` is accepted with an infinite size
(the numeric portion is `inf`), for which the corners are no points of space: they have
no centroid and no distances. -/
theorem degenerate_sizes_give_no_square :
    (extractQRCodeDimensionFromString "0x1p-1074m-x".toList =
        .ok (some (Double.finite (1 / 2 ^ 1074), "x".toList)) ∧
      objectVerticesInObjectCoordinates (Double.finite (1 / 2 ^ 1074)) =
        [⟨Double.finite 0, Double.finite 0, Double.finite 0⟩,
         ⟨Double.finite 0, Double.finite 0, Double.finite 0⟩,
         ⟨Double.finite 0, Double.finite 0, Double.finite 0⟩,
         ⟨Double.finite 0, Double.finite 0, Double.finite 0⟩] ∧
      (∀ pair ∈ cyclicPairs ((objectVerticesInObjectCoordinates
          (Double.finite (1 / 2 ^ 1074))).filterMap Point3d.position?),
        squaredDistance pair.1 pair.2 = 0 ∧
          squaredDistance pair.1 pair.2 ≠ (1 / 2 ^ 1074) ^ 2)) ∧
    (extractQRCodeDimensionFromString "infin-x".toList =
        .ok (some (Double.infinite false, "x".toList)) ∧
      (objectVerticesInObjectCoordinates (Double.infinite false)).map Point3d.position? =
        [none, none, none, none]) :=
  ⟨⟨by decide!, by decide!, by decide!⟩, by decide!, by decide!⟩

/-- C19, amended: for every finite parsed size `s`, a `double`, that is zero or of
magnitude at least `2^-1021` (so that `s / 2.0` is exact), the corners handed to the
solver are, in index order, `(-s/2, -s/2, 0)`, `(s/2, -s/2, 0)`, `(s/2, s/2, 0)`,
`(-s/2, s/2, 0)`; they lie in the plane `z = 0`, their centroid is the origin, each is
`|s|` away from the next (the last from the first), and the solver receives them together
with the pixel corners of the symbol in the order of the decoder, index for index. -/
theorem marker_corners_form_square (s : ℚ) (hs : roundBinary64 s = Double.finite s)
    (hmag : s = 0 ∨ 1 / 2 ^ 1021 ≤ |s|) :
    objectVerticesInObjectCoordinates (Double.finite s) =
      [⟨Double.finite (-(s / 2)), Double.finite (-(s / 2)), Double.finite 0⟩,
       ⟨Double.finite (s / 2), Double.finite (-(s / 2)), Double.finite 0⟩,
       ⟨Double.finite (s / 2), Double.finite (s / 2), Double.finite 0⟩,
       ⟨Double.finite (-(s / 2)), Double.finite (s / 2), Double.finite 0⟩] ∧
    (objectVerticesInObjectCoordinates (Double.finite s)).map Point3d.position? =
      [some (-(s / 2), -(s / 2), 0), some (s / 2, -(s / 2), 0), some (s / 2, s / 2, 0),
       some (-(s / 2), s / 2, 0)] ∧
    (∀ p ∈ objectVerticesInObjectCoordinates (Double.finite s), p.z = Double.finite 0) ∧
    centroid ((objectVerticesInObjectCoordinates (Double.finite s)).filterMap
      Point3d.position?) = (0, 0, 0) ∧
    (∀ pair ∈ cyclicPairs ((objectVerticesInObjectCoordinates (Double.finite s)).filterMap
        Point3d.position?),
      Real.sqrt ((squaredDistance pair.1 pair.2 : ℚ) : ℝ) = |(s : ℝ)|) ∧
    (∀ (cv : OpenCV) (est : QRCodeStateEstimator) (symbol : Symbol),
      cameraPoseBuffer cv est symbol (Double.finite s) =
        (cv.invert (viewMatrix
          (cv.Rodrigues (cv.solvePnP (objectVerticesInObjectCoordinates (Double.finite s))
            (symbol.location.map (fun p => ⟨Double.ofInt p.1, Double.ofInt p.2⟩))
            est.cameraMatrix est.distortionParameters).1)
          (cv.solvePnP (objectVerticesInObjectCoordinates (Double.finite s))
            (symbol.location.map (fun p => ⟨Double.ofInt p.1, Double.ofInt p.2⟩))
            est.cameraMatrix est.distortionParameters).2)).2 ∧
      ∀ k : Nat,
        (symbol.location.map
          (fun p => (⟨Double.ofInt p.1, Double.ofInt p.2⟩ : Point2d)))[k]? =
          (symbol.location[k]?).map (fun p => ⟨Double.ofInt p.1, Double.ofInt p.2⟩)) := by
  have hhalf : (Double.finite s).half = Double.finite (s / 2) := by
    rcases hmag with rfl | hmag
    · rw [half_zero, zero_div]
    · exact half_exact hs hmag
  have hcorners := objectVertices_of_half hhalf
  refine ⟨hcorners, ?_, ?_, ?_, ?_, ?_⟩
  · rw [hcorners]
    rfl
  · intro p hp
    rw [hcorners] at hp
    simp only [List.mem_cons, List.mem_singleton, List.not_mem_nil, or_false] at hp
    rcases hp with rfl | rfl | rfl | rfl <;> rfl
  · rw [hcorners]
    simp only [List.filterMap_cons, Point3d.position?, Double.value?, List.filterMap_nil,
      centroid, List.map_cons, List.map_nil, List.sum_cons, List.sum_nil, List.length_cons,
      List.length_nil, Prod.mk.injEq]
    refine ⟨?_, ?_, ?_⟩ <;> ring
  · intro pair hpair
    rw [hcorners] at hpair
    simp only [List.filterMap_cons, Point3d.position?, Double.value?, List.filterMap_nil,
      cyclicPairs, List.rotate_cons_succ, List.rotate_zero, List.cons_append,
      List.nil_append, List.zip_cons_cons, List.zip_nil_right, List.mem_cons,
      List.mem_singleton, List.not_mem_nil, or_false] at hpair
    rcases hpair with rfl | rfl | rfl | rfl <;>
      exact sqrt_of_square _ _ (by simp only [squaredDistance]; ring)
  · intro cv est symbol
    exact ⟨rfl, fun k => List.getElem?_map _ _ _⟩

/-- The marker of 2 m of the examples. -/
theorem marker_corners_form_square_witness :
    roundBinary64 2 = Double.finite 2 ∧ ((2 : ℚ) = 0 ∨ 1 / 2 ^ 1021 ≤ |(2 : ℚ)|) ∧
    objectVerticesInObjectCoordinates (Double.finite 2) =
      [⟨Double.finite (-(2 / 2)), Double.finite (-(2 / 2)), Double.finite 0⟩,
       ⟨Double.finite (2 / 2), Double.finite (-(2 / 2)), Double.finite 0⟩,
       ⟨Double.finite (2 / 2), Double.finite (2 / 2), Double.finite 0⟩,
       ⟨Double.finite (-(2 / 2)), Double.finite (2 / 2), Double.finite 0⟩] ∧
    centroid ((objectVerticesInObjectCoordinates (Double.finite 2)).filterMap
      Point3d.position?) = (0, 0, 0) ∧
    (∀ pair ∈ cyclicPairs ((objectVerticesInObjectCoordinates (Double.finite 2)).filterMap
        Point3d.position?),
      Real.sqrt ((squaredDistance pair.1 pair.2 : ℚ) : ℝ) = |((2 : ℚ) : ℝ)|) :=
  ⟨by decide!, by decide!,
    (marker_corners_form_square 2 (by decide!) (by decide!)).1,
    (marker_corners_form_square 2 (by decide!) (by decide!)).2.2.2.1,
    (marker_corners_form_square 2 (by decide!) (by decide!)).2.2.2.2.1⟩

/-! ## The claim about the text of an exception -/

/-- C21 fails on the code at two enumerators: `SQLITE3_ERROR` is given the text
`ZMQ_ERROR`, the same as `ZMQ_ERROR` itself, and `ZBAR_ERROR` has no case and falls to
the `default` branch, the empty text, so that the scanner error of the pipeline reads
`Error of type  occurred in file ...`. -/
theorem exceptionClassToString_slips :
    exceptionClassToString exceptionClass.SQLITE3_ERROR = "ZMQ_ERROR" ∧
    exceptionClassToString exceptionClass.SQLITE3_ERROR ≠
      exceptionClass.spelling exceptionClass.SQLITE3_ERROR ∧
    exceptionClassToString exceptionClass.SQLITE3_ERROR =
      exceptionClassToString exceptionClass.ZMQ_ERROR ∧
    exceptionClassToString exceptionClass.ZBAR_ERROR = "" ∧
    exceptionClassToString exceptionClass.ZBAR_ERROR ≠
      exceptionClass.spelling exceptionClass.ZBAR_ERROR ∧
    SOMException.toString
        ⟨"QR code scanner returned with error\n", exceptionClass.ZBAR_ERROR⟩
        "QRCodeStateEstimator.cpp" "176" =
      "Error of type  occurred in file QRCodeStateEstimator.cpp at line 176: " ++
        "QR code scanner returned with error\n" := by
  refine ⟨rfl, by decide, rfl, rfl, by decide, by decide⟩

/-- On the other eleven enumerators `exceptionClassToString` gives the spelling of the
enumerator. -/
theorem exceptionClassToString_of_other (c : exceptionClass)
    (h1 : c ≠ exceptionClass.SQLITE3_ERROR) (h2 : c ≠ exceptionClass.ZBAR_ERROR) :
    exceptionClassToString c = c.spelling := by
  cases c <;> first | rfl | exact absurd rfl h1 | exact absurd rfl h2

/-! ## The order of the unit table -/

theorem extractWithTable_own_order (p : CppString) :
    extractWithTable unitIdentifierToMetricMeterConversionFactor p =
      extractQRCodeDimensionFromString p := rfl

theorem lookup_of_mem_of_nodup_keys {l : List (CppString × Double)} {k : CppString}
    {v : Double} (hn : (l.map Prod.fst).Nodup) (h : (k, v) ∈ l) : l.lookup k = some v := by
  induction l with
  | nil => exact absurd h (List.not_mem_nil _)
  | cons e l ih =>
    obtain ⟨k', v'⟩ := e
    simp only [List.map_cons, List.nodup_cons] at hn
    rcases List.mem_cons.1 h with heq | hmem
    · simp only [Prod.mk.injEq] at heq
      obtain ⟨rfl, rfl⟩ := heq
      exact List.lookup_cons_self
    · have hne : k ≠ k' := by
        rintro rfl
        exact hn.1 (List.mem_map_of_mem Prod.fst hmem)
      rw [List.lookup_cons]
      have hb : (k == k') = false := by simpa using hne
      rw [hb]
      exact ih hn.2 hmem

theorem lookup_perm {l l' : List (CppString × Double)} (hp : l'.Perm l)
    (hn : (l.map Prod.fst).Nodup) (k : CppString) : l'.lookup k = l.lookup k := by
  have hn' : (l'.map Prod.fst).Nodup := (hp.map Prod.fst).nodup_iff.2 hn
  cases h : l.lookup k with
  | none =>
    rw [List.lookup_eq_none_iff] at h ⊢
    intro e he
    exact h e (hp.mem_iff.1 he)
  | some v =>
    have hmem : (k, v) ∈ l := by
      obtain ⟨l₁, l₂, rfl, _⟩ := List.lookup_eq_some_iff.1 h
      simp
    exact lookup_of_mem_of_nodup_keys hn' (hp.mem_iff.2 hmem)

theorem unitTable_keys_nodup :
    (unitIdentifierToMetricMeterConversionFactor.map Prod.fst).Nodup := by
  decide

theorem mapAt_perm {table : List (CppString × Double)}
    (hp : table.Perm unitIdentifierToMetricMeterConversionFactor) (k : CppString) :
    mapAt table k = mapAt unitIdentifierToMetricMeterConversionFactor k := by
  unfold mapAt
  rw [lookup_perm hp unitTable_keys_nodup]

/-- In a buffer of at most `2^32 + 1` characters two unit tokens that are found have
distinct values of `currentIndex`: a token of two characters or more starts below
`2^32`. -/
theorem currentIndex_injective {buffer t u : CppString} (hlen : buffer.length < 2 ^ 32 + 2)
    (ht : t ∈ unitTokens) (hu : u ∈ unitTokens) (hne : currentIndex buffer t ≠ -1)
    (h : currentIndex buffer t = currentIndex buffer u) : t = u := by
  obtain ⟨k, hk⟩ := find_of_currentIndex_ne hne
  obtain ⟨k', hk'⟩ := find_of_currentIndex_ne (h ▸ hne)
  have h1 := find_add_two_le ht hk
  have h2 := find_add_two_le hu hk'
  have e1 : currentIndex buffer t = toInt k := by unfold currentIndex; rw [hk]; rfl
  have e2 : currentIndex buffer u = toInt k' := by unfold currentIndex; rw [hk']; rfl
  rw [e1, e2] at h
  have hkk : k = k' := toInt_injOn (by omega) (by omega) h
  subst hkk
  exact unitToken_eq_of_prefix_same ht hu ((find_eq_some_iff buffer t k).1 hk).1
    ((find_eq_some_iff buffer u k).1 hk').1

theorem unitSearchIn_perm {table : List (CppString × Double)}
    (hp : table.Perm unitIdentifierToMetricMeterConversionFactor) (buffer : CppString)
    (hlen : buffer.length < 2 ^ 32 + 2) :
    unitSearchIn table buffer = unitSearch buffer := by
  obtain ⟨_, a2, a3⟩ := foldl_unitSearchStep_spec buffer table
    { minimumUnitIdentifierStartingIndex := toInt buffer.length, minimumUnitIDType := [] }
  obtain ⟨_, b2, b3⟩ := foldl_unitSearchStep_spec buffer
    unitIdentifierToMetricMeterConversionFactor
    { minimumUnitIdentifierStartingIndex := toInt buffer.length, minimumUnitIDType := [] }
  show table.foldl (unitSearchStep buffer) _ =
    unitIdentifierToMetricMeterConversionFactor.foldl (unitSearchStep buffer) _
  rcases a3 with a3 | ⟨alt, e, he, at', an, af⟩
  · rcases b3 with b3 | ⟨blt, e', he', _, bn, bf⟩
    · rw [a3, b3]
    · exfalso
      have := a2 e' (hp.mem_iff.2 he') bn
      rw [a3] at this
      rw [bf] at blt
      simp only at blt this
      omega
  · rcases b3 with b3 | ⟨blt, e', he', bt, bn, bf⟩
    · exfalso
      have := b2 e (hp.mem_iff.1 he) an
      rw [b3] at this
      rw [af] at alt
      simp only at alt this
      omega
    · have h1 := a2 e' (hp.mem_iff.2 he') bn
      have h2 := b2 e (hp.mem_iff.1 he) an
      rw [af] at h1
      rw [bf] at h2
      have hcur : currentIndex buffer e.1 = currentIndex buffer e'.1 := le_antisymm h1 h2
      have hty : e.1 = e'.1 := currentIndex_injective hlen
        (List.mem_map_of_mem Prod.fst (hp.mem_iff.1 he)) (List.mem_map_of_mem Prod.fst he')
        an hcur
      cases hA : table.foldl (unitSearchStep buffer)
          { minimumUnitIdentifierStartingIndex := toInt buffer.length
            minimumUnitIDType := [] } with
      | mk ia ta =>
        cases hB : unitIdentifierToMetricMeterConversionFactor.foldl (unitSearchStep buffer)
            { minimumUnitIdentifierStartingIndex := toInt buffer.length
              minimumUnitIDType := [] } with
        | mk ib tb =>
          rw [hA] at af at'
          rw [hB] at bf bt
          simp only at af at' bf bt
          rw [af, at', bf, bt, hcur, hty]

theorem extractWithTable_perm {table : List (CppString × Double)}
    (hp : table.Perm unitIdentifierToMetricMeterConversionFactor) (p : CppString)
    (hlen : p.length < 2 ^ 32 + 2) :
    extractWithTable table p = extractQRCodeDimensionFromString p := by
  unfold extractWithTable extractQRCodeDimensionFromString
  simp only [unitSearchIn_perm hp _ (by rw [toLowerCase_length]; exact hlen), mapAt_perm hp]

/-- C22, as stated, fails: in the payload `1ft-`, `2^32 - 3` letters `x`, `m-` the tokens
`ft-` and `m-` are first found at the indices 1 and `2^32 + 1`, which the `int` of the
loop holds as the same value 1; the strict `<` keeps the one that the table yields
first, so that the table in the order of the map gives 1 ft, and the table in the order
of the header gives 1 m with another identifier. -/
theorem colliding_indices_depend_on_order :
    unitTableAsDeclared.Perm unitIdentifierToMetricMeterConversionFactor ∧
    find payloadWithCollidingTokens "ft-".toList = some 1 ∧
    find payloadWithCollidingTokens "m-".toList = some (2 ^ 32 + 1) ∧
    currentIndex payloadWithCollidingTokens "ft-".toList = 1 ∧
    currentIndex payloadWithCollidingTokens "m-".toList = 1 ∧
    extractQRCodeDimensionFromString payloadWithCollidingTokens =
      .ok (some (roundBinary64 (3048 / 10000), payloadWithCollidingTokens.drop 4)) ∧
    extractWithTable unitTableAsDeclared payloadWithCollidingTokens =
      .ok (some (Double.finite 1, payloadWithCollidingTokens.drop 3)) ∧
    extractWithTable unitTableAsDeclared payloadWithCollidingTokens ≠
      extractQRCodeDimensionFromString payloadWithCollidingTokens := by
  obtain ⟨_, h2, _, h4, _⟩ := payloadWithCollidingTokens_finds
  obtain ⟨r1, r2⟩ := payloadWithCollidingTokens_results
  refine ⟨by decide!, h2, h4, currentIndex_of_find h2 (by decide),
    currentIndex_of_find h4 (by decide), r1, r2, ?_⟩
  rw [r1, r2]
  intro hc
  have hd : Double.finite 1 = roundBinary64 (3048 / 10000) := by
    simp only [Except.ok.injEq, Option.some.injEq, Prod.mk.injEq] at hc
    exact hc.1
  exact absurd hd (by decide!)

/-- C22, amended: no unit token is a prefix of another, so no two unit tokens have their
first occurrence at the same index of a buffer; and for a payload of at most `2^32 + 1`
characters, with the entries of the unit table taken in any order, the loop ends in the
same state and the parser gives the same result (success, dimension and identifier, or
the exception). -/
theorem result_independent_of_table_order (table : List (CppString × Double))
    (hp : table.Perm unitIdentifierToMetricMeterConversionFactor) :
    (∀ t ∈ unitTokens, ∀ u ∈ unitTokens, t <+: u → t = u) ∧
    (∀ (buffer : CppString) (i : Nat), ∀ t ∈ unitTokens, ∀ u ∈ unitTokens,
      find buffer t = some i → find buffer u = some i → t = u) ∧
    (∀ buffer, buffer.length < 2 ^ 32 + 2 → unitSearchIn table buffer = unitSearch buffer) ∧
    (∀ p, p.length < 2 ^ 32 + 2 →
      extractWithTable table p = extractQRCodeDimensionFromString p) := by
  refine ⟨unitToken_prefix_free, ?_, unitSearchIn_perm hp, extractWithTable_perm hp⟩
  intro buffer i t ht u hu hft hfu
  exact unitToken_eq_of_prefix_same ht hu ((find_eq_some_iff buffer t i).1 hft).1
    ((find_eq_some_iff buffer u i).1 hfu).1

/-- The table in the order of the header, `m-` first, gives the results of the table in
the order of the map, `cm-` first, on every payload of at most `2^32 + 1` characters. -/
theorem result_independent_of_table_order_witness :
    unitTableAsDeclared.Perm unitIdentifierToMetricMeterConversionFactor ∧
    (∀ t ∈ unitTokens, ∀ u ∈ unitTokens, t <+: u → t = u) ∧
    (∀ (buffer : CppString) (i : Nat), ∀ t ∈ unitTokens, ∀ u ∈ unitTokens,
      find buffer t = some i → find buffer u = some i → t = u) ∧
    (∀ buffer, buffer.length < 2 ^ 32 + 2 →
      unitSearchIn unitTableAsDeclared buffer = unitSearch buffer) ∧
    (∀ p, p.length < 2 ^ 32 + 2 →
      extractWithTable unitTableAsDeclared p = extractQRCodeDimensionFromString p) :=
  ⟨by decide!, result_independent_of_table_order unitTableAsDeclared (by decide!)⟩

/-- In `12.3mm-tester` the loop over the table in the order of the header meets `m-` at
index 5 first and then replaces it by `mm-` at index 4. -/
theorem table_order_example :
    unitSearchIn unitTableAsDeclared "12.3mm-tester".toList =
      { minimumUnitIdentifierStartingIndex := 4, minimumUnitIDType := "mm-".toList } ∧
    extractWithTable unitTableAsDeclared "12.3mm-tester".toList =
      extractQRCodeDimensionFromString "12.3mm-tester".toList :=
  ⟨by decide, by decide!⟩

/-! ## The pose as a rigid transform -/

/-- In that example the translation column of the pose is `(-2, 1, -3)`. -/
theorem rigid_inverse_translation_example :
    -((!![0, -1, 0; 1, 0, 0; 0, 0, 1] : Matrix (Fin 3) (Fin 3) ℚ).transpose *
        (!![1; 2; 3] : Matrix (Fin 3) (Fin 1) ℚ)) = !![-2; 1; -3] := by
  decide!


end QRCodeStateEstimation
